import Mathlib

/-! # Projectiles and hit resolution (source/game/weapon.h, weapon.cpp, projectile.h, projectile.cpp)

A shallow embedding of the weapon / projectile core, followed by the properties
proved about it.

Conventions of the embedding
* C++ `int` is `Int`; `/` on `int` is `Int.tdiv` (truncation toward zero).  Signed
  overflow is undefined in C++, so the embedding describes the runs on which no
  `int` operation overflows; the theorems on the order of the values returned by
  `calcdamage` carry the bound, stated with `INT_MAX`, that keeps every operation in
  range.
* `float` is `ℚ`; the conversion `float -> int` is `ftoi` (truncation toward zero).
  Where a `float` result is truncated to an `int` (`applyradialeffect`), every `float`
  operation is rounded to a 32-bit float by `f32`; elsewhere the geometry is read over
  the rationals.
* Pointers to entities are compared through the field `id` of the entity.
* Engine services that are declared outside these four files (geometry, physics,
  materials, random numbers, game mode) are fields of the records `Game` and
  `Engine`, so every theorem holds for all of their implementations.
* Calls that only draw or play something (particles, stains, lights, sounds) are
  left out; every call that changes game state or records a hit is kept.
-/

set_option autoImplicit false

namespace game

/-! ## weapon.h : flags, enumerations, constants -/

def HIT_TORSO : Nat := 1
def HIT_LEGS : Nat := 2
def HIT_HEAD : Nat := 4
def HIT_MATERIAL : Nat := 8
def HIT_DIRECT : Nat := 16

/-- The C test `flags & bit` used as a condition. -/
def hasflag (flags bit : Nat) : Bool := flags &&& bit != 0

def ACT_IDLE : Int := 0
def ACT_MELEE : Int := 1
def ACT_PRIMARY : Int := 2
def ACT_SECONDARY : Int := 3
def NUMACTS : Int := 4

def ATK_MELEE : Int := 0
def ATK_MELEE2 : Int := 1
def ATK_SCATTER1 : Int := 2
def ATK_SCATTER2 : Int := 3
def ATK_SMG1 : Int := 4
def ATK_SMG2 : Int := 5
def ATK_PULSE1 : Int := 6
def ATK_PULSE2 : Int := 7
def ATK_ROCKET1 : Int := 8
def ATK_ROCKET2 : Int := 9
def ATK_RAIL1 : Int := 10
def ATK_RAIL2 : Int := 11
def ATK_GRENADE1 : Int := 12
def ATK_GRENADE2 : Int := 13
def ATK_PISTOL1 : Int := 14
def ATK_PISTOL2 : Int := 15
def ATK_PISTOL_COMBO : Int := 16
def ATK_INSTA : Int := 17
def ATK_ZOMBIE : Int := 18
def NUMATKS : Int := 19

def validatk (atk : Int) : Bool := decide (0 ≤ atk) && decide (atk < NUMATKS)

def GUN_SCATTER : Int := 0
def GUN_SMG : Int := 1
def GUN_PULSE : Int := 2
def GUN_ROCKET : Int := 3
def GUN_RAIL : Int := 4
def GUN_GRENADE : Int := 5
def GUN_PISTOL : Int := 6
def GUN_INSTA : Int := 7
def GUN_ZOMBIE : Int := 8
def NUMGUNS : Int := 9

def validgun (gun : Int) : Bool := decide (0 ≤ gun) && decide (gun < NUMGUNS)

def GUN_MAXRAYS : Nat := 20
def DAM_ALLYDIV : Int := 2
def EXP_DISTSCALE : ℚ := 3 / 2

/-- The largest value of a 32-bit `int`. -/
def INT_MAX : Int := 2147483647

/-! ## projectile.h : projectile kinds -/

def OFFSETMILLIS : Int := 500

def ProjFlag_Weapon : Nat := 1
def ProjFlag_Junk : Nat := 2
def ProjFlag_Bounce : Nat := 4
def ProjFlag_Linear : Nat := 8
def ProjFlag_Impact : Nat := 16
def ProjFlag_Quench : Nat := 32
def ProjFlag_Immortal : Nat := 64

def Projectile_Grenade : Int := 0
def Projectile_Grenade2 : Int := 1
def Projectile_Rocket : Int := 2
def Projectile_Rocket2 : Int := 3
def Projectile_Pulse : Int := 4
def Projectile_Plasma : Int := 5
def Projectile_Gib : Int := 6
def Projectile_Debris : Int := 7
def Projectile_Eject : Int := 8
def Projectile_Bullet : Int := 9
def Projectile_Max : Int := 10

def isvalidprojectile (type : Int) : Bool := decide (0 ≤ type) && decide (type < Projectile_Max)

/-- One row of `projs`; the model directory and the two sound ids are presentation
data and are left out. -/
structure projectileinfo where
  type : Int
  flags : Nat
  maxbounces : Int
  variants : Int
  radius : ℚ

def projs : List projectileinfo :=
  [ { type := Projectile_Grenade,  flags := ProjFlag_Weapon ||| ProjFlag_Bounce, maxbounces := 0, variants := 0, radius := 7 / 5 },
    { type := Projectile_Grenade2, flags := ProjFlag_Weapon ||| ProjFlag_Bounce ||| ProjFlag_Impact, maxbounces := 0, variants := 0, radius := 7 / 5 },
    { type := Projectile_Rocket,   flags := ProjFlag_Weapon ||| ProjFlag_Linear ||| ProjFlag_Impact, maxbounces := 0, variants := 0, radius := 7 / 5 },
    { type := Projectile_Rocket2,  flags := ProjFlag_Weapon ||| ProjFlag_Bounce, maxbounces := 2, variants := 0, radius := 2 },
    { type := Projectile_Pulse,    flags := ProjFlag_Weapon ||| ProjFlag_Linear ||| ProjFlag_Quench ||| ProjFlag_Impact ||| ProjFlag_Immortal, maxbounces := 0, variants := 0, radius := 1 },
    { type := Projectile_Plasma,   flags := ProjFlag_Weapon ||| ProjFlag_Linear ||| ProjFlag_Quench ||| ProjFlag_Impact ||| ProjFlag_Immortal, maxbounces := 0, variants := 0, radius := 1 },
    { type := Projectile_Gib,      flags := ProjFlag_Junk ||| ProjFlag_Bounce, maxbounces := 2, variants := 5, radius := 3 / 2 },
    { type := Projectile_Debris,   flags := ProjFlag_Junk ||| ProjFlag_Bounce, maxbounces := 0, variants := 0, radius := 9 / 5 },
    { type := Projectile_Eject,    flags := ProjFlag_Junk ||| ProjFlag_Bounce, maxbounces := 2, variants := 0, radius := 2 / 5 },
    { type := Projectile_Bullet,   flags := ProjFlag_Junk ||| ProjFlag_Linear, maxbounces := 0, variants := 0, radius := 2 / 5 } ]

/-- The array access `projs[type]`; `none` stands for an access outside the array. -/
def projAt (type : Int) : Option projectileinfo :=
  if 0 ≤ type then projs.get? type.toNat else none

def isweaponprojectile (projectile : Int) : Bool :=
  isvalidprojectile projectile &&
    (match projAt projectile with
     | some p => hasflag p.flags ProjFlag_Weapon
     | none => false)

/-! ## weapon.h : the attack table -/

/-- One row of `attacks`; the animation and sound ids are presentation data and
are left out.  `NULL` in the `gun` column of the melee rows is the integer 0. -/
structure attackinfo where
  gun : Int
  action : Int
  projectile : Int
  attackdelay : Int
  damage : Int
  headshotdam : Int
  spread : Int
  margin : Int
  projspeed : Int
  kickamount : Int
  range : Int
  rays : Int
  hitpush : Int
  exprad : Int
  lifetime : Int
  use : Int
  gravity : ℚ
  elasticity : ℚ
  isloop : Bool
  isfullauto : Bool

/-- Positional constructor in the column order of the source table. -/
def mkatk (gun action projectile attackdelay damage headshotdam spread margin projspeed
    kickamount range rays hitpush exprad lifetime use : Int) (gravity elasticity : ℚ)
    (isloop isfullauto : Bool) : attackinfo :=
  { gun := gun, action := action, projectile := projectile, attackdelay := attackdelay,
    damage := damage, headshotdam := headshotdam, spread := spread, margin := margin,
    projspeed := projspeed, kickamount := kickamount, range := range, rays := rays,
    hitpush := hitpush, exprad := exprad, lifetime := lifetime, use := use,
    gravity := gravity, elasticity := elasticity, isloop := isloop, isfullauto := isfullauto }

def attacks : List attackinfo :=
  [ mkatk 0           ACT_MELEE     (-1)                650  60  0   0 2    0  0   14  1  50  0    0 0 0 0 false false,
    mkatk 0           ACT_MELEE     (-1)                420  25  0   0 1    0  0   16  1  50  0    0 0 0 0 false false,
    mkatk GUN_SCATTER ACT_PRIMARY   Projectile_Bullet   880   5  5 260 0 1200 20 1000 20  60  0    0 1 0 0 false true,
    mkatk GUN_SCATTER ACT_SECONDARY Projectile_Bullet   980   6  5 120 0 1200 25 1000 10  60  0    0 1 0 0 false true,
    mkatk GUN_SMG     ACT_PRIMARY   Projectile_Bullet   110  16 14  84 0 1500  7 1000  1  60  0    0 1 0 0 false true,
    mkatk GUN_SMG     ACT_SECONDARY Projectile_Bullet   160  17 15  30 0 1500 10 1000  1  80  0    0 1 0 0 false true,
    mkatk GUN_PULSE   ACT_PRIMARY   Projectile_Pulse    180  22  0   0 1 1000  8 2048  1  80 18 3000 2 0 0 false true,
    mkatk GUN_PULSE   ACT_SECONDARY (-1)                 80  14  0   0 0    0  2  200  1 150  0    0 1 0 0 true  true,
    mkatk GUN_ROCKET  ACT_PRIMARY   Projectile_Rocket   920 110  0   0 0  300  0 2048  1 110 33 5000 1 0 0 false false,
    mkatk GUN_ROCKET  ACT_SECONDARY Projectile_Rocket2  920 110  0   0 0  300  0 2048  1 110 33 2000 1 (3/5) (7/10) false false,
    mkatk GUN_RAIL    ACT_PRIMARY   Projectile_Bullet  1200  70 30   0 0 2000 30 5000  1 100  0    0 1 0 0 false false,
    mkatk GUN_RAIL    ACT_SECONDARY Projectile_Bullet  1400 100 10   0 0 2000 30 5000  1 100  0    0 1 0 0 false false,
    mkatk GUN_GRENADE ACT_PRIMARY   Projectile_Grenade  650  90  0   0 0  200 10 2024  1 250 45 1500 1 (7/10) (4/5) false true,
    mkatk GUN_GRENADE ACT_SECONDARY Projectile_Grenade2 750  90  0   0 0  190 10 2024  1 200 35 2000 1 1 0 false true,
    mkatk GUN_PISTOL  ACT_PRIMARY   Projectile_Bullet   300  18 17  60 0 1500 12 1000  1 180  0    0 1 0 0 false false,
    mkatk GUN_PISTOL  ACT_SECONDARY Projectile_Plasma   600  15  0   0 5  400 15 2048  1 500  8 2000 2 0 0 false false,
    mkatk GUN_PISTOL  ACT_SECONDARY (-1)               1000  80  0   0 0  400  0 2048  1 350 50    0 0 0 0 false false,
    mkatk GUN_INSTA   ACT_PRIMARY   (-1)               1200   1  0   0 0    0 36 4000  1   1  0    0 0 0 0 false true,
    mkatk GUN_ZOMBIE  ACT_PRIMARY   (-1)                600 100  0   0 4    0  0   15  1  20  0    0 0 0 0 false false ]

/-- The array access `attacks[atk]`; `none` stands for an access outside the array,
which the C++ code does not guard. -/
def attackAt (atk : Int) : Option attackinfo :=
  if 0 ≤ atk then attacks.get? atk.toNat else none

/-! ## Entities and ambient game state -/

/-- A vector of three floats. -/
structure vec where
  x : ℚ
  y : ℚ
  z : ℚ
deriving DecidableEq

namespace vec
def add (a b : vec) : vec := { x := a.x + b.x, y := a.y + b.y, z := a.z + b.z }
def sub (a b : vec) : vec := { x := a.x - b.x, y := a.y - b.y, z := a.z - b.z }
def mul (a : vec) (f : ℚ) : vec := { x := a.x * f, y := a.y * f, z := a.z * f }
def zero : vec := { x := 0, y := 0, z := 0 }
end vec

/-- The conversion of a `float` to an `int`: truncation toward zero. -/
def ftoi (q : ℚ) : Int := if 0 ≤ q then ⌊q⌋ else ⌈q⌉

/-- The number of binary digits of `n` (0 for 0), counted with at most `fuel` halvings. -/
def bitlenAux : Nat → Nat → Nat
  | 0, _ => 0
  | fuel + 1, n => if n = 0 then 0 else bitlenAux fuel (n / 2) + 1

/-- The number of binary digits of `n`: `2 ^ (bitlen n - 1) ≤ n < 2 ^ bitlen n` for
`0 < n`. -/
def bitlen (n : Nat) : Nat := bitlenAux n n

/-- The integer nearest to `N / D`, a tie going to the even one. -/
def roundeven (N D : Nat) : Nat :=
  let q := N / D
  let r := N % D
  if 2 * r < D then q
  else if D < 2 * r then q + 1
  else if q % 2 = 0 then q else q + 1

/-- The binary exponent of the rational `n / d` (`0 < n`, `0 < d`): the `e` with
`2 ^ e ≤ n / d < 2 ^ (e + 1)`.  The digit counts give it up to 1, a comparison settles
it. -/
def binexp (n d : Nat) : Int :=
  let e0 : Int := (bitlen n : Int) - (bitlen d : Int)
  if (if 0 ≤ e0 then d * 2 ^ e0.toNat ≤ n else d ≤ n * 2 ^ (-e0).toNat) then e0 else e0 - 1

/-- The multiple of `2 ^ k` nearest to `n / d`, a tie going to the even multiple. -/
def roundto (n d : Nat) (k : Int) : ℚ :=
  if 0 ≤ k then ((roundeven n (d * 2 ^ k.toNat) * 2 ^ k.toNat : Nat) : ℚ)
  else (roundeven (n * 2 ^ (-k).toNat) d : ℚ) / ((2 ^ (-k).toNat : Nat) : ℚ)

/-- The `float` nearest to the real number `x`: rounding to a 24-bit significand with an
exponent of at least -149, a tie going to the even significand (IEEE 754 binary32, round
to nearest even): with `e` the binary exponent of `x`, the floats around `x` are the
multiples of `2 ^ max (e - 23) (-149)`.  A `float` operation of the program returns the
rounding of its exact result, and the conversion `int -> float` the rounding of the
integer.  Numbers beyond the largest finite `float` are rounded the same way. -/
def f32 (x : ℚ) : ℚ :=
  if x = 0 then 0
  else
    let y := roundto x.num.natAbs x.den (max (binexp x.num.natAbs x.den - 23) (-149))
    if x < 0 then -y else y

/-- Powerup kinds tested through `haspowerup` in these files. -/
inductive Powerup where
  | PU_DAMAGE
  | PU_HASTE
  | PU_ARMOR
  | PU_AMMO
  | PU_INVULNERABILITY
deriving DecidableEq

/-- Entity states and types of the engine enumerations; only comparisons with these
constants occur in the code. -/
def CS_ALIVE : Int := 0
def ENT_PLAYER : Int := 0
def ENT_AI : Int := 1

/-- The part of `gameent` (and of its bases `dynent`, `physent`, declared in game.h and
the engine) that the weapon and projectile code reads or writes.  `id` stands for the
address of the object: a pointer comparison `a == b` is a comparison of `id`.  The
member function `haspowerup` is `gameent.haspowerup` below, over the powerups held;
`iscrouched` is the value of the member function `crouched()`; `ammo` is the array
`ammo[NUMGUNS]` as the list of its `NUMGUNS` values. -/
structure gameent where
  id : Nat
  type : Int := ENT_PLAYER
  state : Int := CS_ALIVE
  health : Int := 100
  role : Int := 0
  powerups : List Powerup := []
  o : vec := vec.zero
  radius : ℚ := 4
  eyeheight : ℚ := 14
  aboveeye : ℚ := 1
  head : vec := vec.zero
  headradius : ℚ := 2
  legsradius : ℚ := 3
  yaw : ℚ := 0
  ai : Bool := false
  vel : vec := vec.zero
  physstate : Int := 0
  crouching : Bool := false
  iscrouched : Bool := false
  skill : Int := 0
  eject : vec := { x := -1, y := -1, z := -1 }
  ammo : List Int := [0, 0, 0, 0, 0, 0, 0, 0, 0]
  gunselect : Int := 0
  attacking : Int := 0
  lastaction : Int := 0
  lastattack : Int := -1
  lastswitch : Int := 0
  gunwait : Int := 0
  totalshots : Int := 0
  pitchrecoil : ℚ := 0
deriving DecidableEq

def gameent.haspowerup (d : gameent) (p : Powerup) : Bool := d.powerups.contains p

/-- Globals and functions of the game module that these files use and that are
declared elsewhere (game.h): the intermission flag `betweenrounds`, the mutator test
`m_mayhem(mutators)`, the role constant, `isinvulnerable` and `isally`, the dynamic
entities in the order of `iterdynents`, the clock `lastmillis`, the player whose view
is shown (`hudplayer`), `isthirdperson`, the variable `maxdebris`, the default
value of the `flags` parameter of `calcdamage`, which its declaration supplies when
`calcdamage` is called with four arguments, the local player `self` and the value of
`followingplayer(self)` (both as addresses). -/
structure Game where
  betweenrounds : Bool := false
  mayhem : Bool := false
  ROLE_BERSERKER : Int := 1
  isinvulnerable : gameent → gameent → Bool := fun _ _ => false
  isally : gameent → gameent → Bool := fun _ _ => false
  dynents : List gameent := []
  lastmillis : Int := 0
  hudplayer : Nat := 0
  isthirdperson : Bool := false
  maxdebris : Int := 60
  defaultflags : Nat := HIT_TORSO
  self : Nat := 0
  followingplayer : Nat := 0

/-! ## weapon.cpp : calcdamage -/

/-- Source: `int calcdamage(int damage, gameent *target, gameent *actor, int atk, int flags)`
(weapon.cpp 297-320).  The result is `none` when the body indexes `attacks` with an
`atk` outside the table. -/
def calcdamage (G : Game) (damage : Int) (target actor : gameent) (atk : Int) (flags : Nat) :
    Option Int := do
  if target.id != actor.id && G.isinvulnerable target actor then
    return 0
  let mut damage := damage
  if !(hasflag flags HIT_MATERIAL) then
    let a ← attackAt atk
    if a.headshotdam != 0 && !(isweaponprojectile a.projectile) then
      if hasflag flags HIT_HEAD then
        if G.mayhem then
          return target.health
        else
          damage := damage + a.headshotdam
      if hasflag flags HIT_LEGS then
        damage := damage.tdiv 2
    if actor.haspowerup Powerup.PU_DAMAGE || actor.role == G.ROLE_BERSERKER then
      damage := damage * 2
    if G.isally target actor || target.id == actor.id then
      damage := damage.tdiv DAM_ALLYDIV
  if target.haspowerup Powerup.PU_ARMOR || target.role == G.ROLE_BERSERKER then
    damage := damage.tdiv 2
  if damage == 0 then
    damage := 1
  return damage

/-- The scaling steps of the damage pipeline as the specification words them:
headshot bonus, leg halving, damage doubling, ally division, armor halving, each
guarded by its condition (`locational`: the attack defines headshot damage and its
projectile kind is not a weapon projectile). -/
def damageScaled (damage headshotdam : Int) (locational head legs boosted ally armored : Bool) :
    Int :=
  let s1 := if locational && head then damage + headshotdam else damage
  let s2 := if locational && legs then s1.tdiv 2 else s1
  let s3 := if boosted then s2 * 2 else s2
  let s4 := if ally then s3.tdiv DAM_ALLYDIV else s3
  if armored then s4.tdiv 2 else s4

/-- The whole pipeline of the specification: the scaling steps, then a result of 0
replaced by 1. -/
def damageSteps (damage headshotdam : Int) (locational head legs boosted ally armored : Bool) :
    Int :=
  let s5 := damageScaled damage headshotdam locational head legs boosted ally armored
  if s5 = 0 then 1 else s5

/-- The last two statements of `calcdamage`, `if(!damage) damage = 1; return damage;`,
as a function of the value reaching them. -/
def floorReturn (e : Int) : Option Int := if (e == 0) = true then some 1 else some e

/-- The condition under which `calcdamage` leaves through
`return (damage = target->health)`: no material flag, an attack with locational
damage, the head flag, and the Mayhem mutator. -/
def forcesDeath (G : Game) (a : attackinfo) (flags : Nat) : Bool :=
  !(hasflag flags HIT_MATERIAL) && (a.headshotdam != 0 && !(isweaponprojectile a.projectile)) &&
    hasflag flags HIT_HEAD && G.mayhem

/-! ## projectile.h : struct projectile, and the engine services -/

/-- The fields of `projectile` and of its base `physent` that the code uses.  `key`
stands for the address of the heap object (the collection holds pointers); `owner`
is the entity pointed to.  Sound channels, the interpolation state and `lastyaw` are
presentation data and are left out.  Fields the constructor leaves uninitialised
start at 0. -/
structure projectile where
  key : Nat := 0
  owner : gameent
  type : Int := 0
  o : vec := vec.zero
  vel : vec := vec.zero
  speed : ℚ := 0
  radius : ℚ := 0
  inwater : Nat := 0
  offset : vec := vec.zero
  lastposition : vec := vec.zero
  islocal : Bool := false
  isdestroyed : Bool := false
  isdirect : Bool := false
  roll : ℚ := 0
  gravity : ℚ := 0
  elasticity : ℚ := 0
  offsetheight : ℚ := 0
  dist : ℚ := 0
  id : Int := 0
  atk : Int := 0
  projtype : Int := 0
  flags : Nat := 0
  lifetime : Int := 0
  variant : Int := 0
  bounces : Int := 0
  offsetmillis : Int := 0
  lastbounce : Int := 0
  dv : vec := vec.zero
  from_ : vec := vec.zero
  to_ : vec := vec.zero
deriving DecidableEq

/-- What one call of a physics routine (`physics::isbouncing`, `physics::hasbounced`) does
to a projectile: it moves it, calls back `game::bounce` once per surface struck and
`game::collidewithentity` when an entity is struck, and returns a flag. -/
structure physmove where
  o : vec
  vel : vec
  surfaces : List vec := []
  entityhit : Bool := false
  result : Bool

/-- The services of the engine that the code calls and that are defined outside these
files: vector length, normalisation and rotation (`rotate_yaw v yaw` is
`v.rotate_around_z(yaw * RAD)`), the cheap box test `vec::reject`, the
segment/cylinder test, material lookup with its constants, the entity type
constants, ray casts (`raycubepos` is the call with radius 0, `raycubeposradius` the
call with a radius), the physics routines, the muzzle position, the random
generator (`rnd(n)` is `randomMT() % n`; the argument counts the calls made so far),
and the physics state constant `PHYS_SLOPE`. -/
structure Engine where
  magnitude : vec → ℚ
  safenormalize : vec → vec
  normalize : vec → vec
  rotate_yaw : vec → ℚ → vec
  ENT_BOUNCE : Int
  ENT_PROJECTILE : Int
  reject : vec → vec → ℚ → Bool
  linecylinderintersect : vec → vec → vec → vec → ℚ → Option ℚ
  lookupmaterial : vec → Nat
  MATF_VOLUME : Nat
  MAT_AIR : Nat
  MAT_WATER : Nat
  MAT_LAVA : Nat
  isliquidmaterial : Nat → Bool
  raycube : vec → vec → ℚ → ℚ
  raycubepos : vec → vec → ℚ × vec
  raycubeposradius : vec → vec → ℚ → ℚ × vec
  isbouncing : projectile → physmove
  hasbounced : projectile → ℚ → physmove
  liquidtransition : projectile → Nat → Bool → Int × Nat
  avoidcollision : projectile → vec → gameent → vec
  hudgunorigin : Int → vec → vec → gameent → vec
  randomMT : Nat → Nat
  rndscale : Nat → ℚ → ℚ
  PHYS_SLOPE : Int := 3

/-- One call of `hit` (reached through `calcpush`) or of `registerhit`: the damage, the
entity hit, the attacker, the push direction, the attack and the two info values.
Health is changed only inside these calls, so the log of calls is the record of all
damage dealt.  (The vector `hits` of network hit messages, which `hit` fills in
multiplayer and the senders clear, is a function of this log and is not kept.) -/
structure hitcall where
  damage : Int
  target : Nat
  attacker : Nat
  vel : vec
  atk : Int
  info1 : ℚ
  info2 : Int
  flags : Nat
deriving DecidableEq

/-- A network message queued with `addmsg`: `N_SHOOT` or `N_EXPLODE`, with the sender,
the attack and the projectile id, or `N_GUNSELECT` (flag `gunselect`), with the sender
and the gun in the place of the attack. -/
structure netmsg where
  explode : Bool
  sender : Nat
  atk : Int
  id : Int
  gunselect : Bool := false
deriving DecidableEq

/-- The mutable globals of the two modules: the projectile collection, the ray
buffer `rays[GUN_MAXRAYS]`, the log of hit calls, the queued messages, the number of
random draws made, and the next fresh object address. -/
structure World where
  projectiles : List projectile := []
  rays : List vec := []
  hitlog : List hitcall := []
  msgs : List netmsg := []
  rng : Nat := 0
  nextkey : Nat := 0

/-! ## weapon.cpp : hit boxes, intersectclosest, hitscan -/

/-- Source: `isheadhitbox` (weapon.cpp 650-655). -/
def isheadhitbox (E : Engine) (d : gameent) (from_ to_ : vec) : Bool :=
  let bottom := d.head
  let top := { d.head with z := d.head.z + d.headradius }
  (E.linecylinderintersect from_ to_ bottom top d.headradius).isSome

/-- Source: `islegshitbox` (weapon.cpp 657-663). -/
def islegshitbox (E : Engine) (d : gameent) (from_ to_ : vec) : Bool :=
  let bottom := { d.o with z := d.o.z - d.eyeheight }
  let top := { d.o with z := d.o.z - d.eyeheight / (5 / 2) }
  (E.linecylinderintersect from_ to_ bottom top d.legsradius).isSome

/-- Source: `isintersecting` (weapon.cpp 665-671); the result carries `dist`. -/
def isintersecting (E : Engine) (d : gameent) (from_ to_ : vec) (margin : ℚ) : Option ℚ :=
  let bottom := { d.o with z := d.o.z - (d.eyeheight + margin) }
  let top := { d.o with z := d.o.z + (d.aboveeye + margin) }
  E.linecylinderintersect from_ to_ bottom top (d.radius + margin)

/-- Source: `intersectclosest` (weapon.cpp 673-690): the pair `(best, bestdist)` after the
loop over the dynamic entities. -/
def intersectclosest (G : Game) (E : Engine) (from_ to_ : vec) (actor : gameent) (margin : ℚ) :
    Option gameent × ℚ :=
  G.dynents.foldl
    (fun (acc : Option gameent × ℚ) (o : gameent) =>
      if o.id == actor.id || o.state != CS_ALIVE then acc
      else match isintersecting E o from_ to_ margin with
        | none => acc
        | some dist => if dist < acc.2 then (some o, dist) else acc)
    (none, 10 ^ 16)

/-- Source: `shorten` (weapon.cpp 692-695). -/
def shorten (from_ target : vec) (dist : ℚ) : vec :=
  ((target.sub from_).mul (min 1 dist)).add from_

/-- Source: `calcpush` (weapon.cpp 322-327) with the call of `hit` recorded in the log. -/
def calcpush (G : Game) (E : Engine) (damage : Int) (d actor : gameent) (from_ to_ : vec)
    (atk : Int) (rays : Int) (flags : Nat) (log : List hitcall) : List hitcall :=
  if G.betweenrounds then log
  else
    let velocity := E.safenormalize (to_.sub from_)
    log ++ [{ damage := damage, target := d.id, attacker := actor.id, vel := velocity,
              atk := atk, info1 := E.magnitude (from_.sub to_), info2 := rays, flags := flags }]

/-- The first loop of the multi-ray branch of `hitscan` (weapon.cpp 707-717) from index
`i` on, `n` iterations left: it fills `hits[i]`, shortens `rays[i]`, and overwrites
`hitlegs` and `hithead` at every ray that struck something.  `none`: an index outside
`rays` or `hits`. -/
def hitscanResolve (G : Game) (E : Engine) (from_ : vec) (d : gameent) (margin : ℚ) :
    Nat → Nat → List vec → List (Option gameent) → Bool → Bool →
    Option (List vec × List (Option gameent) × Bool × Bool)
  | 0, _, rays, hits, hitlegs, hithead => some (rays, hits, hitlegs, hithead)
  | n + 1, i, rays, hits, hitlegs, hithead =>
    if GUN_MAXRAYS ≤ i then none
    else match rays.get? i with
      | none => none
      | some r =>
        match intersectclosest G E from_ r d margin with
        | (some o, dist) =>
          hitscanResolve G E from_ d margin n (i + 1) (rays.set i (shorten from_ r dist))
            (hits ++ [some o]) (islegshitbox E o from_ r) (isheadhitbox E o from_ r)
        | (none, _) =>
          hitscanResolve G E from_ d margin n (i + 1) rays (hits ++ [none]) hitlegs hithead

/-- The inner loop `for(int j = i+1; j < maxrays; j++) if(hits[j] == o)` (weapon.cpp
724-728) from index `j` on: clears the entries equal to `o` and counts them. -/
def hitscanCount (o : gameent) : Nat → Nat → List (Option gameent) → Int →
    List (Option gameent) × Int
  | 0, _, hits, numhits => (hits, numhits)
  | n + 1, j, hits, numhits =>
    match hits.get? j with
    | some (some h) =>
      if h.id == o.id then hitscanCount o n (j + 1) (hits.set j none) (numhits + 1)
      else hitscanCount o n (j + 1) hits numhits
    | _ => hitscanCount o n (j + 1) hits numhits

/-- The second loop of the multi-ray branch of `hitscan` (weapon.cpp 719-737) from index
`i` on, `n` iterations left.  `damage` and `flags` are the local variables of
`hitscan`; they are assigned inside the loop and keep their values from one struck
target to the next. -/
def hitscanDamage (G : Game) (E : Engine) (a : attackinfo) (from_ to_ : vec) (d : gameent)
    (atk : Int) (hitlegs hithead : Bool) (maxrays : Nat) :
    Nat → Nat → List (Option gameent) → Int → Nat → List hitcall → Option (List hitcall)
  | 0, _, _, _, _, log => some log
  | n + 1, i, hits, damage, flags, log =>
    match hits.get? i with
    | some (some o) =>
      let hits1 := hits.set i none
      let (hits2, numhits) := hitscanCount o (maxrays - (i + 1)) (i + 1) hits1 1
      let flags1 := if a.headshotdam != 0 then
          (let f := if hithead then flags ||| HIT_HEAD else flags
           if hitlegs then f ||| HIT_LEGS else f)
        else flags
      match calcdamage G damage o d atk flags1 with
      | none => none
      | some damage1 =>
        hitscanDamage G E a from_ to_ d atk hitlegs hithead maxrays n (i + 1) hits2 damage1 flags1
          (calcpush G E (numhits * damage1) o d from_ to_ atk numhits flags1 log)
    | _ => hitscanDamage G E a from_ to_ d atk hitlegs hithead maxrays n (i + 1) hits damage flags log

/-- Source: `hitscan` (weapon.cpp 697-765).  The result is the world after the call and
the value left in the reference parameter `to`.  The impact, blood and camera-roll
effects are left out. -/
def hitscan (G : Game) (E : Engine) (from_ to_ : vec) (d : gameent) (atk : Int) (w : World) :
    Option (World × vec) := do
  let a ← attackAt atk
  let maxrays := a.rays
  let margin : ℚ := a.margin
  let damage := a.damage
  let flags := HIT_TORSO
  if a.rays > 1 then
    if G.betweenrounds then
      return (w, to_)
    let (rays, hits, hitlegs, hithead) ←
      hitscanResolve G E from_ d margin maxrays.toNat 0 w.rays [] false false
    let log ← hitscanDamage G E a from_ to_ d atk hitlegs hithead maxrays.toNat maxrays.toNat 0
      hits damage flags w.hitlog
    return ({ w with rays := rays, hitlog := log }, to_)
  else
    if G.betweenrounds then
      return (w, to_)
    match intersectclosest G E from_ to_ d margin with
    | (some o, dist) =>
      let hitlegs := islegshitbox E o from_ to_
      let hithead := isheadhitbox E o from_ to_
      let to1 := shorten from_ to_ dist
      let flags1 := if a.headshotdam != 0 then
          (if hithead then HIT_HEAD else if hitlegs then HIT_LEGS else flags)
        else flags
      let damage1 ← calcdamage G damage o d atk flags1
      return ({ w with hitlog := calcpush G E damage1 o d from_ to1 atk 1 flags1 w.hitlog }, to1)
    | (none, _) => return (w, to_)

/-! ## projectile.h : member functions of projectile -/

/-- `rnd(n)`: the next random draw reduced modulo `n`. -/
def rnd (E : Engine) (n : Int) (w : World) : Int × World :=
  (Int.tmod (E.randomMT w.rng) n, { w with rng := w.rng + 1 })

/-- `rndscale(x)`: the next random float in `[0, x]`. -/
def rndscale (E : Engine) (x : ℚ) (w : World) : ℚ × World :=
  (E.rndscale w.rng x, { w with rng := w.rng + 1 })

/-- `vec::rescale(k)`: scale to length `k` unless the vector is (almost) zero. -/
def vrescale (E : Engine) (v : vec) (k : ℚ) : vec :=
  let mag := E.magnitude v
  if mag > 1 / 1000000 then v.mul (k / mag) else v

/-- Source: `projectile::limitoffset` (projectile.h 82-89). -/
def projectile.limitoffset (E : Engine) (p : projectile) : projectile :=
  if hasflag p.flags ProjFlag_Weapon && decide (p.offsetmillis > 0) && decide (p.offset.z < 0) then
    let start : vec := { x := p.o.x + p.offset.x, y := p.o.y + p.offset.y, z := p.o.z }
    let down : vec := { x := 0, y := 0, z := -1 }
    { p with offsetheight := E.raycube start down (-p.offset.z) }
  else { p with offsetheight := -1 }

/-- Source: `projectile::checkliquid` (projectile.h 127-132). -/
def projectile.checkliquid (E : Engine) (p : projectile) : projectile :=
  let material := E.lookupmaterial p.o
  let isinwater := E.isliquidmaterial (material &&& E.MATF_VOLUME)
  { p with inwater := if isinwater then material &&& E.MATF_VOLUME else E.MAT_AIR }

/-- Source: `projectile::offsetposition` (projectile.h 134-143). -/
def projectile.offsetposition (p : projectile) : vec :=
  if p.offsetmillis > 0 then
    let pos := p.o.add (p.offset.mul ((p.offsetmillis : ℚ) / (OFFSETMILLIS : ℚ)))
    if p.offsetheight ≥ 0 then
      { pos with z := max pos.z (p.o.z - max (p.offsetheight - p.radius) 0) }
    else pos
  else p.o

/-- Source: `projectile::updateposition` (projectile.h 145-161): the projectile after the
call and the position returned. -/
def projectile.updateposition (E : Engine) (p : projectile) (time : Int) : projectile × vec :=
  if hasflag p.flags ProjFlag_Linear then
    let offsetmillis := max (p.offsetmillis - time) 0
    let dv0 := p.to_.sub p.o
    let dist := E.magnitude dv0
    let dv := dv0.mul ((time : ℚ) / max (dist * 1000 / p.speed) (time : ℚ))
    ({ p with offsetmillis := offsetmillis, dist := dist, dv := dv }, p.o.add dv)
  else
    (p, p.o.add (p.offset.mul ((p.offsetmillis : ℚ) / (OFFSETMILLIS : ℚ))))

/-! ## projectile.cpp -/

/-- Source: `makeprojectile` (projectile.cpp 32-86): the new projectile is appended to
the collection.  `none`: `projs[type]` or `attacks[atk]` indexed outside the table. -/
def makeprojectile (G : Game) (E : Engine) (owner : gameent) (from_ to_ : vec) (islocal : Bool)
    (id atk type lifetime speed : Int) (gravity elasticity : ℚ) (w : World) : Option World := do
  let info ← projAt type
  let flags := info.flags
  let p0 : projectile :=
    { key := w.nextkey, owner := owner, type := E.ENT_BOUNCE, projtype := type, flags := flags,
      o := from_, from_ := from_, to_ := to_, radius := info.radius, islocal := islocal,
      id := if islocal then G.lastmillis else id, atk := atk, lifetime := lifetime,
      speed := speed, gravity := gravity, elasticity := elasticity }
  let (variant, w1) := if info.variants > 0 then rnd E info.variants w else (0, w)
  let dir := E.safenormalize (to_.sub from_)
  let vel := if hasflag flags ProjFlag_Bounce then dir.mul speed else dir
  let p1 := { p0 with variant := variant, vel := vel }
  let p2 := { p1 with o := E.avoidcollision p1 dir owner }
  let offset0 ←
    if hasflag flags ProjFlag_Weapon then
      (attackAt atk).map (fun a => E.hudgunorigin a.gun from_ to_ owner)
    else some p2.offset
  let offset1 :=
    if hasflag flags ProjFlag_Bounce then
      if hasflag flags ProjFlag_Weapon then
        if owner.id == G.hudplayer && !G.isthirdperson then
          (vrescale E (offset0.sub owner.o) 16).add owner.o
        else offset0
      else from_
    else offset0
  let o := if hasflag flags ProjFlag_Bounce then p2.o else from_
  let p3 := { p2 with offset := offset1.sub o, offsetmillis := OFFSETMILLIS,
                      lastposition := owner.o }
  let p4 := p3.checkliquid E
  return { w1 with projectiles := w1.projectiles ++ [p4], nextkey := w1.nextkey + 1 }

/-- Source: `bounce` (projectile.cpp 111-123), the callback of the physics routines. -/
def bounce (G : Game) (E : Engine) (proj : projectile) : Option projectile := do
  if proj.type != E.ENT_PROJECTILE then
    return proj
  let p1 := { proj with bounces := proj.bounces + 1 }
  let info ← projAt p1.projtype
  let maxbounces := info.maxbounces
  if (maxbounces != 0 && decide (p1.bounces > maxbounces)) ||
      decide (G.lastmillis - p1.lastbounce < 100) then
    return p1
  return { p1 with lastbounce := G.lastmillis }

/-- Source: `collidewithentity` (projectile.cpp 125-129). -/
def collidewithentity (proj : projectile) : projectile := { proj with isdirect := true }

/-- The effect of one physics call on a projectile: the move, then one `bounce` per
surface struck, then `collidewithentity` if an entity was struck. -/
def applyphysmove (G : Game) (E : Engine) (proj : projectile) (m : physmove) :
    Option projectile := do
  let p1 := { proj with o := m.o, vel := m.vel }
  let p2 ← m.surfaces.foldlM (fun p _ => bounce G E p) p1
  return if m.entityhit then collidewithentity p2 else p2

/-- Source: `projectiledistance` (projectile.cpp 131-141): the distance returned and the
direction written to `dir`. -/
def projectiledistance (E : Engine) (o : gameent) (v vel : vec) : ℚ × vec :=
  let middle := { o.o with z := o.o.z + (o.aboveeye - o.eyeheight) / 2 }
  let dir := E.safenormalize ((middle.sub v).add (vel.mul 5))
  let low := min (o.o.z - o.eyeheight + o.radius) middle.z
  let high := max (o.o.z + o.aboveeye - o.radius) middle.z
  let closest : vec := { x := o.o.x, y := o.o.y, z := max low (min v.z high) }
  (max (E.magnitude (closest.sub v) - o.radius) 0, dir)

/-- The call `registerhit(damage, o, at, o->o, dir, atk, dist, 1, flags)`, recorded in the
log (`registerhit` is declared in game.h). -/
def registerhit (damage : Int) (o actor : gameent) (dir : vec) (atk : Int) (dist : ℚ)
    (rays : Int) (flags : Nat) (log : List hitcall) : List hitcall :=
  log ++ [{ damage := damage, target := o.id, attacker := actor.id, vel := dir, atk := atk,
            info1 := dist, info2 := rays, flags := flags }]

/-- Source: `candealdamage` (projectile.cpp 159-173): the value returned and the log. -/
def candealdamage (G : Game) (E : Engine) (o : gameent) (proj : projectile) (v : vec)
    (damage : Int) (log : List hitcall) : Option (Bool × List hitcall) := do
  if G.betweenrounds || o.state != CS_ALIVE then
    return (false, log)
  let a ← attackAt proj.atk
  if (isintersecting E o proj.o v a.margin).isNone then
    return (false, log)
  if isweaponprojectile proj.projtype then
    let (_, dir) := projectiledistance E o v proj.vel
    let cdamage ← calcdamage G damage o proj.owner proj.atk G.defaultflags
    let flags := HIT_TORSO ||| HIT_DIRECT
    return (true, registerhit cdamage o proj.owner dir proj.atk 0 1 flags log)
  return (true, log)

/-- Source: `spawnbouncer` (projectile.cpp 574-588).  The random draws are made from
left to right. -/
def spawnbouncer (G : Game) (E : Engine) (from_ : vec) (d : gameent) (type : Int) (w : World) :
    Option World := do
  let (rx, w1) := rnd E 100 w
  let (ry, w2) := rnd E 100 w1
  let (rz, w3) := rnd E 100 w2
  let to0 : vec := { x := rx - 50, y := ry - 50, z := rz - 50 }
  let (to1, elasticity, w4) :=
    if type == Projectile_Eject then
      let (r, w4) := rnd E 30 w3
      let side : vec := { x := -50, y := 1, z := r - 15 }
      (E.rotate_yaw side d.yaw, (2 / 5 : ℚ), w4)
    else (to0, (3 / 5 : ℚ), w3)
  let to2 := if to1 = vec.zero then { to1 with z := to1.z + 1 } else to1
  let to3 := (E.normalize to2).add from_
  let (lifetime, w5) :=
    if type == Projectile_Debris then ((400 : Int), w4)
    else (let (r, w5) := rnd E 1000 w4; (r + 1000, w5))
  let (speed, w6) := rnd E 100 w5
  let (g, w7) := rndscale E (4 / 5) w6
  makeprojectile G E d from_ to3 true 0 (-1) type lifetime (speed + 20) (3 / 10 + g) elasticity w7

/-- The loop `loopi(numdebris) spawnbouncer(debrisorigin, owner, Projectile_Debris)`. -/
def spawndebris (G : Game) (E : Engine) (origin : vec) (owner : gameent) :
    Nat → World → Option World
  | 0, w => some w
  | n + 1, w => (spawnbouncer G E origin owner Projectile_Debris w).bind
      (spawndebris G E origin owner n)

/-- Source: `addexplosioneffects` (projectile.cpp 177-256), reduced to what changes the
game state: the two early returns in water and the debris spawned. -/
def addexplosioneffects (G : Game) (E : Engine) (owner : gameent) (atk : Int) (v : vec)
    (w : World) : Option World := do
  let a ← attackAt atk
  let iswater := (E.lookupmaterial v &&& E.MATF_VOLUME) == E.MAT_WATER
  if (atk == ATK_PULSE1 || atk == ATK_PISTOL2) && iswater then
    return w
  if !iswater then
    let (r, w1) := rnd E (G.maxdebris - 5) w
    let numdebris := r + 5
    let debrisvel := E.safenormalize (owner.o.sub v)
    let debrisorigin := if atk == ATK_ROCKET1 then v.add (debrisvel.mul 8) else v
    if numdebris != 0 && (a.gun == GUN_ROCKET || a.gun == GUN_SCATTER) then
      spawndebris G E debrisorigin owner numdebris.toNat w1
    else return w1
  else return w

/-- The initialiser of the local `radiusdamage` of `applyradialeffect`
(projectile.cpp 265), `damage * (1 - dist / EXP_DISTSCALE / attacks[atk].exprad)`, as a
function of the base damage, the distance and the blast radius, with the arithmetic
read over the rationals. -/
def radiusdamage (damage : Int) (dist : ℚ) (exprad : Int) : ℚ :=
  (damage : ℚ) * (1 - dist / EXP_DISTSCALE / (exprad : ℚ))

/-- The same initialiser as the program computes it: `dist` and `EXP_DISTSCALE` are
floats, so the two `int` operands are converted to `float` and each of the two
divisions, the subtraction and the multiplication is rounded to a `float`. -/
def radiusdamage32 (damage : Int) (dist : ℚ) (exprad : Int) : ℚ :=
  f32 (f32 (damage : ℚ) * f32 (1 - f32 (f32 (dist / EXP_DISTSCALE) / f32 (exprad : ℚ))))

/-- Source: `applyradialeffect` (projectile.cpp 258-270).  The local `radiusdamage` is a
`float` and is truncated when passed to `calcdamage`; the result of `calcdamage` is
stored in the local `float damage` and converted back for `registerhit`. -/
def applyradialeffect (G : Game) (E : Engine) (o : gameent) (v vel : vec) (damage : Int)
    (actor : gameent) (atk : Int) (isdirect : Bool) (log : List hitcall) :
    Option (List hitcall) := do
  if o.state != CS_ALIVE then
    return log
  let (dist, dir) := projectiledistance E o v vel
  let a ← attackAt atk
  if dist < (a.exprad : ℚ) then
    let radiusdamage := radiusdamage32 damage dist a.exprad
    let c ← calcdamage G (ftoi radiusdamage) o actor atk G.defaultflags
    let damage1 := f32 (c : ℚ)
    let flags := if isdirect then HIT_TORSO ||| HIT_DIRECT else HIT_TORSO
    return registerhit (ftoi damage1) o actor dir atk dist 1 flags log
  return log

/-- The loop over the dynamic entities in `explodeprojectile` (projectile.cpp 281-287). -/
def radialsweep (G : Game) (E : Engine) (proj : projectile) (pos : vec) (safe : Option gameent)
    (damage : Int) (a : attackinfo) : List gameent → List hitcall → Option (List hitcall)
  | [], log => some log
  | o :: rest, log =>
    if E.reject o.o pos (o.radius + (a.exprad : ℚ)) || safe.any (fun s => s.id == o.id) then
      radialsweep G E proj pos safe damage a rest log
    else
      (applyradialeffect G E o pos proj.vel damage proj.owner proj.atk proj.isdirect log).bind
        (radialsweep G E proj pos safe damage a rest)

/-- Source: `explodeprojectile` (projectile.cpp 272-288); `safe` is `none` for `NULL`. -/
def explodeprojectile (G : Game) (E : Engine) (proj : projectile) (v : vec)
    (safe : Option gameent) (damage : Int) (islocal : Bool) (w : World) : Option World := do
  let a ← attackAt proj.atk
  let pos := if hasflag proj.flags ProjFlag_Linear then v else proj.o
  let w1 ← addexplosioneffects G E proj.owner proj.atk pos w
  if G.betweenrounds || !islocal then
    return w1
  let log ← radialsweep G E proj pos safe damage a G.dynents w1.hitlog
  return { w1 with hitlog := log }

/-- Source: `handleliquidtransitions` (projectile.cpp 322-340). -/
def handleliquidtransitions (E : Engine) (proj : projectile) : Option projectile := do
  let isinwater := (E.lookupmaterial proj.o &&& E.MATF_VOLUME) == E.MAT_WATER
  let info ← projAt proj.projtype
  let p1 := if isinwater && hasflag info.flags ProjFlag_Quench then
      { proj with isdestroyed := true } else proj
  let (transition, inwater) := E.liquidtransition p1 (E.lookupmaterial p1.o) isinwater
  let p2 := { p1 with inwater := inwater }
  return if transition > 0 then { p2 with lastposition := p2.o } else p2

/-- The loop of the junk branch of `checklifetime` (projectile.cpp 464-472): `rtime` is the
time still to consume; the first argument bounds the iterations and is never
exhausted when it is at least `rtime`. -/
def checklifetimeJunk (G : Game) (E : Engine) : Nat → Int → projectile → Option projectile
  | 0, _, proj => some proj
  | n + 1, rtime, proj =>
    if rtime > 0 then do
      let qtime := min 80 rtime
      let rtime1 := rtime - qtime
      let p1 := { proj with lifetime := proj.lifetime - qtime }
      if p1.lifetime < 0 then
        checklifetimeJunk G E n rtime1 { p1 with isdestroyed := true }
      else if hasflag p1.flags ProjFlag_Bounce then
        let m := E.hasbounced p1 ((qtime : ℚ) / 1000)
        let p2 ← applyphysmove G E p1 m
        checklifetimeJunk G E n rtime1 (if m.result then { p2 with isdestroyed := true } else p2)
      else checklifetimeJunk G E n rtime1 p1
    else some proj

/-- Source: `checklifetime` (projectile.cpp 452-474). -/
def checklifetime (G : Game) (E : Engine) (proj : projectile) (time : Int) : Option projectile :=
  if isweaponprojectile proj.projtype then
    let p1 := { proj with lifetime := proj.lifetime - time }
    some (if p1.lifetime < 0 then { p1 with isdestroyed := true } else p1)
  else if hasflag proj.flags ProjFlag_Junk then
    checklifetimeJunk G E time.toNat time proj
  else some proj

/-- The loop over the dynamic entities in the linear branch of `updateprojectiles`
(projectile.cpp 500-510): it stops at the first entity for which `candealdamage`
returns true.  The value tells whether one was found. -/
def directhitscan (G : Game) (E : Engine) (proj : projectile) (pos bo : vec) (br : ℚ)
    (damage : Int) : List gameent → List hitcall → Option (Bool × List hitcall)
  | [], log => some (false, log)
  | o :: rest, log =>
    if proj.owner.id == o.id || E.reject o.o bo (o.radius + br) then
      directhitscan G E proj pos bo br damage rest log
    else
      match candealdamage G E o proj pos damage log with
      | none => none
      | some (true, log1) => some (true, log1)
      | some (false, log1) => directhitscan G E proj pos bo br damage rest log1

/-- The outcome of the loop body of `updateprojectiles` for one projectile: the
projectile as the body leaves it, whether `delete projectiles.remove(i--)` was
executed, whether the body was left through `continue`, and the world (debris
appended to the collection, hits logged, messages queued). -/
structure tickout where
  proj : projectile
  removed : Bool
  skipped : Bool
  world : World

/-- The linear branch at the head of the loop body (projectile.cpp 493-512): for a local
linear projectile the entities are scanned for a direct hit, which sets `isdestroyed`
and `isdirect`. -/
def tickdirect (G : Game) (E : Engine) (p : projectile) (pos : vec) (w : World) :
    Option (projectile × World) :=
  if hasflag p.flags ProjFlag_Linear && p.islocal then
    let halfdv := p.dv.mul (1 / 2)
    let bo := p.o.add halfdv
    (attackAt p.atk).bind fun a =>
      let br := max |halfdv.x| |halfdv.y| + 1 + (a.margin : ℚ)
      if !G.betweenrounds then
        (directhitscan G E p pos bo br a.damage G.dynents w.hitlog).map fun r =>
          (if r.1 then { p with isdestroyed := true, isdirect := true } else p,
           { w with hitlog := r.2 })
      else some (p, w)
  else some (p, w)

/-- The impact test of a linear projectile (projectile.cpp 520-530).  The second
component is true when the loop body is left through `continue`. -/
def tickimpact (E : Engine) (p : projectile) : projectile × Bool :=
  if hasflag p.flags ProjFlag_Linear && (hasflag p.flags ProjFlag_Impact && decide (p.dist < 4)) then
    if p.o != p.to_ then
      let r := E.raycubepos p.o p.vel
      let p1 := { p with to_ := r.2 }
      if r.1 ≥ 4 then (p1, true) else ({ p1 with isdestroyed := true }, false)
    else ({ p with isdestroyed := true }, false)
  else (p, false)

/-- The bounce test of a weapon projectile (projectile.cpp 531-542). -/
def tickbounce (G : Game) (E : Engine) (p : projectile) : Option projectile :=
  if isweaponprojectile p.projtype && hasflag p.flags ProjFlag_Bounce then
    let m := E.isbouncing p
    (applyphysmove G E p m).bind fun p1 =>
      (projAt p1.projtype).map fun info =>
        let hasbounced := info.maxbounces != 0 && decide (p1.bounces ≥ info.maxbounces)
        if !m.result || hasbounced then { p1 with isdestroyed := true } else p1
  else some p

/-- The statements of the loop body inside `if (!proj.isdestroyed)` (projectile.cpp
515-543): lifetime, lava, impact test, bounce test, liquid transitions.  The second
component is true when the body is left through `continue`. -/
def tickalive (G : Game) (E : Engine) (time : Int) (proj : projectile) :
    Option (projectile × Bool) :=
  (checklifetime G E proj time).bind fun p1 =>
    let p2 := if (E.lookupmaterial p1.o &&& E.MATF_VOLUME) == E.MAT_LAVA then
        { p1 with isdestroyed := true } else p1
    let r := tickimpact E p2
    if r.2 then some (r.1, true)
    else
      (tickbounce G E r.1).bind fun p4 =>
        (handleliquidtransitions E p4).map fun p5 => (p5, false)

/-- The end of the loop body (projectile.cpp 546-570): a destroyed projectile explodes
if it is a weapon projectile and is removed; a live one has its offset or its
position updated. -/
def tickfinish (G : Game) (E : Engine) (time : Int) (p : projectile) (pos : vec) (w : World) :
    Option tickout :=
  if p.isdestroyed then
    if isweaponprojectile p.projtype then
      (attackAt p.atk).bind fun a =>
        (explodeprojectile G E p pos none a.damage p.islocal w).map fun w1 =>
          { proj := p, removed := true, skipped := false,
            world := if p.islocal then
                { w1 with msgs := w1.msgs ++
                    [{ explode := true, sender := p.owner.id, atk := p.atk, id := p.id }] }
              else w1 }
    else some { proj := p, removed := true, skipped := false, world := w }
  else if hasflag p.flags ProjFlag_Bounce then
    some { proj := ({ p with offsetmillis := max (p.offsetmillis - time) 0 }).limitoffset E,
           removed := false, skipped := false, world := w }
  else some { proj := { p with o := pos }, removed := false, skipped := false, world := w }

/-- The loop body of `updateprojectiles` (projectile.cpp 488-570) for the projectile
`proj` of the collection. -/
def tickprojectile (G : Game) (E : Engine) (time : Int) (proj : projectile) (w : World) :
    Option tickout :=
  let up := proj.updateposition E time
  (tickdirect G E up.1 up.2 w).bind fun r =>
    if !r.1.isdestroyed then
      (tickalive G E time r.1).bind fun ra =>
        if ra.2 then some { proj := ra.1, removed := false, skipped := true, world := r.2 }
        else tickfinish G E time ra.1 up.2 r.2
    else tickfinish G E time r.1 up.2 r.2

/-- The loop `loopv(projectiles)` of `updateprojectiles` from index `i` on.  The body may
append debris to the collection, which the same loop then visits, so the number of
iterations is not known beforehand: the first argument bounds it, and the result is
`none` when the bound is reached before the end of the collection (or when a table
is indexed out of range). -/
def updateprojectilesLoop (G : Game) (E : Engine) (time : Int) : Nat → Nat → World → Option World
  | 0, i, w => if i < w.projectiles.length then none else some w
  | fuel + 1, i, w =>
    match w.projectiles.get? i with
    | none => some w
    | some proj =>
      match tickprojectile G E time proj w with
      | none => none
      | some r =>
        if r.removed then
          updateprojectilesLoop G E time fuel i
            { r.world with projectiles := r.world.projectiles.eraseIdx i }
        else
          updateprojectilesLoop G E time fuel (i + 1)
            { r.world with projectiles := r.world.projectiles.set i r.proj }

/-- Source: `updateprojectiles` (projectile.cpp 483-572), with a bound on the number of
loop iterations. -/
def updateprojectiles (G : Game) (E : Engine) (time : Int) (fuel : Nat) (w : World) :
    Option World :=
  if w.projectiles.isEmpty then some w else updateprojectilesLoop G E time fuel 0 w

/-- The loop of `removeprojectiles` (projectile.cpp 730-734) from index `i` on, `n`
iterations left: an element of the owner is removed and the index stays, any other
element is stepped over. -/
def removeprojectilesLoop (owner : gameent) : Nat → Nat → List projectile → List projectile
  | 0, _, ps => ps
  | n + 1, i, ps =>
    match ps.get? i with
    | none => ps
    | some p =>
      if p.owner.id == owner.id then removeprojectilesLoop owner n i (ps.eraseIdx i)
      else removeprojectilesLoop owner n (i + 1) ps

/-- Source: `removeprojectiles` (projectile.cpp 722-736); `none` is the null owner.  Every
iteration removes an element or advances the index, so the length of the collection
bounds the number of iterations. -/
def removeprojectiles (owner : Option gameent) (w : World) : World :=
  match owner with
  | none => { w with projectiles := [] }
  | some d => { w with projectiles := removeprojectilesLoop d w.projectiles.length 0 w.projectiles }

/-- A projectile of the debris kind as `spawnbouncer` makes it. -/
def isdebris (p : projectile) : Prop :=
  p.projtype = Projectile_Debris ∧ p.flags = ProjFlag_Junk ||| ProjFlag_Bounce ∧
    p.isdestroyed = false

/-- The fields of a projectile that the physics callbacks, the offset update and the
position update leave alone. -/
def samecore (p q : projectile) : Prop :=
  q.key = p.key ∧ q.owner = p.owner ∧ q.projtype = p.projtype ∧ q.flags = p.flags ∧
    q.atk = p.atk ∧ q.islocal = p.islocal ∧ q.id = p.id

/-- A step that leaves kind, flags, attack and lifetime alone and never clears the
destroyed flag. -/
def keepslife (p q : projectile) : Prop :=
  samecore p q ∧ q.lifetime = p.lifetime ∧ (p.isdestroyed = true → q.isdestroyed = true)

/-- One simulation step as seen by a projectile: the ambient game state, the engine
services and the elapsed time of the tick. -/
structure tickenv where
  G : Game
  E : Engine
  time : Int

/-- The life of one projectile over consecutive ticks with nothing else acting on it:
the loop body is applied tick after tick until the destroyed flag is set. -/
def tickmany : List tickenv → projectile → World → Option (projectile × World)
  | [], p, w => some (p, w)
  | e :: rest, p, w =>
    if p.isdestroyed then some (p, w)
    else match tickprojectile e.G e.E e.time p w with
      | none => none
      | some r => tickmany rest r.proj r.world

/-- A projectile as the spawn paths create it: its kind is a row of `projs`, its flags
are those of the row, and its attack id is a row of `attacks` unless it is a
bouncing junk projectile (for which the tick never reads the attack table). -/
def projectile.wellformed (p : projectile) : Prop :=
  (∃ info, projAt p.projtype = some info ∧ p.flags = info.flags) ∧
    ((attackAt p.atk).isSome = true ∨
      (isweaponprojectile p.projtype = false ∧ hasflag p.flags ProjFlag_Linear = false))

/-! ## Sample data used to instantiate the theorems -/

def sampleGame : Game := {}
def mayhemGame : Game := { mayhem := true }
def shooter : gameent := { id := 1 }
def victim : gameent := { id := 2 }
def armoredVictim : gameent := { id := 3, powerups := [Powerup.PU_ARMOR] }
def dyingVictim : gameent := { id := 4, health := 0 }

/-- A stand-in for the geometry and physics services, used to run the code on the
sample inputs: lengths are taxicab lengths (the Euclidean length on axis-parallel
vectors, an upper bound of it elsewhere), a segment meets a cylinder when its end
point lies in the box around the cylinder, nothing is liquid, physics leaves a body where
it is, and every random draw is 0. -/
def sampleEngine : Engine :=
  { magnitude := fun v => |v.x| + |v.y| + |v.z|
    safenormalize := fun v => v
    normalize := fun v => v
    rotate_yaw := fun v _ => v
    ENT_BOUNCE := 4
    ENT_PROJECTILE := 5
    reject := fun o p m => decide (o.x > p.x + m) || decide (o.x < p.x - m) ||
      decide (o.y > p.y + m) || decide (o.y < p.y - m)
    linecylinderintersect := fun _ to_ bottom top radius =>
      if |to_.x - bottom.x| ≤ radius ∧ |to_.y - bottom.y| ≤ radius ∧ bottom.z ≤ to_.z ∧ to_.z ≤ top.z
      then some 1 else none
    lookupmaterial := fun _ => 0
    MATF_VOLUME := 7
    MAT_AIR := 0
    MAT_WATER := 1
    MAT_LAVA := 2
    isliquidmaterial := fun m => decide (m = 1) || decide (m = 2)
    raycube := fun _ _ r => r
    raycubepos := fun o _ => (0, o)
    raycubeposradius := fun o _ _ => (0, o)
    isbouncing := fun p => { o := p.o, vel := p.vel, result := true }
    hasbounced := fun p _ => { o := p.o, vel := p.vel, result := false }
    liquidtransition := fun p _ _ => (0, p.inwater)
    avoidcollision := fun p _ _ => p.o
    hudgunorigin := fun _ from_ _ _ => from_
    randomMT := fun _ => 0
    rndscale := fun _ _ => 0 }

/-- Two bystanders for the multi-ray samples: one holding the armor powerup, one
plain, at different places. -/
def armoredAt : gameent := { id := 3, powerups := [Powerup.PU_ARMOR], o := { x := 100, y := 0, z := 0 } }
def plainAt : gameent := { id := 2, o := { x := 0, y := 100, z := 0 } }

/-- A scattergun volley of 20 rays: ray 0 ends on `armoredAt`, ray 1 on `plainAt`, the
other 18 end in the sky. -/
def volleyRays : List vec :=
  [{ x := 100, y := 0, z := 0 }, { x := 0, y := 100, z := 0 }] ++
    List.replicate 18 { x := 0, y := 0, z := 500 }

def volleyGame : Game := { dynents := [shooter, armoredAt, plainAt] }
def volleyWorld : World := { rays := volleyRays }

/-- A rocket of the shooter in flight along the x axis, 10 units short of a bystander
standing at x = 50; the shot was aimed at x = 100. -/
def bystander : gameent := { id := 2, o := { x := 50, y := 0, z := 0 } }
def rocketGame : Game := { dynents := [shooter, bystander] }
def flyingRocket : projectile :=
  { key := 7, owner := shooter, type := 4, projtype := Projectile_Rocket,
    flags := ProjFlag_Weapon ||| ProjFlag_Linear ||| ProjFlag_Impact,
    o := { x := 40, y := 0, z := 0 }, to_ := { x := 100, y := 0, z := 0 },
    vel := { x := 1, y := 0, z := 0 }, speed := 300, radius := 7 / 5, islocal := true,
    atk := ATK_ROCKET1, lifetime := 4000, offsetmillis := 0 }

/-- The engine stand-in with open sky ahead: every ray cast ends 1000 units away. -/
def openSkyEngine : Engine :=
  { sampleEngine with raycubepos := fun o ray => (1000, o.add (ray.mul 1000)) }

/-- A rocket 3 units short of the point it was aimed at, in mid-air, with 10 ms of
lifetime left. -/
def expiringRocket : projectile :=
  { key := 9, owner := shooter, type := 4, projtype := Projectile_Rocket,
    flags := ProjFlag_Weapon ||| ProjFlag_Linear ||| ProjFlag_Impact,
    o := { x := 0, y := 0, z := 0 }, to_ := { x := 3, y := 0, z := 0 },
    vel := { x := 1, y := 0, z := 0 }, speed := 300, radius := 7 / 5, islocal := false,
    atk := ATK_ROCKET1, lifetime := 10, offsetmillis := 0 }

/-- A grenade with 1 ms of lifetime left. -/
def lastGrenade : projectile :=
  { key := 11, owner := shooter, type := 4, projtype := Projectile_Grenade,
    flags := ProjFlag_Weapon ||| ProjFlag_Bounce,
    vel := { x := 1, y := 0, z := 0 }, speed := 200, radius := 7 / 5, islocal := true,
    atk := ATK_GRENADE1, lifetime := 1, offsetmillis := 0 }

/-- A target that is still alive for this client although its health has dropped
below 0, and an actor holding the damage powerup. -/
def woundedVictim : gameent := { id := 5, health := -10 }
def boostedShooter : gameent := { id := 1, powerups := [Powerup.PU_DAMAGE] }
def shieldedGame : Game := { mayhem := true, isinvulnerable := fun _ _ => true }

/-- A step that leaves the kind, the flags, the attack, the entity type and the bounce
count of a projectile alone. -/
def samebounces (p q : projectile) : Prop :=
  samecore p q ∧ q.type = p.type ∧ q.bounces = p.bounces

/-- The engine stand-in with `ENT_PROJECTILE` equal to the entity type that the
projectile constructor assigns (`ENT_BOUNCE`), so that `bounce` counts, and with
physics calls that report one bounce off the floor each and never come to rest. -/
def bouncingEngine : Engine :=
  { sampleEngine with
    ENT_PROJECTILE := 4
    isbouncing := fun p =>
      { o := p.o, vel := p.vel, surfaces := [{ x := 0, y := 0, z := 1 }], result := true }
    hasbounced := fun p _ =>
      { o := p.o, vel := p.vel, surfaces := [{ x := 0, y := 0, z := 1 }], result := false } }

/-- A gib (kind maximum 2) that has bounced twice, with a second of lifetime left. -/
def bouncedGib : projectile :=
  { key := 13, owner := shooter, type := 4, projtype := Projectile_Gib,
    flags := ProjFlag_Junk ||| ProjFlag_Bounce,
    vel := { x := 1, y := 0, z := 0 }, speed := 50, radius := 3 / 2, islocal := true,
    atk := -1, lifetime := 1000, bounces := 2, offsetmillis := 0 }

/-- A bouncing rocket (kind maximum 2) that has bounced once. -/
def bouncedRocket : projectile :=
  { key := 15, owner := shooter, type := 4, projtype := Projectile_Rocket2,
    flags := ProjFlag_Weapon ||| ProjFlag_Bounce,
    vel := { x := 1, y := 0, z := 0 }, speed := 300, radius := 2, islocal := true,
    atk := ATK_ROCKET2, lifetime := 2000, bounces := 1, offsetmillis := 0,
    gravity := 3 / 5, elasticity := 7 / 10 }

/-! ## projectile.cpp : scanprojectiles, avoidprojectiles -/

/-- `vec::div(float)`. -/
def vec.div (a : vec) (f : ℚ) : vec := { x := a.x / f, y := a.y / f, z := a.z / f }

/-- `clamp(a, lo, hi)` of the engine: `max(lo, min(a, hi))`. -/
def clamp (a lo hi : Int) : Int := max lo (min a hi)

/-- The body of the innermost `if` of `scanprojectiles` (projectile.cpp 606-614) for the
bolt `proj` at index `i` of the collection: the bolt is retagged in place, exploded at
its own position with the damage of its new attack, the explosion is reported when
the scanning actor is the local player or a bot, and the bolt is taken out of the
collection. -/
def combodetonate (G : Game) (E : Engine) (d : gameent) (proj : projectile) (i : Nat)
    (w : World) : Option World :=
  let proj1 := { proj with atk := ATK_PISTOL_COMBO }
  let w0 := { w with projectiles := w.projectiles.set i proj1 }
  (attackAt proj1.atk).bind fun combo =>
    (explodeprojectile G E proj1 proj1.o none combo.damage proj1.islocal w0).map fun w1 =>
      let w2 := if d.id == G.self || d.ai then
          { w1 with msgs := w1.msgs ++
              [{ explode := true, sender := proj1.owner.id, atk := proj1.atk, id := proj1.id }] }
        else w1
      { w2 with projectiles := w2.projectiles.eraseIdx i }

/-- The inner loop `loopv(projectiles)` of `scanprojectiles` (projectile.cpp 601-616) for one
step point; the list is the collection from index `i` on.  `some none`: no bolt was
detonated at this point; `some (some w)`: the world after the detonation; `none`:
`attacks` indexed outside the table. -/
def scanpoint (G : Game) (E : Engine) (d : gameent) (atk : Int) (point : vec) (w : World) :
    List projectile → Nat → Option (Option World)
  | [], _ => some none
  | proj :: rest, i =>
    if proj.projtype != Projectile_Plasma ||
        (d.id != proj.owner.id && proj.owner.type != ENT_AI) then
      scanpoint G E d atk point w rest (i + 1)
    else
      (attackAt atk).bind fun a =>
        if a.gun == GUN_PISTOL then
          (attackAt proj.atk).bind fun pa =>
            if E.magnitude (proj.o.sub point) ≤ (pa.margin : ℚ) then
              (combodetonate G E d proj i w).map some
            else scanpoint G E d atk point w rest (i + 1)
        else scanpoint G E d atk point w rest (i + 1)

/-- The outer loop `loopi(steps)` of `scanprojectiles`, `n` steps left, `point` the last
step point visited. -/
def scansteps (G : Game) (E : Engine) (d : gameent) (atk : Int) (stepv : vec) (w : World) :
    Nat → vec → Option (Bool × World)
  | 0, _ => some (false, w)
  | n + 1, point =>
    match scanpoint G E d atk (point.add stepv) w w.projectiles 0 with
    | none => none
    | some (some w') => some (true, w')
    | some none => scansteps G E d atk stepv w n (point.add stepv)

/-- Source: `scanprojectiles` (projectile.cpp 590-620): the value returned and the world
after the call. -/
def scanprojectiles (G : Game) (E : Engine) (from_ to_ : vec) (d : gameent) (atk : Int)
    (w : World) : Option (Bool × World) :=
  if G.betweenrounds then some (false, w)
  else
    let stepv := to_.sub from_
    let dist := E.magnitude stepv
    let steps := clamp (ftoi (dist * 2)) 1 200
    scansteps G E d atk (stepv.div steps) w steps.toNat from_

/-- One call `obstacles.avoidnear(NULL, above, pos, limit)` on the avoid set of the bots
(`ai::avoidset`, declared in ai.h). -/
structure obstacle where
  above : ℚ
  pos : vec
  limit : ℚ
deriving DecidableEq

/-- Source: `avoidprojectiles` (projectile.cpp 738-745): the obstacles registered, one per
projectile of the collection.  `none`: `attacks[proj.atk]` lies outside the table. -/
def avoidprojectiles (w : World) (obstacles : List obstacle) (radius : ℚ) :
    Option (List obstacle) :=
  w.projectiles.foldlM
    (fun obs proj => (attackAt proj.atk).map fun a =>
      obs ++ [{ above := proj.o.z + (a.exprad : ℚ) + 1, pos := proj.o,
                limit := radius + (a.exprad : ℚ) }])
    obstacles

/-- The step points of `scanprojectiles`: `from` advanced `k` times by the step. -/
def steppoint (from_ stepv : vec) : Nat → vec
  | 0 => from_
  | k + 1 => (steppoint from_ stepv k).add stepv

/-- A plasma bolt of the shooter in flight at x = 10, and a world holding it. -/
def plasmaBolt : projectile :=
  { key := 21, owner := shooter, type := 4, projtype := Projectile_Plasma,
    flags := ProjFlag_Weapon ||| ProjFlag_Linear ||| ProjFlag_Quench ||| ProjFlag_Impact |||
      ProjFlag_Immortal,
    o := { x := 10, y := 0, z := 0 }, to_ := { x := 500, y := 0, z := 0 },
    vel := { x := 1, y := 0, z := 0 }, speed := 400, radius := 1, islocal := true,
    atk := ATK_PISTOL2, lifetime := 2000, offsetmillis := 0 }
def plasmaWorld : World := { projectiles := [plasmaBolt] }

/-- The conditions under which `scanprojectiles` picks the projectile `p` at a step point:
it is a plasma bolt, its owner is the scanning actor or has the entity type `ENT_AI`,
the scanning attack is an attack of the pistol, and the bolt lies within the margin of
its own attack of the point. -/
def comboeligible (E : Engine) (d : gameent) (atk : Int) (point : vec) (p : projectile) : Prop :=
  p.projtype = Projectile_Plasma ∧ (d.id = p.owner.id ∨ p.owner.type = ENT_AI) ∧
    (∃ a, attackAt atk = some a ∧ a.gun = GUN_PISTOL) ∧
    (∃ pa, attackAt p.atk = some pa ∧ E.magnitude (p.o.sub point) ≤ (pa.margin : ℚ))

/-! ## weapon.h : the gun table; weapon.cpp : gunselect, weaponswitch, offsetray, canshoot,
shoteffects, shoot -/

/-- One row of `guns`: the attack of each action, `attacks[NUMACTS]`.  Names, models, zoom
and switch sound are presentation data and are left out. -/
structure guninfo where
  attacks : List Int

def guns : List guninfo :=
  [ { attacks := [-1, ATK_MELEE, ATK_SCATTER1, ATK_SCATTER2] },
    { attacks := [-1, ATK_MELEE, ATK_SMG1, ATK_SMG2] },
    { attacks := [-1, ATK_MELEE, ATK_PULSE1, ATK_PULSE2] },
    { attacks := [-1, ATK_MELEE, ATK_ROCKET1, ATK_ROCKET2] },
    { attacks := [-1, ATK_MELEE, ATK_RAIL1, ATK_RAIL2] },
    { attacks := [-1, ATK_MELEE, ATK_GRENADE1, ATK_GRENADE2] },
    { attacks := [-1, ATK_MELEE, ATK_PISTOL1, ATK_PISTOL2] },
    { attacks := [-1, ATK_MELEE, ATK_INSTA, ATK_INSTA] },
    { attacks := [-1, ATK_ZOMBIE, ATK_ZOMBIE, ATK_ZOMBIE] } ]

/-- The array access `guns[gun].attacks[act]`; `none` stands for an access outside one of
the two arrays. -/
def gunattack (gun act : Int) : Option Int :=
  if 0 ≤ gun ∧ 0 ≤ act then (guns.get? gun.toNat).bind fun g => g.attacks.get? act.toNat
  else none

/-- The array access `d->ammo[gun]`; `none` stands for an access outside the array. -/
def ammoAt (d : gameent) (gun : Int) : Option Int :=
  if validgun gun then d.ammo.get? gun.toNat else none

/-- Source: `gunselect` (weapon.cpp 35-47): the actor and the world after the call.  The
zoom and the switch sound are left out. -/
def gunselect (G : Game) (gun : Int) (d : gameent) (w : World) : gameent × World :=
  if gun == d.gunselect || decide (G.lastmillis - d.lastswitch < 100) then (d, w)
  else
    ({ d with gunselect := gun, lastswitch := G.lastmillis, lastattack := -1 },
     { w with msgs := w.msgs ++
        [{ explode := false, sender := d.id, atk := gun, id := 0, gunselect := true }] })

/-- Source: `weaponswitch` (weapon.cpp 105-134). -/
def weaponswitch (G : Game) (d : gameent) (w : World) : gameent × World :=
  if d.state != CS_ALIVE then (d, w)
  else
    let s := d.gunselect
    let loaded (g : Int) : Bool := s != g && d.ammo.getD g.toNat 0 != 0
    let s1 :=
      if loaded GUN_SCATTER then GUN_SCATTER
      else if loaded GUN_SMG then GUN_SMG
      else if loaded GUN_PULSE then GUN_PULSE
      else if loaded GUN_ROCKET then GUN_ROCKET
      else if loaded GUN_RAIL then GUN_RAIL
      else if loaded GUN_GRENADE then GUN_GRENADE
      else s
    gunselect G s1 d w

/-- The loop `do offset = vec(rndscale(1), rndscale(1), rndscale(1)).sub(0.5f); while(offset.squaredlen() > 0.5f * 0.5f)`
of `offsetray` (weapon.cpp 153-155), with a bound on the number of draws; the three
draws are made from left to right. -/
def offsetraydraw (E : Engine) : Nat → World → Option (vec × World)
  | 0, _ => none
  | n + 1, w =>
    let (x, w1) := rndscale E 1 w
    let (y, w2) := rndscale E 1 w1
    let (z, w3) := rndscale E 1 w2
    let offset : vec := { x := x - 1 / 2, y := y - 1 / 2, z := z - 1 / 2 }
    if offset.x * offset.x + offset.y * offset.y + offset.z * offset.z > 1 / 2 * (1 / 2) then
      offsetraydraw E n w3
    else some (offset, w3)

/-- Source: `offsetray` (weapon.cpp 151-164): the value written to `dest` and the world. -/
def offsetray (E : Engine) (from_ to_ : vec) (spread : Int) (range : ℚ) (d : gameent)
    (fuel : Nat) (w : World) : Option (vec × World) :=
  (offsetraydraw E fuel w).map fun r =>
    let k := E.magnitude (to_.sub from_) / 1024 * (spread : ℚ) /
      (if d.iscrouched && d.crouching then 3 / 2 else 1)
    let offset1 := r.1.mul k
    let offset2 := { offset1 with z := offset1.z / 2 }
    let dest := offset2.add to_
    (if dest != from_ then (E.raycubeposradius from_ (E.normalize (dest.sub from_)) range).2
      else dest, r.2)

/-- The loop `loopi(attacks[atk].rays) offsetray(from, to, spread, range, rays[i], d)` from
index `i` on, `n` iterations left.  `none`: an index outside `rays`. -/
def offsetrays (E : Engine) (from_ to_ : vec) (spread : Int) (range : ℚ) (d : gameent)
    (fuel : Nat) : Nat → Nat → World → Option World
  | 0, _, w => some w
  | n + 1, i, w =>
    if GUN_MAXRAYS ≤ i ∨ w.rays.length ≤ i then none
    else
      (offsetray E from_ to_ spread range d fuel w).bind fun r =>
        offsetrays E from_ to_ spread range d fuel n (i + 1) { r.2 with rays := r.2.rays.set i r.1 }

/-- Source: `canshoot` (weapon.cpp 767-782). -/
def canshoot (E : Engine) (d : gameent) (atk gun projectile : Int) : Option Bool :=
  (attackAt atk).bind fun a =>
    (if a.action != ACT_MELEE then
        (ammoAt d gun).map fun am => am == 0 || decide (a.use > am)
      else some false).bind fun noammo =>
      if noammo then some false
      else if isvalidprojectile projectile then
        let isinwater := (E.lookupmaterial d.o &&& E.MATF_VOLUME) == E.MAT_WATER
        if isinwater then
          (projAt projectile).map fun info => !(hasflag info.flags ProjFlag_Quench)
        else some true
      else some true

/-- The loop `loopi(attackrays) makeprojectile(d, from, rays[i], ...)` of `shoteffects` from
index `i` on, `n` iterations left. -/
def rayprojectiles (G : Game) (E : Engine) (d : gameent) (from_ : vec) (islocal : Bool)
    (id atk : Int) (a : attackinfo) : Nat → Nat → World → Option World
  | 0, _, w => some w
  | n + 1, i, w =>
    if GUN_MAXRAYS ≤ i then none
    else
      (w.rays.get? i).bind fun r =>
        (makeprojectile G E d from_ r islocal id atk a.projectile a.lifetime a.projspeed
          a.gravity a.elasticity w).bind (rayprojectiles G E d from_ islocal id atk a n (i + 1))

/-- Source: `shoteffects` (weapon.cpp 478-622), reduced to what changes the game state: the
shell ejected, the rays recomputed for a remote scattergun shot, the aim point raised
for a grenade, and the projectiles spawned.  Particles, lights and sounds are left
out. -/
def shoteffects (G : Game) (E : Engine) (atk : Int) (from_ to_ : vec) (d : gameent)
    (islocal : Bool) (id : Int) (fuel : Nat) (w : World) : Option World :=
  (attackAt atk).bind fun a =>
    let dist := E.magnitude (from_.sub to_)
    let shouldeject := decide (d.eject.x ≥ 0) && d.id == G.followingplayer
    let scatter := atk == ATK_SCATTER1 || atk == ATK_SCATTER2
    let ejecting := scatter || atk == ATK_SMG1 || atk == ATK_SMG2 || atk == ATK_RAIL1 ||
      atk == ATK_RAIL2
    (if ejecting && shouldeject then spawnbouncer G E d.eject d Projectile_Eject w
      else some w).bind fun w1 =>
      (if scatter && !islocal then
          offsetrays E from_ to_ a.spread a.range d fuel a.rays.toNat 0 w1
        else some w1).bind fun w2 =>
        let up : vec :=
          if atk == ATK_GRENADE1 || atk == ATK_GRENADE2 then
            { to_ with z := to_.z + dist / (if atk == ATK_GRENADE1 then 8 else 16) }
          else vec.zero
        if isvalidprojectile a.projectile then
          if a.rays ≤ 1 then
            makeprojectile G E d from_ (if up = vec.zero then to_ else up) islocal id atk
              a.projectile a.lifetime a.projspeed a.gravity a.elasticity w2
          else rayprojectiles G E d from_ islocal id atk a a.rays.toNat 0 w2
        else some w2

/-- The value assigned to `d->gunwait` at the end of `shoot` (weapon.cpp 847-850): the
attack delay, halved for a hasted or berserker actor, lengthened by a random share
for a bot holding the pistol. -/
def shootwait (G : Game) (E : Engine) (d : gameent) (a : attackinfo) (w : World) : Int × World :=
  let gunwait :=
    if d.haspowerup Powerup.PU_HASTE || d.role == G.ROLE_BERSERKER then a.attackdelay.tdiv 2
    else a.attackdelay
  if d.gunselect == GUN_PISTOL && d.ai then
    let r := rnd E (111 - d.skill) w
    let share : ℚ := (((101 - d.skill) + r.1 : Int) : ℚ) / 100
    (gunwait + ftoi ((gunwait : ℚ) * share), r.2)
  else (gunwait, w)

/-- The kickback of `shoot` (weapon.cpp 808-814): the actor after `d->vel.add(kickback)`. -/
def shootkick (E : Engine) (d : gameent) (dir : vec) (kickamount : Int) : gameent :=
  if kickamount != 0 &&
      !(decide (d.physstate ≥ E.PHYS_SLOPE) && d.crouching && d.iscrouched) then
    { d with vel := d.vel.add (dir.mul ((kickamount : ℚ) * (-5 / 2))) }
  else d

/-- The end point of the shot (weapon.cpp 815-819): the target, pulled back to the range of
the attack or to the first barrier on the way. -/
def shootend (E : Engine) (d : gameent) (from_ targ dir : vec) (dist : ℚ) (a : attackinfo) :
    vec :=
  let shorten0 : ℚ := if a.range != 0 && decide (dist > (a.range : ℚ)) then (a.range : ℚ) else 0
  let barrier := E.raycube d.o dir dist
  let shorten1 :=
    if decide (barrier > 0) && decide (barrier < dist) &&
        (shorten0 == 0 || decide (barrier < shorten0)) then barrier
    else shorten0
  if shorten1 != 0 then (dir.mul shorten1).add from_ else targ

/-- The part of `shoot` after the `canshoot` test has passed (weapon.cpp 804-853): ammo,
kickback, the end point of the shot, the rays, the hit scan, the shot effects, the
message, and the weapon state of the actor. -/
def shootfire (G : Game) (E : Engine) (d : gameent) (targ : vec) (gun atk : Int)
    (a : attackinfo) (fuel : Nat) (w : World) : Option (gameent × World) :=
  (if !(d.haspowerup Powerup.PU_AMMO) then
      (ammoAt d gun).map fun am => { d with ammo := d.ammo.set gun.toNat (am - a.use) }
    else some d).bind fun d1 =>
    let from_ := d1.o
    let dir := E.safenormalize (targ.sub from_)
    let dist := E.magnitude (targ.sub from_)
    let kickamount := if d1.haspowerup Powerup.PU_DAMAGE then a.kickamount * 2 else a.kickamount
    let d2 := shootkick E d1 dir kickamount
    let to0 := shootend E d2 from_ targ dir dist a
    (if a.rays > 1 then
        (offsetrays E from_ to0 a.spread a.range d2 fuel a.rays.toNat 0 w).map fun w1 => (to0, w1)
      else if a.spread != 0 then offsetray E from_ to0 a.spread a.range d2 fuel w
      else some (to0, w)).bind fun r1 =>
      (if !(isweaponprojectile a.projectile) then
          (hitscan G E from_ r1.1 d2 atk r1.2).map fun r => (r.2, r.1)
        else some r1).bind fun r2 =>
        (shoteffects G E atk from_ r2.1 d2 true 0 fuel r2.2).map fun w3 =>
          let w4 := if d2.id == G.self || d2.ai then
              { w3 with msgs := w3.msgs ++
                  [{ explode := false, sender := d2.id, atk := atk, id := G.lastmillis }] }
            else w3
          let d3 := if !a.isfullauto then { d2 with attacking := ACT_IDLE } else d2
          let r5 := shootwait G E d3 a w4
          ({ d3 with gunwait := r5.1, totalshots := d3.totalshots + a.damage * a.rays,
                     pitchrecoil := (kickamount : ℚ) * (1 / 10) }, r5.2)

/-- Source: `shoot` (weapon.cpp 784-853): the actor and the world after the call.  The
no-ammo sound is left out. -/
def shoot (G : Game) (E : Engine) (d : gameent) (targ : vec) (fuel : Nat) (w : World) :
    Option (gameent × World) :=
  let prevaction := d.lastaction
  let attacktime := G.lastmillis - prevaction
  if attacktime < d.gunwait then some (d, w)
  else
    let d1 := { d with gunwait := 0 }
    if d1.attacking == 0 then some (d1, w)
    else
      let gun := d1.gunselect
      let act := d1.attacking
      (gunattack gun act).bind fun atk =>
        (attackAt atk).bind fun a =>
          let projectile := a.projectile
          let d2 := { d1 with lastaction := G.lastmillis, lastattack := atk }
          (canshoot E d2 atk gun projectile).bind fun ok =>
            if !ok then
              if d2.id == G.self then
                let d3 := { d2 with gunwait := 600, lastattack := -1 }
                (ammoAt d3 gun).map fun am =>
                  if am == 0 then weaponswitch G d3 w else (d3, w)
              else some (d2, w)
            else shootfire G E d2 targ gun atk a fuel w

/-- An actor holding the SMG and pressing the primary fire button, with no ammo and
with 30 rounds. -/
def emptySmg : gameent :=
  { id := 1, gunselect := GUN_SMG, attacking := ACT_PRIMARY, ammo := [0, 0, 0, 0, 0, 0, 0, 0, 0] }
def loadedSmg : gameent :=
  { id := 1, gunselect := GUN_SMG, attacking := ACT_PRIMARY, ammo := [0, 30, 0, 0, 0, 0, 0, 0, 0] }

/-- The engine stand-in with every random float drawn at the middle of its interval, so
that the rejection loop of `offsetray` ends at its first draw. -/
def steadyEngine : Engine := { sampleEngine with rndscale := fun _ x => x / 2 }

/-- Two bystanders for the locational samples: the first stands at x = 100 with the head
zone out of the way, the second stands at y = 100 with the head zone around the point
the ray aimed at it ends on. -/
def torsoTarget : gameent := { id := 6, o := { x := 100, y := 0, z := 0 } }
def headTarget : gameent :=
  { id := 7, o := { x := 0, y := 100, z := 0 }, head := { x := 0, y := 100, z := 0 } }

/-- A scattergun volley of 20 rays: ray 0 ends on `torsoTarget`, ray 1 on the head zone of
`headTarget`, the other 18 end in the sky. -/
def zoneGame : Game := { dynents := [shooter, torsoTarget, headTarget] }
def zoneWorld : World := { rays := volleyRays }

/-! ## projectile.cpp : explodeeffects -/

/-- The `case` labels of the `switch` in `explodeeffects` (projectile.cpp 295-301). -/
def isexplosiveattack (atk : Int) : Bool :=
  atk == ATK_ROCKET2 || atk == ATK_GRENADE1 || atk == ATK_GRENADE2 || atk == ATK_PULSE1 ||
    atk == ATK_ROCKET1 || atk == ATK_PISTOL2 || atk == ATK_PISTOL_COMBO

/-- The loop `loopv(projectiles)` of `explodeeffects` (projectile.cpp 303-316); the list is
the collection from index `i` on.  The first projectile of the owner `d` with the id
`id` that is not local and, unless the attack is the pistol combo, has the attack
`atk`, is retagged (pistol combo only), exploded with damage 0 and deleted, and the
loop ends. -/
def explodematch (G : Game) (E : Engine) (atk : Int) (d : gameent) (id : Int) (w : World) :
    List projectile → Nat → Option World
  | [], _ => some w
  | proj :: rest, i =>
    if proj.owner.id == d.id && proj.id == id && !proj.islocal then
      if atk != ATK_PISTOL_COMBO && proj.atk != atk then
        explodematch G E atk d id w rest (i + 1)
      else
        let proj1 := if atk == ATK_PISTOL_COMBO then { proj with atk := atk } else proj
        let pos :=
          if hasflag proj1.flags ProjFlag_Bounce then proj1.offsetposition
          else (proj1.offset.mul ((proj1.offsetmillis : ℚ) / (OFFSETMILLIS : ℚ))).add proj1.o
        let w0 := { w with projectiles := w.projectiles.set i proj1 }
        (explodeprojectile G E proj1 pos none 0 proj1.islocal w0).map fun w1 =>
          { w1 with projectiles := w1.projectiles.eraseIdx i }
    else explodematch G E atk d id w rest (i + 1)

/-- Source: `explodeeffects` (projectile.cpp 290-320). -/
def explodeeffects (G : Game) (E : Engine) (atk : Int) (d : gameent) (islocal : Bool) (id : Int)
    (w : World) : Option World :=
  if islocal then some w
  else if isexplosiveattack atk then explodematch G E atk d id w w.projectiles 0
  else some w

/-- The projectiles that an explosion event of the attack `atk`, the owner `d` and the
network id `id` refers to: remotely mirrored, of that owner and id, and, unless the
event is the pistol combo, with that stored attack id. -/
def explosionmatch (atk : Int) (d : gameent) (id : Int) (p : projectile) : Prop :=
  p.owner.id = d.id ∧ p.id = id ∧ p.islocal = false ∧ (atk = ATK_PISTOL_COMBO ∨ p.atk = atk)

/-- A remote rocket of the shooter with the network id 77, between a local rocket with
the same id and a second remote rocket with the same id. -/
def remoteRocket : projectile := { flyingRocket with key := 31, islocal := false, id := 77 }
def localRocket : projectile := { flyingRocket with key := 30, islocal := true, id := 77 }
def laterRocket : projectile := { flyingRocket with key := 32, islocal := false, id := 77 }
def mirrorWorld : World := { projectiles := [localRocket, remoteRocket, laterRocket] }

/-- The engine stand-in with water everywhere. -/
def wetEngine : Engine := { sampleEngine with lookupmaterial := fun _ => 1 }

/-! ## hitscan : the targets of a volley -/

/-- The entities struck by the first `n` rays of a volley, ray by ray: the value assigned to
`hits[i]` by the first loop of the multi-ray branch of `hitscan`. -/
def volleyhits (G : Game) (E : Engine) (from_ : vec) (d : gameent) (margin : ℚ)
    (rays : List vec) (n : Nat) : List (Option gameent) :=
  (rays.take n).map fun r => (intersectclosest G E from_ r d margin).1

/-- The addresses of the entities in a list of per-ray targets, one entry per ray that
struck an entity. -/
def struckids (hits : List (Option gameent)) : List Nat :=
  hits.filterMap fun x => x.map fun o => o.id

/-- An entry of `hits` after the inner loop of `hitscan` has cleared the entries equal to
`o`. -/
def clearhit (o : gameent) (x : Option gameent) : Option gameent :=
  match x with
  | some h => if h.id == o.id then none else some h
  | none => none

/-- Row `ATK_SCATTER1` of the attack table: the primary fire of the scattergun, a volley
of 20 rays. -/
def scatter1 : attackinfo :=
  mkatk GUN_SCATTER ACT_PRIMARY Projectile_Bullet 880 5 5 260 0 1200 20 1000 20 60 0 0 1 0 0
    false true


/-! # Properties -/

/-! ## calcdamage -/

theorem floorReturn_eq (damage headshotdam : Int) (l h g b c d : Bool) :
    floorReturn (damageScaled damage headshotdam l h g b c d) =
      some (damageSteps damage headshotdam l h g b c d) := by
  unfold floorReturn damageSteps
  by_cases h0 : damageScaled damage headshotdam l h g b c d = 0 <;> simp [h0]

/-- The body of `calcdamage` written as one expression: the invulnerability exit,
the material case (armor and floor only), the unguarded table access, the Mayhem
exit, and otherwise the pipeline `damageSteps`. -/
theorem calcdamage_cases (G : Game) (damage : Int) (target actor : gameent)
    (atk : Int) (flags : Nat) :
    calcdamage G damage target actor atk flags =
      if target.id != actor.id && G.isinvulnerable target actor then some 0
      else if hasflag flags HIT_MATERIAL then
        some (damageSteps damage 0 false false false false false
          (target.haspowerup Powerup.PU_ARMOR || target.role == G.ROLE_BERSERKER))
      else match attackAt atk with
        | none => none
        | some a =>
          if (a.headshotdam != 0 && !(isweaponprojectile a.projectile)) &&
              hasflag flags HIT_HEAD && G.mayhem then some target.health
          else some (damageSteps damage a.headshotdam
            (a.headshotdam != 0 && !(isweaponprojectile a.projectile))
            (hasflag flags HIT_HEAD) (hasflag flags HIT_LEGS)
            (actor.haspowerup Powerup.PU_DAMAGE || actor.role == G.ROLE_BERSERKER)
            (G.isally target actor || target.id == actor.id)
            (target.haspowerup Powerup.PU_ARMOR || target.role == G.ROLE_BERSERKER)) := by
  simp only [← floorReturn_eq]
  unfold calcdamage
  generalize (target.id != actor.id && G.isinvulnerable target actor) = binv
  generalize hasflag flags HIT_MATERIAL = bmat
  generalize (target.haspowerup Powerup.PU_ARMOR || target.role == G.ROLE_BERSERKER) = barm
  generalize (actor.haspowerup Powerup.PU_DAMAGE || actor.role == G.ROLE_BERSERKER) = bdam
  generalize (G.isally target actor || target.id == actor.id) = bally
  generalize hasflag flags HIT_HEAD = bhead
  generalize hasflag flags HIT_LEGS = blegs
  generalize G.mayhem = bmay
  cases attackAt atk with
  | none =>
    cases binv <;> cases bmat <;> cases barm <;> rfl
  | some a =>
    simp only [Option.bind_eq_bind, Option.some_bind]
    generalize (a.headshotdam != 0 && !(isweaponprojectile a.projectile)) = bloc
    cases binv <;> cases bmat <;> cases barm <;> cases bdam <;> cases bally <;>
      cases bhead <;> cases blegs <;> cases bmay <;> cases bloc <;> rfl

theorem attackAt_mem {atk : Int} {a : attackinfo} (h : attackAt atk = some a) : a ∈ attacks := by
  unfold attackAt at h
  split_ifs at h
  exact List.get?_mem h

theorem headshotdam_nonneg : ∀ a ∈ attacks, 0 ≤ a.headshotdam := by decide

theorem damageSteps_pos (damage headshotdam : Int) (l h g b c d : Bool)
    (hd : 0 ≤ damage) (hh : 0 ≤ headshotdam) :
    1 ≤ damageSteps damage headshotdam l h g b c d := by
  have h1 : 0 ≤ (if (l && h) = true then damage + headshotdam else damage) := by
    split_ifs <;> omega
  have h2 : 0 ≤ (if (l && g) = true then
      (if (l && h) = true then damage + headshotdam else damage).tdiv 2
      else (if (l && h) = true then damage + headshotdam else damage)) := by
    split_ifs <;> first | exact Int.tdiv_nonneg (by omega) (by decide) | omega
  have h5 : 0 ≤ damageScaled damage headshotdam l h g b c d := by
    unfold damageScaled
    simp only []
    generalize (if (l && g) = true then
      (if (l && h) = true then damage + headshotdam else damage).tdiv 2
      else (if (l && h) = true then damage + headshotdam else damage)) = s2 at h2 ⊢
    have h3 : 0 ≤ (if b = true then s2 * 2 else s2) := by split_ifs <;> omega
    generalize (if b = true then s2 * 2 else s2) = s3 at h3 ⊢
    have h4 : 0 ≤ (if c = true then s3.tdiv DAM_ALLYDIV else s3) := by
      split_ifs
      · exact Int.tdiv_nonneg h3 (by decide)
      · exact h3
    generalize (if c = true then s3.tdiv DAM_ALLYDIV else s3) = s4 at h4 ⊢
    split_ifs
    · exact Int.tdiv_nonneg h4 (by decide)
    · exact h4
  unfold damageSteps
  simp only []
  split_ifs with h0
  · exact le_refl 1
  · omega

/-- No overflow: for a base damage and a headshot bonus that are not negative, every
value of the pipeline, whatever the conditions, lies between 0 and twice the sum of
the two.  The values computed on the way are values of the pipeline with the later
conditions off. -/
theorem damageScaled_range (damage headshotdam : Int) (l h g b c d : Bool)
    (hd : 0 ≤ damage) (hh : 0 ≤ headshotdam) :
    0 ≤ damageScaled damage headshotdam l h g b c d ∧
      damageScaled damage headshotdam l h g b c d ≤ 2 * (damage + headshotdam) := by
  have half : ∀ x : Int, 0 ≤ x → 0 ≤ x.tdiv 2 ∧ x.tdiv 2 ≤ x := by
    intro x hx
    rw [Int.tdiv_eq_ediv hx (by decide)]
    omega
  unfold damageScaled DAM_ALLYDIV
  simp only []
  have h1 : 0 ≤ (if (l && h) = true then damage + headshotdam else damage) ∧
      (if (l && h) = true then damage + headshotdam else damage) ≤ damage + headshotdam := by
    split_ifs <;> omega
  generalize (if (l && h) = true then damage + headshotdam else damage) = s1 at h1 ⊢
  have h2 : 0 ≤ (if (l && g) = true then s1.tdiv 2 else s1) ∧
      (if (l && g) = true then s1.tdiv 2 else s1) ≤ damage + headshotdam := by
    have := half s1 h1.1
    split_ifs <;> omega
  generalize (if (l && g) = true then s1.tdiv 2 else s1) = s2 at h2 ⊢
  have h3 : 0 ≤ (if b = true then s2 * 2 else s2) ∧
      (if b = true then s2 * 2 else s2) ≤ 2 * (damage + headshotdam) := by
    split_ifs <;> omega
  generalize (if b = true then s2 * 2 else s2) = s3 at h3 ⊢
  have h4 : 0 ≤ (if c = true then s3.tdiv 2 else s3) ∧
      (if c = true then s3.tdiv 2 else s3) ≤ 2 * (damage + headshotdam) := by
    have := half s3 h3.1
    split_ifs <;> omega
  generalize (if c = true then s3.tdiv 2 else s3) = s4 at h4 ⊢
  have := half s4 h4.1
  split_ifs <;> omega

/-- The value returned by the pipeline is at most `INT_MAX` when twice the sum of the
base damage and the headshot bonus is. -/
theorem damageSteps_le_max (damage headshotdam : Int) (l h g b c d : Bool)
    (hd : 0 ≤ damage) (hh : 0 ≤ headshotdam) (hbound : 2 * (damage + headshotdam) ≤ INT_MAX) :
    damageSteps damage headshotdam l h g b c d ≤ INT_MAX := by
  have hr := damageScaled_range damage headshotdam l h g b c d hd hh
  have hm : (1 : Int) ≤ INT_MAX := by decide
  unfold damageSteps
  simp only []
  split_ifs
  · exact hm
  · omega

/-- C1: without the material flag, with Mayhem off and a target that is the actor or
is not invulnerable to the actor, `calcdamage` returns the result of the pipeline
headshot bonus, leg halving (both only for an attack with headshot damage whose
projectile kind is not a weapon projectile), doubling for a boosted or berserker
actor, division by `DAM_ALLYDIV` for the actor or an ally, halving for an armored or
berserker target, and replacement of 0 by 1, with truncating division. -/
theorem calcdamage_eq_damageSteps (G : Game) (damage : Int) (target actor : gameent)
    (atk : Int) (flags : Nat) (a : attackinfo)
    (hatk : attackAt atk = some a)
    (hmat : hasflag flags HIT_MATERIAL = false)
    (hmay : G.mayhem = false)
    (hvul : target.id = actor.id ∨ G.isinvulnerable target actor = false) :
    calcdamage G damage target actor atk flags =
      some (damageSteps damage a.headshotdam
        (a.headshotdam != 0 && !(isweaponprojectile a.projectile))
        (hasflag flags HIT_HEAD) (hasflag flags HIT_LEGS)
        (actor.haspowerup Powerup.PU_DAMAGE || actor.role == G.ROLE_BERSERKER)
        (G.isally target actor || target.id == actor.id)
        (target.haspowerup Powerup.PU_ARMOR || target.role == G.ROLE_BERSERKER)) := by
  have hinv : (target.id != actor.id && G.isinvulnerable target actor) = false := by
    rcases hvul with h | h <;> simp [h]
  rw [calcdamage_cases, hinv, hmat, hatk, hmay]
  simp

/-- Witness of C1: an SMG head shot of 16 on a plain target deals 16 + 14 = 30. -/
theorem calcdamage_eq_damageSteps_witness :
    calcdamage sampleGame 16 victim shooter ATK_SMG1 HIT_HEAD = some 30 :=
  (calcdamage_eq_damageSteps sampleGame 16 victim shooter ATK_SMG1 HIT_HEAD
    (mkatk GUN_SMG ACT_PRIMARY Projectile_Bullet 110 16 14 84 0 1500 7 1000 1 60 0 0 1 0 0
      false true) (by rfl) (by decide) (by rfl) (Or.inr (by rfl))).trans (by decide)

/-- C2, counterexample: under Mayhem a head shot with the SMG (base damage 16 >= 0) on
a target that is not invulnerable and whose health is 0 returns 0, not at least 1. -/
theorem calcdamage_mayhem_returns_zero :
    (0 : Int) ≤ 16 ∧ validatk ATK_SMG1 = true ∧
      mayhemGame.isinvulnerable dyingVictim shooter = false ∧
      calcdamage mayhemGame 16 dyingVictim shooter ATK_SMG1 HIT_HEAD = some 0 := by
  decide

/-- C2, amended: for a base damage >= 0, a valid attack, twice the sum of the base damage
and the headshot damage of the attack at most `INT_MAX` (so that no `int` operation of
`calcdamage` overflows: every value of the pipeline lies between 0 and `INT_MAX`), and
a target that is the actor or is not invulnerable to the actor, `calcdamage` returns a
value; when the Mayhem head-shot exit is taken that value is the target's current
health, and in every other case it is at least 1 and at most `INT_MAX`. -/
theorem calcdamage_ge_one_or_health (G : Game) (damage : Int) (target actor : gameent)
    (atk : Int) (flags : Nat) (a : attackinfo)
    (hd : 0 ≤ damage)
    (hatk : attackAt atk = some a)
    (hbound : 2 * (damage + a.headshotdam) ≤ INT_MAX)
    (hvul : target.id = actor.id ∨ G.isinvulnerable target actor = false) :
    (∀ l h g b c d : Bool, 0 ≤ damageScaled damage a.headshotdam l h g b c d ∧
      damageScaled damage a.headshotdam l h g b c d ≤ INT_MAX) ∧
    ∃ r, calcdamage G damage target actor atk flags = some r ∧
      (if forcesDeath G a flags = true then r = target.health else 1 ≤ r ∧ r ≤ INT_MAX) := by
  have hinv : (target.id != actor.id && G.isinvulnerable target actor) = false := by
    rcases hvul with h | h <;> simp [h]
  have hh := headshotdam_nonneg a (attackAt_mem hatk)
  have hb0 : 2 * (damage + 0) ≤ INT_MAX := by omega
  refine ⟨fun l h g b c d =>
    ⟨(damageScaled_range damage a.headshotdam l h g b c d hd hh).1,
      le_trans (damageScaled_range damage a.headshotdam l h g b c d hd hh).2 hbound⟩, ?_⟩
  rw [calcdamage_cases, hinv, hatk]
  unfold forcesDeath
  cases hmat : hasflag flags HIT_MATERIAL
  · simp only [Bool.false_eq_true, if_false, Bool.not_false, Bool.true_and]
    by_cases hx : ((a.headshotdam != 0 && !(isweaponprojectile a.projectile)) &&
        hasflag flags HIT_HEAD && G.mayhem) = true
    · rw [if_pos hx]
      exact ⟨target.health, rfl, by rw [if_pos hx]⟩
    · rw [if_neg hx]
      exact ⟨_, rfl, by
        rw [if_neg hx]
        exact ⟨damageSteps_pos _ _ _ _ _ _ _ _ hd hh,
          damageSteps_le_max _ _ _ _ _ _ _ _ hd hh hbound⟩⟩
  · simp only [if_true, Bool.not_true, Bool.false_and, Bool.false_eq_true, if_false]
    exact ⟨_, rfl, damageSteps_pos _ _ _ _ _ _ _ _ hd (le_refl 0),
      damageSteps_le_max _ _ _ _ _ _ _ _ hd (le_refl 0) hb0⟩

/-- Witness of C2 (amended): a torso hit of 16 with the SMG under Mayhem deals at
least 1. -/
theorem calcdamage_ge_one_or_health_witness :
    2 * (16 + (mkatk GUN_SMG ACT_PRIMARY Projectile_Bullet 110 16 14 84 0 1500 7 1000 1 60 0 0 1
        0 0 false true).headshotdam) ≤ INT_MAX ∧
    ∃ r, calcdamage mayhemGame 16 victim shooter ATK_SMG1 HIT_TORSO = some r ∧
      (if forcesDeath mayhemGame
          (mkatk GUN_SMG ACT_PRIMARY Projectile_Bullet 110 16 14 84 0 1500 7 1000 1 60 0 0 1 0 0
            false true) HIT_TORSO = true
        then r = victim.health else 1 ≤ r ∧ r ≤ INT_MAX) :=
  ⟨by decide, (calcdamage_ge_one_or_health mayhemGame 16 victim shooter ATK_SMG1 HIT_TORSO _
    (by decide) (by rfl) (by decide) (Or.inr (by rfl))).2⟩

/-- C3: `calcdamage` returns 0 when the target is not the actor and is invulnerable to
the actor, for every damage, attack id and flag set; in every other case (a self-hit
included) its result is the one computed with the invulnerability test switched
off, so the test decides nothing else. -/
theorem calcdamage_invulnerability (G : Game) (damage : Int) (target actor : gameent)
    (atk : Int) (flags : Nat) :
    calcdamage G damage target actor atk flags =
      if (target.id != actor.id && G.isinvulnerable target actor) = true then some 0
      else calcdamage { G with isinvulnerable := fun _ _ => false } damage target actor atk
        flags := by
  rw [calcdamage_cases, calcdamage_cases]
  simp


/-! ## hitscan -/

/-- C4, failing input: a scattergun volley whose ray 0 strikes an armored bystander and
whose ray 1 strikes a plain one.  The armored one is charged `calcdamage(5) = 2`; the
plain one is then charged `calcdamage(2) = 2`, although `calcdamage` of the table
damage 5 for that target is 5: the local `damage` is overwritten in the loop. -/
theorem hitscan_volley_reuses_damage :
    (hitscan volleyGame sampleEngine vec.zero { x := 0, y := 0, z := 500 } shooter ATK_SCATTER1
        volleyWorld).map (fun r => r.1.hitlog.map (fun h => (h.target, h.damage, h.info2)))
      = some [(armoredAt.id, 2, 1), (plainAt.id, 2, 1)] ∧
    calcdamage volleyGame 5 plainAt shooter ATK_SCATTER1 HIT_TORSO = some 5 := by
  decide!

/-! ## Explosions and radial damage -/

theorem calcdamage_isSome (G : Game) (damage : Int) (target actor : gameent) (atk : Int)
    (flags : Nat) (h : (attackAt atk).isSome = true) :
    ∃ c, calcdamage G damage target actor atk flags = some c := by
  rw [calcdamage_cases]
  obtain ⟨a, ha⟩ := Option.isSome_iff_exists.mp h
  rw [ha]
  simp only []
  split_ifs <;> exact ⟨_, rfl⟩

/-! ### Rounding to a 32-bit float: small integers are exact -/

theorem bitlenAux_pos : ∀ (fuel n : Nat), n ≤ fuel → 0 < n → 0 < bitlenAux fuel n
  | 0, n, h, hn => by omega
  | fuel + 1, n, _, hn => by
    unfold bitlenAux
    rw [if_neg (by omega)]
    omega

theorem bitlenAux_spec : ∀ (fuel n : Nat), n ≤ fuel → 0 < n →
    2 ^ (bitlenAux fuel n - 1) ≤ n ∧ n < 2 ^ bitlenAux fuel n
  | 0, n, h, hn => by omega
  | fuel + 1, n, h, hn => by
    unfold bitlenAux
    rw [if_neg (by omega)]
    by_cases h1 : n / 2 = 0
    · have hn1 : n = 1 := by omega
      subst hn1
      cases fuel <;> simp [bitlenAux]
    · obtain ⟨ih1, ih2⟩ := bitlenAux_spec fuel (n / 2) (by omega) (by omega)
      have hpos := bitlenAux_pos fuel (n / 2) (by omega) (by omega)
      generalize bitlenAux fuel (n / 2) = b at ih1 ih2 hpos
      obtain ⟨b', rfl⟩ : ∃ b', b = b' + 1 := ⟨b - 1, by omega⟩
      simp only [Nat.add_sub_cancel] at ih1 ⊢
      rw [pow_succ] at ih2 ⊢
      rw [pow_succ]
      constructor <;> omega

/-- The digit count of a positive `n`: `bitlen n = b + 1` with `2 ^ b ≤ n < 2 ^ (b + 1)`. -/
theorem bitlen_spec (n : Nat) (hn : 0 < n) :
    ∃ b, bitlen n = b + 1 ∧ 2 ^ b ≤ n ∧ n < 2 ^ (b + 1) := by
  obtain ⟨h1, h2⟩ := bitlenAux_spec n n (le_refl _) hn
  have h3 := bitlenAux_pos n n (le_refl _) hn
  unfold bitlen
  generalize bitlenAux n n = L at h1 h2 h3
  obtain ⟨b, rfl⟩ : ∃ b, L = b + 1 := ⟨L - 1, by omega⟩
  exact ⟨b, rfl, by simpa using h1, h2⟩

theorem roundeven_one (N : Nat) : roundeven N 1 = N := by
  simp [roundeven, Nat.mod_one]

/-- The binary exponent of a positive integer `n` with `2 ^ b ≤ n < 2 ^ (b + 1)` is `b`. -/
theorem binexp_one (n b : Nat) (hb : bitlen n = b + 1) (hlo : 2 ^ b ≤ n) :
    binexp n 1 = (b : Int) := by
  have hb1 : bitlen 1 = 1 := by decide
  unfold binexp
  simp only [hb, hb1]
  have he0 : ((b + 1 : Nat) : Int) - ((1 : Nat) : Int) = (b : Int) := by push_cast; ring
  rw [he0]
  simp [hlo]

/-- Rounding an integer to a multiple of `2 ^ k` with `k ≤ 0` leaves it as it is. -/
theorem roundto_one (n : Nat) (k : Int) (hk : k ≤ 0) : roundto n 1 k = (n : ℚ) := by
  unfold roundto
  by_cases h0 : 0 ≤ k
  · have : k = 0 := by omega
    subst this
    simp [roundeven_one]
  · rw [if_neg h0, roundeven_one]
    push_cast
    field_simp

/-- An `int` of magnitude at most `2 ^ 24` is a `float`: the conversion `int -> float`
leaves it as it is. -/
theorem f32_intCast (c : Int) (h : c.natAbs ≤ 16777216) : f32 (c : ℚ) = (c : ℚ) := by
  by_cases hc0 : c = 0
  · subst hc0
    simp [f32]
  by_cases htop : c.natAbs = 16777216
  · have hc : c = 16777216 ∨ c = -16777216 := by omega
    rcases hc with rfl | rfl <;> decide!
  have hn0 : 0 < c.natAbs := Int.natAbs_pos.mpr hc0
  obtain ⟨b, hb, hlo, hhi⟩ := bitlen_spec c.natAbs hn0
  have hb23 : b ≤ 23 := by
    by_contra hcon
    have hle : 2 ^ 24 ≤ 2 ^ b := Nat.pow_le_pow_right (by decide) (by omega)
    have : (2 : Nat) ^ 24 = 16777216 := by norm_num
    omega
  have hcq : ¬ ((c : ℚ) = 0) := by simp [hc0]
  unfold f32
  rw [if_neg hcq]
  simp only [Rat.num_intCast, Rat.den_intCast]
  rw [binexp_one c.natAbs b hb hlo, roundto_one c.natAbs _ (by omega)]
  rw [Nat.cast_natAbs, Int.cast_abs]
  by_cases hneg : (c : ℚ) < 0
  · rw [if_pos hneg, abs_of_neg hneg, neg_neg]
  · rw [if_neg hneg, abs_of_nonneg (not_lt.mp hneg)]

/-- At the centre of the blast the `float` computation is exact and agrees with the
reading over the rationals: the scaled damage is the base damage. -/
theorem radiusdamage32_centre (damage exprad : Int) (hdamage : damage.natAbs ≤ 16777216) :
    radiusdamage32 damage 0 exprad = (damage : ℚ) ∧
      radiusdamage32 damage 0 exprad = radiusdamage damage 0 exprad := by
  have h0 : f32 0 = 0 := by simp [f32]
  have h1 : f32 1 = 1 := by
    have := f32_intCast 1 (by decide)
    simpa using this
  have hd := f32_intCast damage hdamage
  unfold radiusdamage32 radiusdamage
  simp [h0, h1, hd]

/-- What `makeprojectile` does to the world: one projectile of the given kind, flags
and attack is appended, random draws may be consumed, nothing else changes. -/
theorem makeprojectile_some (G : Game) (E : Engine) (owner : gameent) (from_ to_ : vec)
    (islocal : Bool) (id atk type lifetime speed : Int) (gravity elasticity : ℚ) (w w' : World)
    (h : makeprojectile G E owner from_ to_ islocal id atk type lifetime speed gravity elasticity w
      = some w') :
    ∃ p info, projAt type = some info ∧ p.projtype = type ∧ p.flags = info.flags ∧ p.atk = atk ∧
      p.isdestroyed = false ∧ p.lifetime = lifetime ∧
      w'.projectiles = w.projectiles ++ [p] ∧ w'.hitlog = w.hitlog ∧ w'.msgs = w.msgs ∧
      w'.rays = w.rays := by
  unfold makeprojectile at h
  cases hp : projAt type with
  | none => simp [hp] at h
  | some info =>
    simp only [hp, Option.bind_eq_bind, Option.some_bind, Option.pure_def] at h
    by_cases hvz : info.variants > 0 <;> by_cases hw : hasflag info.flags ProjFlag_Weapon = true
    all_goals simp only [hvz, hw, if_true, if_false, rnd, Bool.false_eq_true] at h
    · cases ha : attackAt atk with
      | none => simp [ha] at h
      | some a =>
        simp only [ha, Option.map_some', Option.some_bind, Option.some.injEq] at h
        subst h
        exact ⟨_, info, rfl, rfl, rfl, rfl, rfl, rfl, rfl, rfl, rfl, rfl⟩
    · simp only [Option.some_bind, Option.some.injEq] at h
      subst h
      exact ⟨_, info, rfl, rfl, rfl, rfl, rfl, rfl, rfl, rfl, rfl, rfl⟩
    · cases ha : attackAt atk with
      | none => simp [ha] at h
      | some a =>
        simp only [ha, Option.map_some', Option.some_bind, Option.some.injEq] at h
        subst h
        exact ⟨_, info, rfl, rfl, rfl, rfl, rfl, rfl, rfl, rfl, rfl, rfl⟩
    · simp only [Option.some_bind, Option.some.injEq] at h
      subst h
      exact ⟨_, info, rfl, rfl, rfl, rfl, rfl, rfl, rfl, rfl, rfl, rfl⟩

/-- `makeprojectile` succeeds for a junk kind: only a weapon kind reads `attacks`. -/
theorem makeprojectile_junk_isSome (G : Game) (E : Engine) (owner : gameent) (from_ to_ : vec)
    (islocal : Bool) (id atk type lifetime speed : Int) (gravity elasticity : ℚ) (w : World)
    (info : projectileinfo) (hp : projAt type = some info)
    (hw : hasflag info.flags ProjFlag_Weapon = false) :
    ∃ w', makeprojectile G E owner from_ to_ islocal id atk type lifetime speed gravity
      elasticity w = some w' := by
  unfold makeprojectile
  simp only [hp, hw, Option.bind_eq_bind, Option.some_bind, Option.pure_def, Bool.false_eq_true,
    if_false]
  exact ⟨_, rfl⟩

theorem makeprojectile_debris (G : Game) (E : Engine) (owner : gameent) (from_ to_ : vec)
    (islocal : Bool) (id atk lifetime speed : Int) (gravity elasticity : ℚ) (w : World) :
    ∃ w' p, makeprojectile G E owner from_ to_ islocal id atk Projectile_Debris lifetime speed
        gravity elasticity w = some w' ∧ isdebris p ∧
      w'.projectiles = w.projectiles ++ [p] ∧ w'.hitlog = w.hitlog ∧ w'.msgs = w.msgs ∧
      w'.rays = w.rays := by
  obtain ⟨info, hp, hw, hf⟩ : ∃ info, projAt Projectile_Debris = some info ∧
      hasflag info.flags ProjFlag_Weapon = false ∧
      info.flags = ProjFlag_Junk ||| ProjFlag_Bounce := ⟨_, rfl, rfl, rfl⟩
  obtain ⟨w', hw'⟩ := makeprojectile_junk_isSome G E owner from_ to_ islocal id atk
    Projectile_Debris lifetime speed gravity elasticity w info hp hw
  obtain ⟨p, info', hp', h1, h2, _, h4, _, h6, h7, h8, h9⟩ :=
    makeprojectile_some G E owner from_ to_ islocal id atk Projectile_Debris lifetime speed
      gravity elasticity w w' hw'
  rw [hp] at hp'
  cases hp'
  exact ⟨w', p, hw', ⟨h1, h2.trans hf, h4⟩, h6, h7, h8, h9⟩

theorem spawnbouncer_debris (G : Game) (E : Engine) (from_ : vec) (d : gameent) (w : World) :
    ∃ w' p, spawnbouncer G E from_ d Projectile_Debris w = some w' ∧ isdebris p ∧
      w'.projectiles = w.projectiles ++ [p] ∧ w'.hitlog = w.hitlog ∧ w'.msgs = w.msgs ∧
      w'.rays = w.rays := by
  unfold spawnbouncer
  simp only [rnd, rndscale, show (Projectile_Debris == Projectile_Eject) = false by rfl,
    show (Projectile_Debris == Projectile_Debris) = true by rfl, Bool.false_eq_true, if_false,
    if_true]
  exact makeprojectile_debris G E d from_ _ true 0 (-1) 400 _ _ _ _

theorem spawndebris_spec (G : Game) (E : Engine) (origin : vec) (owner : gameent) (n : Nat) :
    ∀ w : World, ∃ w' ps, spawndebris G E origin owner n w = some w' ∧ (∀ p ∈ ps, isdebris p) ∧
      w'.projectiles = w.projectiles ++ ps ∧ w'.hitlog = w.hitlog ∧ w'.msgs = w.msgs ∧
      w'.rays = w.rays := by
  induction n with
  | zero => intro w; exact ⟨w, [], rfl, by simp, by simp, rfl, rfl, rfl⟩
  | succ n ih =>
    intro w
    obtain ⟨w1, p, h1, hp, hps, hl, hm, hr⟩ := spawnbouncer_debris G E origin owner w
    obtain ⟨w2, ps, h2, hps2, hpr2, hl2, hm2, hr2⟩ := ih w1
    refine ⟨w2, p :: ps, ?_, ?_, ?_, hl2.trans hl, hm2.trans hm, hr2.trans hr⟩
    · simp only [spawndebris, h1, Option.some_bind, h2]
    · intro q hq
      rcases List.mem_cons.mp hq with rfl | hq
      · exact hp
      · exact hps2 q hq
    · rw [hpr2, hps]; simp

theorem addexplosioneffects_spec (G : Game) (E : Engine) (owner : gameent) (atk : Int) (v : vec)
    (w : World) (hatk : (attackAt atk).isSome = true) :
    ∃ w' ps, addexplosioneffects G E owner atk v w = some w' ∧ (∀ p ∈ ps, isdebris p) ∧
      w'.projectiles = w.projectiles ++ ps ∧ w'.hitlog = w.hitlog ∧ w'.msgs = w.msgs ∧
      w'.rays = w.rays := by
  obtain ⟨a, ha⟩ := Option.isSome_iff_exists.mp hatk
  have triv : ∀ w0 : World, w0.projectiles = w.projectiles → w0.hitlog = w.hitlog →
      w0.msgs = w.msgs → w0.rays = w.rays →
      ∃ w' ps, some w0 = some w' ∧ (∀ p ∈ ps, isdebris p) ∧
      w'.projectiles = w.projectiles ++ ps ∧ w'.hitlog = w.hitlog ∧ w'.msgs = w.msgs ∧
      w'.rays = w.rays := fun w0 h1 h2 h3 h4 => ⟨w0, [], rfl, by simp, by simp [h1], h2, h3, h4⟩
  unfold addexplosioneffects
  simp only [ha, Option.bind_eq_bind, Option.some_bind, Option.pure_def, rnd]
  split_ifs <;>
    first
    | exact triv _ rfl rfl rfl rfl
    | exact spawndebris_spec G E _ owner _ _

theorem applyradialeffect_isSome (G : Game) (E : Engine) (o : gameent) (v vel : vec)
    (damage : Int) (actor : gameent) (atk : Int) (isdirect : Bool) (log : List hitcall)
    (hatk : (attackAt atk).isSome = true) :
    ∃ log', applyradialeffect G E o v vel damage actor atk isdirect log = some log' := by
  obtain ⟨a, ha⟩ := Option.isSome_iff_exists.mp hatk
  obtain ⟨c, hc⟩ := calcdamage_isSome G
    (ftoi (radiusdamage32 damage (projectiledistance E o v vel).1 a.exprad))
    o actor atk G.defaultflags hatk
  unfold applyradialeffect
  simp only [ha, hc, Option.bind_eq_bind, Option.some_bind, Option.pure_def]
  split_ifs <;> exact ⟨_, rfl⟩

theorem radialsweep_isSome (G : Game) (E : Engine) (proj : projectile) (pos : vec)
    (safe : Option gameent) (damage : Int) (a : attackinfo)
    (hatk : (attackAt proj.atk).isSome = true) (ents : List gameent) :
    ∀ log, ∃ log', radialsweep G E proj pos safe damage a ents log = some log' := by
  induction ents with
  | nil => intro log; exact ⟨log, rfl⟩
  | cons o rest ih =>
    intro log
    unfold radialsweep
    split_ifs
    · exact ih log
    · obtain ⟨l1, h1⟩ := applyradialeffect_isSome G E o pos proj.vel damage proj.owner proj.atk
        proj.isdirect log hatk
      rw [h1, Option.some_bind]
      exact ih l1

/-- What `explodeprojectile` does for a valid attack: it returns, appends only debris to
the collection, touches neither the messages nor the ray buffer, and leaves the hit
log alone when called between rounds or for a projectile that is not local. -/
theorem explodeprojectile_effects (G : Game) (E : Engine) (proj : projectile) (v : vec)
    (safe : Option gameent) (damage : Int) (islocal : Bool) (w : World)
    (hatk : (attackAt proj.atk).isSome = true) :
    ∃ w' ps, explodeprojectile G E proj v safe damage islocal w = some w' ∧
      (∀ p ∈ ps, isdebris p) ∧ w'.projectiles = w.projectiles ++ ps ∧ w'.msgs = w.msgs ∧
      w'.rays = w.rays ∧ (G.betweenrounds = true ∨ islocal = false → w'.hitlog = w.hitlog) := by
  obtain ⟨a, ha⟩ := Option.isSome_iff_exists.mp hatk
  obtain ⟨w1, ps, h1, hps, hpr, hl, hm, hr⟩ := addexplosioneffects_spec G E proj.owner proj.atk
    (if hasflag proj.flags ProjFlag_Linear = true then v else proj.o) w hatk
  unfold explodeprojectile
  simp only [ha, Option.bind_eq_bind, Option.some_bind, Option.pure_def, h1]
  by_cases hc : (G.betweenrounds || !islocal) = true
  · rw [if_pos hc]
    exact ⟨w1, ps, rfl, hps, hpr, hm, hr, fun _ => hl⟩
  · rw [if_neg hc]
    obtain ⟨log', hlog⟩ := radialsweep_isSome G E proj
      (if hasflag proj.flags ProjFlag_Linear = true then v else proj.o) safe damage a hatk
      G.dynents w1.hitlog
    rw [hlog, Option.some_bind]
    refine ⟨_, ps, rfl, hps, hpr, hm, hr, ?_⟩
    intro h
    exfalso
    apply hc
    rcases h with h | h <;> simp [h]

/-- C7: called between rounds, or with `islocal` false, `explodeprojectile` (for a valid
attack id) returns and leaves the log of hits as it was: no entity is hit and no
health is changed. -/
theorem explodeprojectile_cosmetic_only (G : Game) (E : Engine) (proj : projectile) (v : vec)
    (safe : Option gameent) (damage : Int) (islocal : Bool) (w : World)
    (hatk : (attackAt proj.atk).isSome = true)
    (h : G.betweenrounds = true ∨ islocal = false) :
    ∃ w', explodeprojectile G E proj v safe damage islocal w = some w' ∧
      w'.hitlog = w.hitlog := by
  obtain ⟨w', _, hw, _, _, _, _, hl⟩ :=
    explodeprojectile_effects G E proj v safe damage islocal w hatk
  exact ⟨w', hw, hl h⟩

/-- Witness of C7: the flying rocket exploding as a remote projectile next to the
bystander logs nothing. -/
theorem explodeprojectile_cosmetic_only_witness :
    ∃ w', explodeprojectile rocketGame sampleEngine flyingRocket { x := 49, y := 0, z := 0 } none
        110 false {} = some w' ∧ w'.hitlog = ({} : World).hitlog :=
  explodeprojectile_cosmetic_only rocketGame sampleEngine flyingRocket { x := 49, y := 0, z := 0 }
    none 110 false {} (by rfl) (Or.inr rfl)

/-! ## The projectile tick: direct hits and removal -/

/-- C5, failing input: a local rocket whose step crosses a bystander.  The tick logs two
hits on that bystander, the direct one (damage 110, distance 0) and one from the
radial sweep of the explosion that follows (damage 110, flags torso and direct); the
projectile is removed. -/
theorem tick_direct_hit_is_swept_again :
    (tickprojectile rocketGame sampleEngine 30 flyingRocket {}).map
        (fun r => (r.removed, r.proj.isdirect,
          r.world.hitlog.map (fun h => (h.target, h.damage, h.flags))))
      = some (true, true,
          [(bystander.id, 110, HIT_TORSO ||| HIT_DIRECT),
           (bystander.id, 110, HIT_TORSO ||| HIT_DIRECT)]) := by
  decide!

/-- C8, failing input: a rocket within 4 units of its aim point, in mid-air, whose
lifetime runs out in this tick.  `checklifetime` sets the destroyed flag, the impact
test then leaves the loop body through `continue`, and the tick returns with the
destroyed projectile still in the collection. -/
theorem tick_leaves_destroyed_projectile :
    (updateprojectiles sampleGame openSkyEngine 20 10 { projectiles := [expiringRocket] }).map
        (fun w => w.projectiles.map (fun p => (p.key, p.isdestroyed)))
      = some [(expiringRocket.key, true)] := by
  decide!


/-! ## removeprojectiles -/

theorem removeprojectilesLoop_eq (owner : gameent) :
    ∀ (n i : Nat) (ps : List projectile), ps.length ≤ i + n →
      removeprojectilesLoop owner n i ps =
        ps.take i ++ (ps.drop i).filter (fun p => !(p.owner.id == owner.id)) := by
  intro n
  induction n with
  | zero =>
    intro i ps h
    have hi : ps.length ≤ i := by omega
    simp [removeprojectilesLoop, List.take_of_length_le hi, List.drop_eq_nil_of_le hi]
  | succ n ih =>
    intro i ps h
    unfold removeprojectilesLoop
    cases hg : ps.get? i with
    | none =>
      have hi : ps.length ≤ i := List.get?_eq_none.mp hg
      simp [List.take_of_length_le hi, List.drop_eq_nil_of_le hi]
    | some p =>
      have hi : i < ps.length := by
        by_contra hc
        rw [List.get?_eq_none.mpr (by omega)] at hg
        cases hg
      have hdrop : ps.drop i = p :: ps.drop (i + 1) := by
        rw [List.drop_eq_getElem_cons hi]
        congr 1
        rw [List.get?_eq_getElem?, List.getElem?_eq_getElem hi] at hg
        exact Option.some.inj hg
      simp only []
      split_ifs with ho
      · rw [ih i (ps.eraseIdx i) (by rw [List.length_eraseIdx, if_pos hi]; omega)]
        rw [hdrop]
        have h1 : (ps.eraseIdx i).take i = ps.take i := by
          rw [List.eraseIdx_eq_take_drop_succ]
          rw [List.take_append_of_le_length (by rw [List.length_take]; omega)]
          rw [List.take_take]; simp
        have h2 : (ps.eraseIdx i).drop i = ps.drop (i + 1) := by
          rw [List.eraseIdx_eq_take_drop_succ]
          rw [List.drop_append_of_le_length (by rw [List.length_take]; omega)]
          rw [List.drop_take]; simp
        rw [h1, h2]
        simp [ho]
      · rw [ih (i + 1) ps (by omega)]
        rw [hdrop]
        have h1 : ps.take (i + 1) = ps.take i ++ [p] := by
          rw [List.take_succ, ← List.get?_eq_getElem?, hg]; rfl
        rw [h1]
        simp [ho]

/-- C10: for a non-null owner, `removeprojectiles(owner)` leaves exactly the projectiles
of the other owners, unmodified and in their original order, and changes nothing
else in the world. -/
theorem removeprojectiles_eq_filter (owner : gameent) (w : World) :
    removeprojectiles (some owner) w =
      { w with projectiles := w.projectiles.filter (fun p => !(p.owner.id == owner.id)) } := by
  unfold removeprojectiles
  simp only []
  rw [removeprojectilesLoop_eq owner _ 0 _ (by omega)]
  simp


/-! ## Lifetime of a projectile -/

theorem samecore_refl (p : projectile) : samecore p p := ⟨rfl, rfl, rfl, rfl, rfl, rfl, rfl⟩

theorem samecore_trans {p q r : projectile} (h1 : samecore p q) (h2 : samecore q r) :
    samecore p r := by
  obtain ⟨a1, a2, a3, a4, a5, a6, a7⟩ := h1
  obtain ⟨b1, b2, b3, b4, b5, b6, b7⟩ := h2
  exact ⟨b1.trans a1, b2.trans a2, b3.trans a3, b4.trans a4, b5.trans a5, b6.trans a6,
    b7.trans a7⟩

/-- `bounce` returns for a projectile of a valid kind and changes only the bounce count
and the time of the last bounce. -/
theorem bounce_spec (G : Game) (E : Engine) (p : projectile)
    (hp : (projAt p.projtype).isSome = true) :
    ∃ q, bounce G E p = some q ∧ samecore p q ∧ q.lifetime = p.lifetime ∧
      q.isdestroyed = p.isdestroyed := by
  obtain ⟨info, hi⟩ := Option.isSome_iff_exists.mp hp
  unfold bounce
  by_cases ht : (p.type != E.ENT_PROJECTILE) = true
  · simp only [ht, if_true, Option.pure_def]
    exact ⟨p, rfl, samecore_refl p, rfl, rfl⟩
  · simp only [ht, if_false, Option.pure_def, Option.bind_eq_bind, hi, Option.some_bind,
      Bool.false_eq_true]
    split_ifs <;> exact ⟨_, rfl, ⟨rfl, rfl, rfl, rfl, rfl, rfl, rfl⟩, rfl, rfl⟩

theorem bounce_fold_spec (G : Game) (E : Engine) (surfaces : List vec) :
    ∀ p : projectile, (projAt p.projtype).isSome = true →
      ∃ q, surfaces.foldlM (fun p _ => bounce G E p) p = some q ∧ samecore p q ∧
        q.lifetime = p.lifetime ∧ q.isdestroyed = p.isdestroyed := by
  induction surfaces with
  | nil => intro p _; exact ⟨p, rfl, samecore_refl p, rfl, rfl⟩
  | cons s rest ih =>
    intro p hp
    obtain ⟨q, hq, hc, hl, hd⟩ := bounce_spec G E p hp
    obtain ⟨r, hr, hc2, hl2, hd2⟩ := ih q (by rw [hc.2.2.1]; exact hp)
    refine ⟨r, ?_, samecore_trans hc hc2, hl2.trans hl, hd2.trans hd⟩
    simp only [List.foldlM, hq, Option.bind_eq_bind, Option.some_bind]
    exact hr

/-- A physics call returns for a projectile of a valid kind and leaves its kind, flags,
attack, lifetime and destroyed flag alone. -/
theorem applyphysmove_spec (G : Game) (E : Engine) (p : projectile) (m : physmove)
    (hp : (projAt p.projtype).isSome = true) :
    ∃ q, applyphysmove G E p m = some q ∧ samecore p q ∧ q.lifetime = p.lifetime ∧
      q.isdestroyed = p.isdestroyed := by
  obtain ⟨q, hq, hc, hl, hd⟩ := bounce_fold_spec G E m.surfaces { p with o := m.o, vel := m.vel } hp
  unfold applyphysmove
  simp only [Option.bind_eq_bind, hq, Option.some_bind, Option.pure_def]
  split_ifs
  · refine ⟨_, rfl, ?_, hl, hd⟩
    obtain ⟨a1, a2, a3, a4, a5, a6, a7⟩ := hc
    exact ⟨a1, a2, a3, a4, a5, a6, a7⟩
  · exact ⟨q, rfl, hc, hl, hd⟩

/-- The junk loop of `checklifetime` consumes the whole of `rtime` when its bound is at
least `rtime`: the lifetime drops by `rtime`, the destroyed flag is never cleared,
and it is set whenever the lifetime ends below 0. -/
theorem checklifetimeJunk_spec (G : Game) (E : Engine) :
    ∀ (n : Nat) (rtime : Int) (p : projectile), rtime ≤ n →
      (projAt p.projtype).isSome = true →
      ∃ q, checklifetimeJunk G E n rtime p = some q ∧ samecore p q ∧
        q.lifetime = p.lifetime - max rtime 0 ∧
        (p.isdestroyed = true → q.isdestroyed = true) ∧
        (0 < rtime → q.lifetime < 0 → q.isdestroyed = true) := by
  intro n
  induction n with
  | zero =>
    intro rtime p h _
    refine ⟨p, rfl, samecore_refl p, ?_, id, ?_⟩
    · have : max rtime 0 = 0 := max_eq_right (by simpa using h)
      rw [this]; ring
    · intro h0; exfalso; simp at h; omega
  | succ n ih =>
    intro rtime p h hp
    unfold checklifetimeJunk
    by_cases hr : rtime > 0
    · have hq1 : 1 ≤ min 80 rtime := le_min (by norm_num) (by omega)
      have hq2 : min 80 rtime ≤ rtime := min_le_right _ _
      have hn : rtime - min 80 rtime ≤ (n : Int) := by push_cast at h; omega
      have hmax : max rtime 0 = rtime := max_eq_left (by omega)
      have hmax' : max (rtime - min 80 rtime) 0 = rtime - min 80 rtime :=
        max_eq_left (by omega)
      simp only [hr, if_true, Option.pure_def, Option.bind_eq_bind]
      by_cases hl : p.lifetime - min 80 rtime < 0
      · simp only [hl, if_true]
        obtain ⟨q, hq, hc, hlq, hdq, _⟩ := ih (rtime - min 80 rtime)
          { p with lifetime := p.lifetime - min 80 rtime, isdestroyed := true } hn hp
        refine ⟨q, hq, ?_, ?_, fun _ => hdq rfl, fun _ _ => hdq rfl⟩
        · obtain ⟨a1, a2, a3, a4, a5, a6, a7⟩ := hc
          exact ⟨a1, a2, a3, a4, a5, a6, a7⟩
        · rw [hlq, hmax, hmax']; simp only []; ring
      · simp only [hl, if_false]
        by_cases hb : hasflag p.flags ProjFlag_Bounce = true
        · simp only [hb, if_true]
          obtain ⟨p2, hp2, hc2, hl2, hd2⟩ := applyphysmove_spec G E
            { p with lifetime := p.lifetime - min 80 rtime }
            (E.hasbounced { p with lifetime := p.lifetime - min 80 rtime }
              ((min 80 rtime : Int) / 1000 : ℚ)) hp
          simp only [Int.cast_min, Int.cast_ofNat] at hp2 ⊢
          rw [hp2, Option.some_bind]
          have hp2t : (projAt p2.projtype).isSome = true := by rw [hc2.2.2.1]; exact hp
          split_ifs with hres
          · obtain ⟨q, hq, hc, hlq, hdq, _⟩ := ih (rtime - min 80 rtime)
              { p2 with isdestroyed := true } hn hp2t
            refine ⟨q, hq, ?_, ?_, fun _ => hdq rfl, fun _ _ => hdq rfl⟩
            · obtain ⟨a1, a2, a3, a4, a5, a6, a7⟩ := hc
              obtain ⟨b1, b2, b3, b4, b5, b6, b7⟩ := hc2
              exact ⟨a1.trans b1, a2.trans b2, a3.trans b3, a4.trans b4, a5.trans b5,
                a6.trans b6, a7.trans b7⟩
            · rw [hlq, hmax, hmax']; simp only []; rw [hl2]; simp only []; ring
          · obtain ⟨q, hq, hc, hlq, hdq, hneg⟩ := ih (rtime - min 80 rtime) p2 hn hp2t
            refine ⟨q, hq, samecore_trans ?_ hc, ?_, ?_, ?_⟩
            · obtain ⟨b1, b2, b3, b4, b5, b6, b7⟩ := hc2
              exact ⟨b1, b2, b3, b4, b5, b6, b7⟩
            · rw [hlq, hmax, hmax', hl2]; simp only []; ring
            · intro hd; exact hdq (by rw [hd2]; exact hd)
            · intro _ hneg2
              by_cases hz : 0 < rtime - min 80 rtime
              · exact hneg hz hneg2
              · exfalso
                rw [hlq, hl2] at hneg2
                have : max (rtime - min 80 rtime) 0 = 0 := max_eq_right (by omega)
                rw [this] at hneg2
                simp only [] at hneg2
                omega
        · simp only [hb, if_false, Bool.false_eq_true]
          obtain ⟨q, hq, hc, hlq, hdq, hneg⟩ := ih (rtime - min 80 rtime)
            { p with lifetime := p.lifetime - min 80 rtime } hn hp
          refine ⟨q, hq, ?_, ?_, ?_, ?_⟩
          · obtain ⟨a1, a2, a3, a4, a5, a6, a7⟩ := hc
            exact ⟨a1, a2, a3, a4, a5, a6, a7⟩
          · rw [hlq, hmax, hmax']; simp only []; ring
          · intro hd; exact hdq hd
          · intro _ hneg2
            by_cases hz : 0 < rtime - min 80 rtime
            · exact hneg hz hneg2
            · exfalso
              rw [hlq] at hneg2
              have : max (rtime - min 80 rtime) 0 = 0 := max_eq_right (by omega)
              rw [this] at hneg2
              simp only [] at hneg2
              omega
    · simp only [hr, if_false]
      refine ⟨p, rfl, samecore_refl p, ?_, id, fun h0 => h0.elim⟩
      have : max rtime 0 = 0 := max_eq_right (by omega)
      rw [this]; ring

theorem isweaponprojectile_eq {t : Int} {info : projectileinfo} (h : projAt t = some info) :
    isweaponprojectile t = hasflag info.flags ProjFlag_Weapon := by
  unfold isweaponprojectile
  rw [h]
  unfold projAt at h
  split_ifs at h with h0
  have hlt : t.toNat < projs.length := by
    by_contra hc
    rw [List.get?_eq_none.mpr (by omega)] at h
    cases h
  have : isvalidprojectile t = true := by
    unfold isvalidprojectile Projectile_Max
    have : t < 10 := by
      have h10 : projs.length = 10 := rfl
      omega
    simp [h0, this]
  rw [this]; rfl

theorem projAt_mem {t : Int} {info : projectileinfo} (h : projAt t = some info) :
    info ∈ projs := by
  unfold projAt at h
  split_ifs at h
  exact List.get?_mem h

theorem weapon_or_junk : ∀ info ∈ projs,
    hasflag info.flags ProjFlag_Weapon = true ∨ hasflag info.flags ProjFlag_Junk = true := by
  decide

/-- `checklifetime` on a projectile of a table kind, for a tick of at least 1 ms: the
lifetime drops by the tick time and the destroyed flag is set when it ends below 0. -/
theorem checklifetime_spec (G : Game) (E : Engine) (p : projectile) (time : Int)
    (info : projectileinfo) (hp : projAt p.projtype = some info) (hf : p.flags = info.flags)
    (ht : 1 ≤ time) :
    ∃ q, checklifetime G E p time = some q ∧ samecore p q ∧ q.lifetime = p.lifetime - time ∧
      (p.isdestroyed = true → q.isdestroyed = true) ∧
      (q.lifetime < 0 → q.isdestroyed = true) := by
  unfold checklifetime
  by_cases hw : isweaponprojectile p.projtype = true
  · simp only [hw, if_true]
    split_ifs with hl
    · exact ⟨_, rfl, ⟨rfl, rfl, rfl, rfl, rfl, rfl, rfl⟩, rfl, fun _ => rfl, fun _ => rfl⟩
    · exact ⟨_, rfl, ⟨rfl, rfl, rfl, rfl, rfl, rfl, rfl⟩, rfl, id, fun h => absurd h hl⟩
  · have hj : hasflag p.flags ProjFlag_Junk = true := by
      rcases weapon_or_junk info (projAt_mem hp) with h | h
      · exfalso; apply hw; rw [isweaponprojectile_eq hp]; exact h
      · rw [hf]; exact h
    simp only [hw, hj, if_true, if_false, Bool.false_eq_true]
    obtain ⟨q, hq, hc, hl, hd, hneg⟩ := checklifetimeJunk_spec G E time.toNat time p
      (by rw [Int.toNat_of_nonneg (by omega)]) (by rw [hp]; rfl)
    refine ⟨q, hq, hc, ?_, hd, hneg (by omega)⟩
    rw [hl, max_eq_left (by omega)]

theorem keepslife_refl (p : projectile) : keepslife p p := ⟨samecore_refl p, rfl, id⟩

theorem keepslife_trans {p q r : projectile} (h1 : keepslife p q) (h2 : keepslife q r) :
    keepslife p r :=
  ⟨samecore_trans h1.1 h2.1, h2.2.1.trans h1.2.1, fun h => h2.2.2 (h1.2.2 h)⟩

theorem tickimpact_spec (E : Engine) (p : projectile) : keepslife p (tickimpact E p).1 := by
  unfold tickimpact
  simp only []
  split_ifs <;> exact ⟨⟨rfl, rfl, rfl, rfl, rfl, rfl, rfl⟩, rfl, fun h => by first | exact h | rfl⟩

theorem tickbounce_spec (G : Game) (E : Engine) (p : projectile)
    (hp : (projAt p.projtype).isSome = true) :
    ∃ q, tickbounce G E p = some q ∧ keepslife p q := by
  unfold tickbounce
  split_ifs
  · obtain ⟨p1, h1, hc, hl, hd⟩ := applyphysmove_spec G E p (E.isbouncing p) hp
    have hp1 : (projAt p1.projtype).isSome = true := by rw [hc.2.2.1]; exact hp
    obtain ⟨info, hi⟩ := Option.isSome_iff_exists.mp hp1
    simp only [h1, Option.some_bind, hi, Option.map_some']
    split_ifs
    · refine ⟨_, rfl, ?_, hl, fun _ => rfl⟩
      obtain ⟨b1, b2, b3, b4, b5, b6, b7⟩ := hc
      exact ⟨b1, b2, b3, b4, b5, b6, b7⟩
    · exact ⟨_, rfl, hc, hl, fun h => by rw [hd]; exact h⟩
  · exact ⟨p, rfl, keepslife_refl p⟩

theorem handleliquidtransitions_spec (E : Engine) (p : projectile)
    (hp : (projAt p.projtype).isSome = true) :
    ∃ q, handleliquidtransitions E p = some q ∧ keepslife p q := by
  obtain ⟨info, hi⟩ := Option.isSome_iff_exists.mp hp
  unfold handleliquidtransitions
  simp only [hi, Option.bind_eq_bind, Option.some_bind, Option.pure_def]
  split_ifs <;>
    exact ⟨_, rfl, ⟨rfl, rfl, rfl, rfl, rfl, rfl, rfl⟩, rfl, fun h => by first | exact h | rfl⟩

/-- The live part of the loop body on a projectile of a table kind, for a tick of at
least 1 ms: it returns, the lifetime drops by the tick time, and the destroyed flag
is set when the lifetime ends below 0. -/
theorem tickalive_spec (G : Game) (E : Engine) (time : Int) (p : projectile)
    (info : projectileinfo) (hp : projAt p.projtype = some info) (hf : p.flags = info.flags)
    (ht : 1 ≤ time) :
    ∃ r, tickalive G E time p = some r ∧ samecore p r.1 ∧ r.1.lifetime = p.lifetime - time ∧
      (r.1.lifetime < 0 → r.1.isdestroyed = true) := by
  obtain ⟨p1, h1, hc1, hl1, _, hneg1⟩ := checklifetime_spec G E p time info hp hf ht
  have hp1 : (projAt p1.projtype).isSome = true := by rw [hc1.2.2.1, hp]; rfl
  unfold tickalive
  simp only [h1, Option.some_bind]
  have k2 : keepslife p1 (if (E.lookupmaterial p1.o &&& E.MATF_VOLUME == E.MAT_LAVA) = true
      then { p1 with isdestroyed := true } else p1) := by
    split_ifs
    · exact ⟨⟨rfl, rfl, rfl, rfl, rfl, rfl, rfl⟩, rfl, fun _ => rfl⟩
    · exact keepslife_refl p1
  generalize (if (E.lookupmaterial p1.o &&& E.MATF_VOLUME == E.MAT_LAVA) = true
      then { p1 with isdestroyed := true } else p1) = p2 at k2 ⊢
  have k3 := tickimpact_spec E p2
  have k13 := keepslife_trans k2 k3
  have fin : ∀ q, keepslife p1 q → samecore p q ∧ q.lifetime = p.lifetime - time ∧
      (q.lifetime < 0 → q.isdestroyed = true) := by
    intro q hk
    refine ⟨samecore_trans hc1 hk.1, by rw [hk.2.1, hl1], ?_⟩
    intro hneg
    exact hk.2.2 (hneg1 (by rw [← hk.2.1]; exact hneg))
  split_ifs
  · exact ⟨_, rfl, fin _ k13⟩
  · have hp3 : (projAt (tickimpact E p2).1.projtype).isSome = true := by
      rw [k13.1.2.2.1]; exact hp1
    obtain ⟨p4, h4, k4⟩ := tickbounce_spec G E (tickimpact E p2).1 hp3
    have hp4 : (projAt p4.projtype).isSome = true := by rw [k4.1.2.2.1]; exact hp3
    obtain ⟨p5, h5, k5⟩ := handleliquidtransitions_spec E p4 hp4
    simp only [h4, Option.some_bind, h5, Option.map_some']
    exact ⟨_, rfl, fin _ (keepslife_trans k13 (keepslife_trans k4 k5))⟩

theorem candealdamage_isSome (G : Game) (E : Engine) (o : gameent) (p : projectile) (v : vec)
    (damage : Int) (log : List hitcall) (hatk : (attackAt p.atk).isSome = true) :
    ∃ r, candealdamage G E o p v damage log = some r := by
  obtain ⟨a, ha⟩ := Option.isSome_iff_exists.mp hatk
  obtain ⟨c, hc⟩ := calcdamage_isSome G damage o p.owner p.atk G.defaultflags hatk
  unfold candealdamage
  simp only [ha, hc, Option.bind_eq_bind, Option.some_bind, Option.pure_def]
  split_ifs <;> exact ⟨_, rfl⟩

theorem directhitscan_isSome (G : Game) (E : Engine) (p : projectile) (pos bo : vec) (br : ℚ)
    (damage : Int) (hatk : (attackAt p.atk).isSome = true) (ents : List gameent) :
    ∀ log, ∃ r, directhitscan G E p pos bo br damage ents log = some r := by
  induction ents with
  | nil => intro log; exact ⟨_, rfl⟩
  | cons o rest ih =>
    intro log
    unfold directhitscan
    split_ifs
    · exact ih log
    · obtain ⟨r, hr⟩ := candealdamage_isSome G E o p pos damage log hatk
      rw [hr]
      obtain ⟨b, l⟩ := r
      cases b
      · exact ih l
      · exact ⟨_, rfl⟩

theorem updateposition_spec (E : Engine) (p : projectile) (time : Int) :
    samecore p (p.updateposition E time).1 ∧ (p.updateposition E time).1.lifetime = p.lifetime ∧
      (p.updateposition E time).1.isdestroyed = p.isdestroyed := by
  unfold projectile.updateposition
  split_ifs <;> exact ⟨⟨rfl, rfl, rfl, rfl, rfl, rfl, rfl⟩, rfl, rfl⟩

theorem tickdirect_spec (G : Game) (E : Engine) (p : projectile) (pos : vec) (w : World)
    (hatk : (hasflag p.flags ProjFlag_Linear && p.islocal) = true →
      (attackAt p.atk).isSome = true) :
    ∃ r, tickdirect G E p pos w = some r ∧ keepslife p r.1 := by
  unfold tickdirect
  by_cases hl : (hasflag p.flags ProjFlag_Linear && p.islocal) = true
  · obtain ⟨a, ha⟩ := Option.isSome_iff_exists.mp (hatk hl)
    simp only [hl, if_true, ha, Option.some_bind]
    split_ifs
    · obtain ⟨r, hr⟩ := directhitscan_isSome G E p pos (p.o.add (p.dv.mul (1 / 2)))
        (max |(p.dv.mul (1 / 2)).x| |(p.dv.mul (1 / 2)).y| + 1 + (a.margin : ℚ)) a.damage
        (hatk hl) G.dynents w.hitlog
      rw [hr, Option.map_some']
      refine ⟨_, rfl, ?_⟩
      simp only []
      split_ifs
      · exact ⟨⟨rfl, rfl, rfl, rfl, rfl, rfl, rfl⟩, rfl, fun _ => rfl⟩
      · exact keepslife_refl p
    · exact ⟨_, rfl, keepslife_refl p⟩
  · simp only [hl, if_false, Bool.false_eq_true]
    exact ⟨_, rfl, keepslife_refl p⟩

theorem limitoffset_spec (E : Engine) (p : projectile) :
    samecore p (p.limitoffset E) ∧ (p.limitoffset E).lifetime = p.lifetime ∧
      (p.limitoffset E).isdestroyed = p.isdestroyed := by
  unfold projectile.limitoffset
  split_ifs <;> exact ⟨⟨rfl, rfl, rfl, rfl, rfl, rfl, rfl⟩, rfl, rfl⟩

theorem tickfinish_spec (G : Game) (E : Engine) (time : Int) (p : projectile) (pos : vec)
    (w : World)
    (hatk : isweaponprojectile p.projtype = true → (attackAt p.atk).isSome = true) :
    ∃ r, tickfinish G E time p pos w = some r ∧ samecore p r.proj ∧
      r.proj.lifetime = p.lifetime ∧ r.proj.isdestroyed = p.isdestroyed := by
  unfold tickfinish
  by_cases hd : p.isdestroyed = true
  · rw [if_pos hd]
    by_cases hw : isweaponprojectile p.projtype = true
    · obtain ⟨a, ha⟩ := Option.isSome_iff_exists.mp (hatk hw)
      obtain ⟨w1, _, h1, _⟩ := explodeprojectile_effects G E p pos none a.damage p.islocal w
        (hatk hw)
      rw [if_pos hw, ha, Option.some_bind, h1, Option.map_some']
      exact ⟨_, rfl, samecore_refl p, rfl, rfl⟩
    · rw [if_neg hw]
      exact ⟨_, rfl, samecore_refl p, rfl, rfl⟩
  · rw [if_neg hd]
    split_ifs
    · have h := limitoffset_spec E { p with offsetmillis := max (p.offsetmillis - time) 0 }
      exact ⟨_, rfl, h.1, h.2.1, h.2.2⟩
    · exact ⟨_, rfl, ⟨rfl, rfl, rfl, rfl, rfl, rfl, rfl⟩, rfl, rfl⟩

theorem wellformed_of_samecore {p q : projectile} (h : samecore p q) (hw : p.wellformed) :
    q.wellformed := by
  unfold projectile.wellformed at hw ⊢
  obtain ⟨_, _, h3, h4, h5, _, _⟩ := h
  rw [h3, h4, h5]
  exact hw

/-- One tick on a live projectile of a table kind, for a tick time of at least 1 ms: the
loop body returns, and either the destroyed flag is set or the lifetime has dropped
by the tick time and is still at least 0. -/
theorem tickprojectile_spec (G : Game) (E : Engine) (time : Int) (p : projectile) (w : World)
    (hwf : p.wellformed) (ht : 1 ≤ time) :
    ∃ r, tickprojectile G E time p w = some r ∧ samecore p r.proj ∧
      (r.proj.isdestroyed = true ∨
        (0 ≤ r.proj.lifetime ∧ r.proj.lifetime = p.lifetime - time)) := by
  obtain ⟨⟨info, hp, hf⟩, hatk⟩ := hwf
  have hweap : ∀ q, samecore p q → isweaponprojectile q.projtype = true →
      (attackAt q.atk).isSome = true := by
    intro q hq hw
    rw [hq.2.2.1] at hw
    rw [hq.2.2.2.2.1]
    rcases hatk with h | h
    · exact h
    · rw [h.1] at hw; cases hw
  have hlin : ∀ q, samecore p q → (hasflag q.flags ProjFlag_Linear && q.islocal) = true →
      (attackAt q.atk).isSome = true := by
    intro q hq hl
    rw [hq.2.2.2.1] at hl
    rw [hq.2.2.2.2.1]
    rcases hatk with h | h
    · exact h
    · rw [h.2] at hl; simp at hl
  have hu := updateposition_spec E p time
  obtain ⟨r1, h1, k1⟩ := tickdirect_spec G E (p.updateposition E time).1
    (p.updateposition E time).2 w (hlin _ hu.1)
  have c1 : samecore p r1.1 := samecore_trans hu.1 k1.1
  have l1 : r1.1.lifetime = p.lifetime := by rw [k1.2.1, hu.2.1]
  unfold tickprojectile
  simp only [h1, Option.some_bind]
  by_cases hd1 : r1.1.isdestroyed = true
  · simp only [hd1, Bool.not_true, Bool.false_eq_true, if_false]
    obtain ⟨r, hr, hc, _, hdr⟩ := tickfinish_spec G E time r1.1 (p.updateposition E time).2 r1.2
      (hweap _ c1)
    exact ⟨r, hr, samecore_trans c1 hc, Or.inl (by rw [hdr]; exact hd1)⟩
  · have hd1' : r1.1.isdestroyed = false := by simpa using hd1
    simp only [hd1', Bool.not_false, if_true]
    obtain ⟨ra, ha, hca, hla, hnega⟩ := tickalive_spec G E time r1.1 info
      (by rw [c1.2.2.1]; exact hp) (by rw [c1.2.2.2.1]; exact hf) ht
    have c2 : samecore p ra.1 := samecore_trans c1 hca
    simp only [ha, Option.some_bind]
    have concl : ∀ q, samecore ra.1 q → q.lifetime = ra.1.lifetime →
        q.isdestroyed = ra.1.isdestroyed →
        (q.isdestroyed = true ∨ (0 ≤ q.lifetime ∧ q.lifetime = p.lifetime - time)) := by
      intro q _ hl hdq
      by_cases hneg : ra.1.lifetime < 0
      · left; rw [hdq]; exact hnega hneg
      · right
        rw [hl]
        exact ⟨by omega, by rw [hla, l1]⟩
    split_ifs
    · exact ⟨_, rfl, c2, concl _ (samecore_refl _) rfl rfl⟩
    · obtain ⟨r, hr, hc, hl, hdr⟩ := tickfinish_spec G E time ra.1 (p.updateposition E time).2
        r1.2 (hweap _ c2)
      exact ⟨r, hr, samecore_trans c2 hc, concl _ hc hl hdr⟩

theorem tickmany_destroyed (ts : List tickenv) (p : projectile) (w : World)
    (hd : p.isdestroyed = true) : tickmany ts p w = some (p, w) := by
  cases ts with
  | nil => rfl
  | cons e rest => simp [tickmany, hd]

theorem tickmany_spec : ∀ (ts : List tickenv) (p : projectile) (w : World),
    p.wellformed → (∀ e ∈ ts, 1 ≤ e.time) →
    (p.isdestroyed = true ∨ (0 ≤ p.lifetime ∧ p.lifetime < ts.length)) →
    ∃ q w', tickmany ts p w = some (q, w') ∧ q.isdestroyed = true := by
  intro ts
  induction ts with
  | nil =>
    intro p w _ _ h
    rcases h with h | h
    · exact ⟨p, w, rfl, h⟩
    · exfalso; simp at h; omega
  | cons e rest ih =>
    intro p w hwf ht h
    by_cases hd : p.isdestroyed = true
    · exact ⟨p, w, tickmany_destroyed _ p w hd, hd⟩
    · have hd' : p.isdestroyed = false := by simpa using hd
      have hl : 0 ≤ p.lifetime ∧ p.lifetime < ((e :: rest).length : Int) := by
        rcases h with h | h
        · exact absurd h hd
        · exact h
      have hte : 1 ≤ e.time := ht e (List.mem_cons_self _ _)
      obtain ⟨r, hr, hc, hres⟩ := tickprojectile_spec e.G e.E e.time p w hwf hte
      have hstep : tickmany (e :: rest) p w = tickmany rest r.proj r.world := by
        simp [tickmany, hd', hr]
      rw [hstep]
      apply ih r.proj r.world (wellformed_of_samecore hc hwf)
        (fun e' he' => ht e' (List.mem_cons_of_mem _ he'))
      rcases hres with h1 | ⟨h1, h2⟩
      · exact Or.inl h1
      · right
        refine ⟨h1, ?_⟩
        rw [h2]
        have := hl.2
        simp only [List.length_cons, Nat.cast_add, Nat.cast_one] at this
        omega

/-- C9, counterexample: a grenade with lifetime 1 is not destroyed by its first tick of
1 ms, since `checklifetime` tests `lifetime < 0` after the subtraction. -/
theorem grenade_survives_first_tick :
    lastGrenade.lifetime = 1 ∧
      (tickmany [{ G := sampleGame, E := sampleEngine, time := 1 }] lastGrenade {}).map
        (fun r => r.1.isdestroyed) = some false := by
  decide!

/-- C9, amended: a projectile of a table kind, with the flags of its kind and lifetime
`L >= 0`, ticked `L + 1` times with tick times of at least 1 ms and nothing else acting
on it, has its destroyed flag set by the last of these ticks at the latest (and
every tick returns). -/
theorem destroyed_within_lifetime_plus_one (ts : List tickenv) (p : projectile) (w : World)
    (hwf : p.wellformed) (hL : 0 ≤ p.lifetime) (hlen : (ts.length : Int) = p.lifetime + 1)
    (ht : ∀ e ∈ ts, 1 ≤ e.time) :
    ∃ q w', tickmany ts p w = some (q, w') ∧ q.isdestroyed = true :=
  tickmany_spec ts p w hwf ht (Or.inr ⟨hL, by omega⟩)

/-- Witness of C9 (amended): the grenade with lifetime 1 is destroyed by its second tick. -/
theorem destroyed_within_lifetime_plus_one_witness :
    ∃ q w', tickmany [{ G := sampleGame, E := sampleEngine, time := 1 },
        { G := sampleGame, E := sampleEngine, time := 1 }] lastGrenade {} = some (q, w') ∧
      q.isdestroyed = true :=
  destroyed_within_lifetime_plus_one _ lastGrenade {} ⟨⟨_, rfl, rfl⟩, Or.inl rfl⟩ (by decide)
    (by rfl) (by intro e he; simp at he; subst he; decide)

/-! ## intersectclosest -/

/-- The loop of `intersectclosest` over any list of entities, from any running pair
`(best, bestdist)`: either no eligible entity of the list is closer than `bestdist` and
the pair is unchanged, or the result is the first entity of the list that attains
the least distance, and that distance is below `bestdist`. -/
theorem intersectclosest_fold (E : Engine) (from_ to_ : vec) (actor : gameent) (margin : ℚ) :
    ∀ (l : List gameent) (b : Option gameent) (bd : ℚ),
      (l.foldl
          (fun (acc : Option gameent × ℚ) (o : gameent) =>
            if o.id == actor.id || o.state != CS_ALIVE then acc
            else match isintersecting E o from_ to_ margin with
              | none => acc
              | some dist => if dist < acc.2 then (some o, dist) else acc)
          (b, bd) = (b, bd) ∧
        ∀ o ∈ l, o.id ≠ actor.id → o.state = CS_ALIVE →
          ∀ d, isintersecting E o from_ to_ margin = some d → bd ≤ d) ∨
      ∃ pre o post d, l = pre ++ o :: post ∧
        l.foldl
          (fun (acc : Option gameent × ℚ) (o : gameent) =>
            if o.id == actor.id || o.state != CS_ALIVE then acc
            else match isintersecting E o from_ to_ margin with
              | none => acc
              | some dist => if dist < acc.2 then (some o, dist) else acc)
          (b, bd) = (some o, d) ∧
        o.id ≠ actor.id ∧ o.state = CS_ALIVE ∧
        isintersecting E o from_ to_ margin = some d ∧ d < bd ∧
        (∀ o' ∈ pre, o'.id ≠ actor.id → o'.state = CS_ALIVE →
          ∀ d', isintersecting E o' from_ to_ margin = some d' → d < d') ∧
        (∀ o' ∈ post, o'.id ≠ actor.id → o'.state = CS_ALIVE →
          ∀ d', isintersecting E o' from_ to_ margin = some d' → d ≤ d') := by
  intro l
  induction l with
  | nil => intro b bd; left; exact ⟨rfl, by simp⟩
  | cons o rest ih =>
    intro b bd
    rw [List.foldl_cons]
    by_cases hel : (o.id == actor.id || o.state != CS_ALIVE) = true
    · -- the entity is skipped
      simp only [hel, if_true]
      have hnot : ¬ (o.id ≠ actor.id ∧ o.state = CS_ALIVE) := by
        rintro ⟨h1, h2⟩
        simp [h1, h2] at hel
      rcases ih b bd with ⟨h1, h2⟩ | ⟨pre, o2, post, d, hl, hres, hid, hst, hd, hlt, hpre, hpost⟩
      · left
        refine ⟨h1, ?_⟩
        intro o' ho' hid hst d hd
        rcases List.mem_cons.mp ho' with rfl | hm
        · exact absurd ⟨hid, hst⟩ hnot
        · exact h2 o' hm hid hst d hd
      · right
        refine ⟨o :: pre, o2, post, d, by rw [hl]; rfl, hres, hid, hst, hd, hlt, ?_, hpost⟩
        intro o' ho' hid' hst' d' hd'
        rcases List.mem_cons.mp ho' with rfl | hm
        · exact absurd ⟨hid', hst'⟩ hnot
        · exact hpre o' hm hid' hst' d' hd'
    · have hel' : (o.id == actor.id || o.state != CS_ALIVE) = false := by simpa using hel
      have hid0 : o.id ≠ actor.id := by
        intro h; simp [h] at hel'
      have hst0 : o.state = CS_ALIVE := by
        by_contra h; simp [h] at hel'
      simp only [hel', Bool.false_eq_true, if_false]
      cases hi : isintersecting E o from_ to_ margin with
      | none =>
        simp only []
        rcases ih b bd with ⟨h1, h2⟩ | ⟨pre, o2, post, d, hl, hres, hid, hst, hd, hlt, hpre, hpost⟩
        · left
          refine ⟨h1, ?_⟩
          intro o' ho' hid hst d hd
          rcases List.mem_cons.mp ho' with rfl | hm
          · rw [hi] at hd; cases hd
          · exact h2 o' hm hid hst d hd
        · right
          refine ⟨o :: pre, o2, post, d, by rw [hl]; rfl, hres, hid, hst, hd, hlt, ?_, hpost⟩
          intro o' ho' hid' hst' d' hd'
          rcases List.mem_cons.mp ho' with rfl | hm
          · rw [hi] at hd'; cases hd'
          · exact hpre o' hm hid' hst' d' hd'
      | some d0 =>
        simp only []
        by_cases hlt0 : d0 < bd
        · simp only [hlt0, if_true]
          right
          rcases ih (some o) d0 with ⟨h1, h2⟩ |
            ⟨pre, o2, post, d, hl, hres, hid, hst, hd, hlt, hpre, hpost⟩
          · exact ⟨[], o, rest, d0, rfl, h1, hid0, hst0, hi, hlt0, by simp, h2⟩
          · refine ⟨o :: pre, o2, post, d, by rw [hl]; rfl, hres, hid, hst, hd,
              lt_trans hlt hlt0, ?_, hpost⟩
            intro o' ho' hid' hst' d' hd'
            rcases List.mem_cons.mp ho' with rfl | hm
            · rw [hi] at hd'; cases hd'; exact hlt
            · exact hpre o' hm hid' hst' d' hd'
        · simp only [hlt0, if_false]
          rcases ih b bd with ⟨h1, h2⟩ | ⟨pre, o2, post, d, hl, hres, hid, hst, hd, hlt, hpre, hpost⟩
          · left
            refine ⟨h1, ?_⟩
            intro o' ho' hid hst d hd
            rcases List.mem_cons.mp ho' with rfl | hm
            · rw [hi] at hd; cases hd; exact not_lt.mp hlt0
            · exact h2 o' hm hid hst d hd
          · right
            refine ⟨o :: pre, o2, post, d, by rw [hl]; rfl, hres, hid, hst, hd, hlt, ?_, hpost⟩
            intro o' ho' hid' hst' d' hd'
            rcases List.mem_cons.mp ho' with rfl | hm
            · rw [hi] at hd'; cases hd'; exact lt_of_lt_of_le hlt (not_lt.mp hlt0)
            · exact hpre o' hm hid' hst' d' hd'

/-- C11: `intersectclosest` returns no entity exactly when no alive entity other than the
excluded actor intersects the segment at a distance below 1e16; otherwise it returns
an alive entity other than the actor that intersects, with its distance, which is
the least such distance, and the entity is the first in iteration order to attain it
(every earlier eligible entity is strictly farther). -/
theorem intersectclosest_spec (G : Game) (E : Engine) (from_ to_ : vec) (actor : gameent)
    (margin : ℚ) :
    (intersectclosest G E from_ to_ actor margin = (none, 10 ^ 16) ∧
      ∀ o ∈ G.dynents, o.id ≠ actor.id → o.state = CS_ALIVE →
        ∀ d, isintersecting E o from_ to_ margin = some d → (10 : ℚ) ^ 16 ≤ d) ∨
    ∃ pre o post d, G.dynents = pre ++ o :: post ∧
      intersectclosest G E from_ to_ actor margin = (some o, d) ∧
      o.id ≠ actor.id ∧ o.state = CS_ALIVE ∧
      isintersecting E o from_ to_ margin = some d ∧ d < 10 ^ 16 ∧
      (∀ o' ∈ pre, o'.id ≠ actor.id → o'.state = CS_ALIVE →
        ∀ d', isintersecting E o' from_ to_ margin = some d' → d < d') ∧
      (∀ o' ∈ post, o'.id ≠ actor.id → o'.state = CS_ALIVE →
        ∀ d', isintersecting E o' from_ to_ margin = some d' → d ≤ d') :=
  intersectclosest_fold E from_ to_ actor margin G.dynents none (10 ^ 16)

/-! ## calcdamage: monotonicity and the doubling step -/

theorem tdiv_two_eq (x : Int) (h : 0 ≤ x) : x.tdiv 2 = x / 2 :=
  Int.tdiv_eq_ediv h (by decide)

/-- The value reaching the ally step of the pipeline is not negative when the base
damage and the headshot bonus are not. -/
theorem prescale_nonneg (damage headshotdam : Int) (l h g b : Bool)
    (hd : 0 ≤ damage) (hh : 0 ≤ headshotdam) :
    0 ≤ (if b = true then
        (if (l && g) = true then (if (l && h) = true then damage + headshotdam else damage).tdiv 2
          else (if (l && h) = true then damage + headshotdam else damage)) * 2
      else
        (if (l && g) = true then (if (l && h) = true then damage + headshotdam else damage).tdiv 2
          else (if (l && h) = true then damage + headshotdam else damage))) := by
  have h1 : 0 ≤ (if (l && h) = true then damage + headshotdam else damage) := by
    split_ifs <;> omega
  generalize (if (l && h) = true then damage + headshotdam else damage) = s1 at h1 ⊢
  have h2 : 0 ≤ (if (l && g) = true then s1.tdiv 2 else s1) := by
    split_ifs
    · rw [tdiv_two_eq s1 h1]; omega
    · exact h1
  generalize (if (l && g) = true then s1.tdiv 2 else s1) = s2 at h2 ⊢
  split_ifs <;> omega

theorem damageSteps_ally_le (damage headshotdam : Int) (l h g b c a : Bool)
    (hd : 0 ≤ damage) (hh : 0 ≤ headshotdam) :
    damageSteps damage headshotdam l h g b true a ≤ damageSteps damage headshotdam l h g b c a := by
  have h3 := prescale_nonneg damage headshotdam l h g b hd hh
  unfold damageSteps damageScaled DAM_ALLYDIV
  simp only []
  generalize (if b = true then
        (if (l && g) = true then (if (l && h) = true then damage + headshotdam else damage).tdiv 2
          else (if (l && h) = true then damage + headshotdam else damage)) * 2
      else
        (if (l && g) = true then (if (l && h) = true then damage + headshotdam else damage).tdiv 2
          else (if (l && h) = true then damage + headshotdam else damage))) = s3 at h3 ⊢
  have e3 : s3.tdiv 2 = s3 / 2 := tdiv_two_eq s3 h3
  have e4 : (s3.tdiv 2).tdiv 2 = s3 / 2 / 2 := by
    rw [e3]; exact tdiv_two_eq _ (by omega)
  cases c <;> cases a <;> simp only [if_true, if_false, Bool.false_eq_true] <;>
    rw [e3] <;> (try rw [tdiv_two_eq (s3 / 2) (by omega)]) <;>
    split_ifs <;> omega

theorem damageSteps_armor_le (damage headshotdam : Int) (l h g b c a : Bool)
    (hd : 0 ≤ damage) (hh : 0 ≤ headshotdam) :
    damageSteps damage headshotdam l h g b c true ≤ damageSteps damage headshotdam l h g b c a := by
  have h3 := prescale_nonneg damage headshotdam l h g b hd hh
  unfold damageSteps damageScaled DAM_ALLYDIV
  simp only []
  generalize (if b = true then
        (if (l && g) = true then (if (l && h) = true then damage + headshotdam else damage).tdiv 2
          else (if (l && h) = true then damage + headshotdam else damage)) * 2
      else
        (if (l && g) = true then (if (l && h) = true then damage + headshotdam else damage).tdiv 2
          else (if (l && h) = true then damage + headshotdam else damage))) = s3 at h3 ⊢
  have e3 : s3.tdiv 2 = s3 / 2 := tdiv_two_eq s3 h3
  cases c <;> cases a <;> simp only [if_true, if_false, Bool.false_eq_true] <;>
    (try rw [e3]) <;> (try rw [tdiv_two_eq (s3 / 2) (by omega)]) <;>
    split_ifs <;> omega
/-- C18, counterexample: under Mayhem a head shot with the SMG on a target whose health
is -10 returns -10; with the same target invulnerable to the actor it returns 0, which
is more. -/
theorem calcdamage_invulnerable_returns_more :
    (0 : Int) ≤ 16 ∧
      calcdamage mayhemGame 16 woundedVictim shooter ATK_SMG1 HIT_HEAD = some (-10) ∧
      calcdamage shieldedGame 16 woundedVictim shooter ATK_SMG1 HIT_HEAD = some 0 ∧
      shieldedGame = { mayhemGame with isinvulnerable := fun _ _ => true } ∧
      (-10 : Int) < 0 := by
  refine ⟨by decide, by decide, by decide, rfl, by decide⟩

/-- C18, amended: for a base damage >= 0 and a valid attack, with twice the sum of the
base damage and the headshot damage of the attack at most `INT_MAX` (so that no `int`
operation of `calcdamage` overflows: every value of the pipeline lies between 0 and
`INT_MAX`) and all other inputs fixed, the damage returned by `calcdamage` does not
increase when the target is made an ally of the actor, nor when the target is given the
armor powerup; it does not increase when the target is made invulnerable to the actor
provided the Mayhem head-shot exit is not taken or the target's health is at least 0. -/
theorem calcdamage_monotone (G : Game) (damage : Int) (target actor : gameent)
    (atk : Int) (flags : Nat) (a : attackinfo)
    (hd : 0 ≤ damage) (hatk : attackAt atk = some a)
    (hbound : 2 * (damage + a.headshotdam) ≤ INT_MAX) :
    (∀ l h g b c d : Bool, 0 ≤ damageScaled damage a.headshotdam l h g b c d ∧
      damageScaled damage a.headshotdam l h g b c d ≤ INT_MAX) ∧
    (∀ ally : gameent → gameent → Bool, ally target actor = true →
      ∃ r r', calcdamage G damage target actor atk flags = some r ∧
        calcdamage { G with isally := ally } damage target actor atk flags = some r' ∧
        r' ≤ r) ∧
    (G.isally { target with powerups := Powerup.PU_ARMOR :: target.powerups } actor =
        G.isally target actor →
      G.isinvulnerable { target with powerups := Powerup.PU_ARMOR :: target.powerups } actor =
        G.isinvulnerable target actor →
      ∃ r r', calcdamage G damage target actor atk flags = some r ∧
        calcdamage G damage { target with powerups := Powerup.PU_ARMOR :: target.powerups }
          actor atk flags = some r' ∧
        r' ≤ r) ∧
    (∀ inv : gameent → gameent → Bool, inv target actor = true →
      forcesDeath G a flags = false ∨ 0 ≤ target.health →
      ∃ r r', calcdamage G damage target actor atk flags = some r ∧
        calcdamage { G with isinvulnerable := inv } damage target actor atk flags = some r' ∧
        r' ≤ r) := by
  have hh := headshotdam_nonneg a (attackAt_mem hatk)
  refine ⟨fun l h g b c d =>
    ⟨(damageScaled_range damage a.headshotdam l h g b c d hd hh).1,
      le_trans (damageScaled_range damage a.headshotdam l h g b c d hd hh).2 hbound⟩, ?_, ?_, ?_⟩
  · intro ally hally
    rw [calcdamage_cases, calcdamage_cases, hatk]
    simp only [hally, Bool.true_or]
    split_ifs
    · exact ⟨_, _, rfl, rfl, le_refl _⟩
    · exact ⟨_, _, rfl, rfl, le_refl _⟩
    · exact ⟨_, _, rfl, rfl, le_refl _⟩
    · exact ⟨_, _, rfl, rfl, damageSteps_ally_le _ _ _ _ _ _ _ _ hd hh⟩
  · intro hally hinv
    rw [calcdamage_cases, calcdamage_cases, hatk, hally, hinv]
    have harm : (({ target with powerups := Powerup.PU_ARMOR :: target.powerups } :
        gameent).haspowerup Powerup.PU_ARMOR ||
        ({ target with powerups := Powerup.PU_ARMOR :: target.powerups } : gameent).role ==
          G.ROLE_BERSERKER) = true := by
      simp [gameent.haspowerup]
    rw [harm]
    simp only []
    split_ifs
    · exact ⟨_, _, rfl, rfl, le_refl _⟩
    · exact ⟨_, _, rfl, rfl, damageSteps_armor_le _ _ _ _ _ _ _ _ hd (le_refl 0)⟩
    · exact ⟨_, _, rfl, rfl, le_refl _⟩
    · exact ⟨_, _, rfl, rfl, damageSteps_armor_le _ _ _ _ _ _ _ _ hd hh⟩
  · intro inv hinv hexit
    rw [calcdamage_cases, calcdamage_cases, hatk]
    simp only [hinv, Bool.and_true]
    unfold forcesDeath at hexit
    by_cases hid : (target.id != actor.id) = true
    · rw [if_pos hid]
      by_cases hi : (target.id != actor.id && G.isinvulnerable target actor) = true
      · rw [if_pos hi]
        exact ⟨_, _, rfl, rfl, le_refl _⟩
      · rw [if_neg hi]
        cases hmat : hasflag flags HIT_MATERIAL
        · simp only [Bool.false_eq_true, if_false]
          by_cases hx : ((a.headshotdam != 0 && !(isweaponprojectile a.projectile)) &&
              hasflag flags HIT_HEAD && G.mayhem) = true
          · rw [if_pos hx]
            refine ⟨_, _, rfl, rfl, ?_⟩
            rcases hexit with h | h
            · rw [hmat] at h
              simp only [Bool.not_false, Bool.true_and] at h
              rw [hx] at h
              cases h
            · exact h
          · rw [if_neg hx]
            exact ⟨_, _, rfl, rfl,
              le_trans (by decide) (damageSteps_pos _ _ _ _ _ _ _ _ hd hh)⟩
        · simp only [if_true]
          exact ⟨_, _, rfl, rfl,
            le_trans (by decide) (damageSteps_pos _ _ _ _ _ _ _ _ hd (le_refl 0))⟩
    · have hid2 : (target.id != actor.id && G.isinvulnerable target actor) = false := by
        simp only [Bool.not_eq_true] at hid
        rw [hid, Bool.false_and]
      rw [if_neg hid, hid2]
      simp only [Bool.false_eq_true, if_false]
      split_ifs <;> exact ⟨_, _, rfl, rfl, le_refl _⟩

/-- Witness of C18 (amended): an SMG torso hit of 16 on a plain target deals no more when
the target is an ally of the actor. -/
theorem calcdamage_monotone_witness :
    2 * (16 + (mkatk GUN_SMG ACT_PRIMARY Projectile_Bullet 110 16 14 84 0 1500 7 1000 1 60 0 0 1
        0 0 false true).headshotdam) ≤ INT_MAX ∧
    ∃ r r', calcdamage sampleGame 16 victim shooter ATK_SMG1 HIT_TORSO = some r ∧
      calcdamage { sampleGame with isally := fun _ _ => true } 16 victim shooter ATK_SMG1
        HIT_TORSO = some r' ∧
      r' ≤ r :=
  ⟨by decide, (calcdamage_monotone sampleGame 16 victim shooter ATK_SMG1 HIT_TORSO
    (mkatk GUN_SMG ACT_PRIMARY Projectile_Bullet 110 16 14 84 0 1500 7 1000 1 60 0 0 1 0 0
      false true) (by decide) (by rfl) (by decide)).2.1 (fun _ _ => true) rfl⟩

/-- C19, counterexample: an SMG head shot of 16 (a locational hit) by an actor holding the
damage powerup deals 60, twice the 30 dealt without the powerup: the doubling is
applied to a locational hit. -/
theorem calcdamage_doubles_head_shot :
    boostedShooter.haspowerup Powerup.PU_DAMAGE = true ∧
      hasflag HIT_HEAD HIT_HEAD = true ∧
      calcdamage sampleGame 16 victim shooter ATK_SMG1 HIT_HEAD = some 30 ∧
      calcdamage sampleGame 16 victim boostedShooter ATK_SMG1 HIT_HEAD = some 60 := by
  decide

/-- C19, amended: for an actor holding the damage powerup or the berserker role, a valid
attack and a target that is the actor or is not invulnerable to the actor, `calcdamage`
applies no doubling when the material flag is set (the result is the base damage,
halved for an armored target, 0 replaced by 1); without the material flag, outside
the Mayhem head-shot exit, the doubling step is applied whether or not the head or
legs flag is set: the result is the pipeline run with the doubling switched on. -/
theorem calcdamage_doubling (G : Game) (damage : Int) (target actor : gameent)
    (atk : Int) (flags : Nat) (a : attackinfo)
    (hatk : attackAt atk = some a)
    (hboost : actor.haspowerup Powerup.PU_DAMAGE = true ∨ actor.role = G.ROLE_BERSERKER)
    (hvul : target.id = actor.id ∨ G.isinvulnerable target actor = false)
    (hexit : forcesDeath G a flags = false) :
    calcdamage G damage target actor atk flags =
      some (if hasflag flags HIT_MATERIAL = true then
          damageSteps damage 0 false false false false false
            (target.haspowerup Powerup.PU_ARMOR || target.role == G.ROLE_BERSERKER)
        else
          damageSteps damage a.headshotdam
            (a.headshotdam != 0 && !(isweaponprojectile a.projectile))
            (hasflag flags HIT_HEAD) (hasflag flags HIT_LEGS) true
            (G.isally target actor || target.id == actor.id)
            (target.haspowerup Powerup.PU_ARMOR || target.role == G.ROLE_BERSERKER)) := by
  have hinv : (target.id != actor.id && G.isinvulnerable target actor) = false := by
    rcases hvul with h | h <;> simp [h]
  have hb : (actor.haspowerup Powerup.PU_DAMAGE || actor.role == G.ROLE_BERSERKER) = true := by
    rcases hboost with h | h <;> simp [h]
  rw [calcdamage_cases, hinv, hatk, hb]
  unfold forcesDeath at hexit
  cases hmat : hasflag flags HIT_MATERIAL
  · rw [hmat] at hexit
    simp only [Bool.not_false, Bool.true_and] at hexit
    simp only [Bool.false_eq_true, if_false, hexit]
  · simp only [if_true, Bool.false_eq_true, if_false]

/-- Witness of C19 (amended): the boosted SMG leg shot of 16 is halved to 8, then doubled
to 16. -/
theorem calcdamage_doubling_witness :
    calcdamage sampleGame 16 victim boostedShooter ATK_SMG1 HIT_LEGS = some 16 :=
  (calcdamage_doubling sampleGame 16 victim boostedShooter ATK_SMG1 HIT_LEGS
    (mkatk GUN_SMG ACT_PRIMARY Projectile_Bullet 110 16 14 84 0 1500 7 1000 1 60 0 0 1 0 0
      false true) (by rfl) (Or.inl (by decide)) (Or.inr (by rfl)) (by decide)).trans (by decide)

/-! ## The distance scaling of radial damage -/

theorem samebounces_refl (p : projectile) : samebounces p p := ⟨samecore_refl p, rfl, rfl⟩

theorem samebounces_trans {p q r : projectile} (h1 : samebounces p q) (h2 : samebounces q r) :
    samebounces p r :=
  ⟨samecore_trans h1.1 h2.1, h2.2.1.trans h1.2.1, h2.2.2.trans h1.2.2⟩

/-- What `bounce` does to the bounce count of a projectile of a table kind: it adds 1
when the entity type is `ENT_PROJECTILE`, whatever the maximum of the kind, and leaves
the projectile alone otherwise. -/
theorem bounce_count (G : Game) (E : Engine) (p : projectile)
    (hp : (projAt p.projtype).isSome = true) :
    ∃ q, bounce G E p = some q ∧ samecore p q ∧ q.isdestroyed = p.isdestroyed ∧
      q.type = p.type ∧
      q.bounces = (if p.type = E.ENT_PROJECTILE then p.bounces + 1 else p.bounces) := by
  obtain ⟨info, hi⟩ := Option.isSome_iff_exists.mp hp
  unfold bounce
  by_cases ht : p.type = E.ENT_PROJECTILE
  · have ht' : (p.type != E.ENT_PROJECTILE) = false := by simp [ht]
    simp only [ht', if_false, Option.pure_def, Option.bind_eq_bind, hi, Option.some_bind,
      Bool.false_eq_true]
    rw [if_pos ht]
    split_ifs <;> exact ⟨_, rfl, ⟨rfl, rfl, rfl, rfl, rfl, rfl, rfl⟩, rfl, rfl, rfl⟩
  · have ht' : (p.type != E.ENT_PROJECTILE) = true := by simp [ht]
    simp only [ht', if_true, Option.pure_def]
    rw [if_neg ht]
    exact ⟨p, rfl, samecore_refl p, rfl, rfl, rfl⟩

theorem bounce_fold_count (G : Game) (E : Engine) (surfaces : List vec) :
    ∀ p : projectile, (projAt p.projtype).isSome = true →
      ∃ q, surfaces.foldlM (fun p _ => bounce G E p) p = some q ∧ samecore p q ∧
        q.isdestroyed = p.isdestroyed ∧ q.type = p.type ∧
        q.bounces =
          (if p.type = E.ENT_PROJECTILE then p.bounces + surfaces.length else p.bounces) := by
  induction surfaces with
  | nil =>
    intro p _
    refine ⟨p, rfl, samecore_refl p, rfl, rfl, ?_⟩
    split_ifs <;> simp
  | cons s rest ih =>
    intro p hp
    obtain ⟨q, hq, hc, hd, ht, hb⟩ := bounce_count G E p hp
    obtain ⟨r, hr, hc2, hd2, ht2, hb2⟩ := ih q (by rw [hc.2.2.1]; exact hp)
    refine ⟨r, ?_, samecore_trans hc hc2, hd2.trans hd, ht2.trans ht, ?_⟩
    · simp only [List.foldlM, hq, Option.bind_eq_bind, Option.some_bind]
      exact hr
    · rw [hb2, ht, hb]
      split_ifs
      · simp only [List.length_cons, Nat.cast_add, Nat.cast_one]; ring
      · rfl

theorem applyphysmove_count (G : Game) (E : Engine) (p : projectile) (m : physmove)
    (hp : (projAt p.projtype).isSome = true) :
    ∃ q, applyphysmove G E p m = some q ∧ samecore p q ∧ q.isdestroyed = p.isdestroyed ∧
      q.type = p.type ∧
      q.bounces =
        (if p.type = E.ENT_PROJECTILE then p.bounces + m.surfaces.length else p.bounces) := by
  obtain ⟨q, hq, hc, hd, ht, hb⟩ :=
    bounce_fold_count G E m.surfaces { p with o := m.o, vel := m.vel } hp
  unfold applyphysmove
  simp only [Option.bind_eq_bind, hq, Option.some_bind, Option.pure_def]
  by_cases hm : m.entityhit = true
  · rw [if_pos hm]
    refine ⟨_, rfl, ?_, hd, ht, hb⟩
    obtain ⟨a1, a2, a3, a4, a5, a6, a7⟩ := hc
    exact ⟨a1, a2, a3, a4, a5, a6, a7⟩
  · rw [if_neg hm]
    exact ⟨q, rfl, hc, hd, ht, hb⟩

/-- The bounce test of the tick on a projectile whose kind has a maximum above 0 and
whose count is below it, when the physics call reports at most one bounce: the count
stays within the maximum, and below it unless the destroyed flag ends up set. -/
theorem tickbounce_count (G : Game) (E : Engine) (p : projectile) (info : projectileinfo)
    (hp : projAt p.projtype = some info) (hmax : 0 < info.maxbounces)
    (hone : (E.isbouncing p).surfaces.length ≤ 1) (hstart : p.bounces < info.maxbounces) :
    ∃ q, tickbounce G E p = some q ∧ samecore p q ∧ q.type = p.type ∧
      q.bounces ≤ info.maxbounces ∧
      (q.isdestroyed = false → q.bounces < info.maxbounces) := by
  unfold tickbounce
  split_ifs
  · obtain ⟨p1, h1, hc, _, ht, hb⟩ :=
      applyphysmove_count G E p (E.isbouncing p) (by rw [hp]; rfl)
    have hp1 : projAt p1.projtype = some info := by rw [hc.2.2.1]; exact hp
    have hle : p1.bounces ≤ info.maxbounces := by
      rw [hb]
      split_ifs
      · have : ((E.isbouncing p).surfaces.length : Int) ≤ 1 := by exact_mod_cast hone
        omega
      · omega
    simp only [h1, Option.some_bind, hp1, Option.map_some']
    by_cases hx : (!(E.isbouncing p).result ||
        (info.maxbounces != 0 && decide (p1.bounces ≥ info.maxbounces))) = true
    · rw [if_pos hx]
      refine ⟨_, rfl, ?_, ht, hle, fun h => by cases h⟩
      obtain ⟨b1, b2, b3, b4, b5, b6, b7⟩ := hc
      exact ⟨b1, b2, b3, b4, b5, b6, b7⟩
    · rw [if_neg hx]
      refine ⟨_, rfl, hc, ht, hle, fun _ => ?_⟩
      simp only [Bool.or_eq_true, Bool.not_eq_true', Bool.and_eq_true, bne_iff_ne, ne_eq,
        decide_eq_true_eq, not_or, not_and] at hx
      have := hx.2 (by omega)
      omega
  · exact ⟨p, rfl, samecore_refl p, rfl, le_of_lt hstart, fun _ => hstart⟩

theorem updateposition_bounces (E : Engine) (p : projectile) (time : Int) :
    samebounces p (p.updateposition E time).1 ∧
      (p.updateposition E time).1.isdestroyed = p.isdestroyed := by
  unfold projectile.updateposition
  split_ifs <;> exact ⟨⟨⟨rfl, rfl, rfl, rfl, rfl, rfl, rfl⟩, rfl, rfl⟩, rfl⟩

theorem tickdirect_bounces (G : Game) (E : Engine) (p : projectile) (pos : vec) (w : World)
    (r : projectile × World) (h : tickdirect G E p pos w = some r) : samebounces p r.1 := by
  unfold tickdirect at h
  by_cases hl : (hasflag p.flags ProjFlag_Linear && p.islocal) = true
  · rw [if_pos hl] at h
    cases ha : attackAt p.atk with
    | none => simp [ha] at h
    | some a =>
      rw [ha, Option.some_bind] at h
      simp only [] at h
      by_cases hb : (!G.betweenrounds) = true
      · rw [if_pos hb] at h
        obtain ⟨s, _, hs⟩ := Option.map_eq_some'.mp h
        subst hs
        simp only []
        split_ifs
        · exact ⟨⟨rfl, rfl, rfl, rfl, rfl, rfl, rfl⟩, rfl, rfl⟩
        · exact samebounces_refl p
      · rw [if_neg hb] at h
        cases h
        exact samebounces_refl p
  · rw [if_neg hl] at h
    cases h
    exact samebounces_refl p

theorem tickimpact_bounces (E : Engine) (p : projectile) : samebounces p (tickimpact E p).1 := by
  unfold tickimpact
  simp only []
  split_ifs <;> exact ⟨⟨rfl, rfl, rfl, rfl, rfl, rfl, rfl⟩, rfl, rfl⟩

theorem handleliquidtransitions_bounces (E : Engine) (p q : projectile)
    (h : handleliquidtransitions E p = some q) : samebounces p q := by
  unfold handleliquidtransitions at h
  cases hi : projAt p.projtype with
  | none => simp [hi] at h
  | some info =>
    simp only [hi, Option.bind_eq_bind, Option.some_bind, Option.pure_def,
      Option.some.injEq] at h
    subst h
    split_ifs <;> exact ⟨⟨rfl, rfl, rfl, rfl, rfl, rfl, rfl⟩, rfl, rfl⟩

theorem limitoffset_bounces (E : Engine) (p : projectile) : samebounces p (p.limitoffset E) := by
  unfold projectile.limitoffset
  split_ifs <;> exact ⟨⟨rfl, rfl, rfl, rfl, rfl, rfl, rfl⟩, rfl, rfl⟩

theorem tickfinish_bounces (G : Game) (E : Engine) (time : Int) (p : projectile) (pos : vec)
    (w : World) (r : tickout) (h : tickfinish G E time p pos w = some r) :
    samebounces p r.proj := by
  unfold tickfinish at h
  by_cases hd : p.isdestroyed = true
  · rw [if_pos hd] at h
    by_cases hw : isweaponprojectile p.projtype = true
    · rw [if_pos hw] at h
      cases ha : attackAt p.atk with
      | none => simp [ha] at h
      | some a =>
        rw [ha, Option.some_bind] at h
        obtain ⟨w1, _, hs⟩ := Option.map_eq_some'.mp h
        subst hs
        exact samebounces_refl p
    · rw [if_neg hw] at h
      cases h
      exact samebounces_refl p
  · rw [if_neg hd] at h
    by_cases hb : hasflag p.flags ProjFlag_Bounce = true
    · rw [if_pos hb] at h
      cases h
      exact limitoffset_bounces E { p with offsetmillis := max (p.offsetmillis - time) 0 }
    · rw [if_neg hb] at h
      cases h
      exact ⟨⟨rfl, rfl, rfl, rfl, rfl, rfl, rfl⟩, rfl, rfl⟩
/-- The live part of the loop body on a weapon projectile whose kind has a maximum above
0 and whose count is below it, when a physics call reports at most one bounce: it
returns, the count stays within the maximum, and below it unless the destroyed flag
ends up set. -/
theorem tickalive_count (G : Game) (E : Engine) (time : Int) (p : projectile)
    (info : projectileinfo) (hp : projAt p.projtype = some info)
    (hweap : isweaponprojectile p.projtype = true) (hmax : 0 < info.maxbounces)
    (hone : ∀ q, (E.isbouncing q).surfaces.length ≤ 1) (hstart : p.bounces < info.maxbounces) :
    ∃ r, tickalive G E time p = some r ∧ samecore p r.1 ∧ r.1.bounces ≤ info.maxbounces ∧
      (r.1.isdestroyed = false → r.1.bounces < info.maxbounces) := by
  unfold tickalive checklifetime
  rw [if_pos hweap]
  simp only [Option.some_bind]
  have s1 : samebounces p (if p.lifetime - time < 0
      then { p with lifetime := p.lifetime - time, isdestroyed := true }
      else { p with lifetime := p.lifetime - time }) := by
    split_ifs <;> exact ⟨⟨rfl, rfl, rfl, rfl, rfl, rfl, rfl⟩, rfl, rfl⟩
  generalize (if p.lifetime - time < 0
      then { p with lifetime := p.lifetime - time, isdestroyed := true }
      else { p with lifetime := p.lifetime - time }) = p1 at s1 ⊢
  have s2 : samebounces p1 (if (E.lookupmaterial p1.o &&& E.MATF_VOLUME == E.MAT_LAVA) = true
      then { p1 with isdestroyed := true } else p1) := by
    split_ifs
    · exact ⟨⟨rfl, rfl, rfl, rfl, rfl, rfl, rfl⟩, rfl, rfl⟩
    · exact samebounces_refl p1
  generalize (if (E.lookupmaterial p1.o &&& E.MATF_VOLUME == E.MAT_LAVA) = true
      then { p1 with isdestroyed := true } else p1) = p2 at s2 ⊢
  have s3 : samebounces p (tickimpact E p2).1 :=
    samebounces_trans s1 (samebounces_trans s2 (tickimpact_bounces E p2))
  by_cases hr : (tickimpact E p2).2 = true
  · rw [if_pos hr]
    refine ⟨_, rfl, s3.1, ?_, fun _ => ?_⟩
    · show (tickimpact E p2).1.bounces ≤ info.maxbounces
      rw [s3.2.2]; exact le_of_lt hstart
    · show (tickimpact E p2).1.bounces < info.maxbounces
      rw [s3.2.2]; exact hstart
  · rw [if_neg hr]
    have hp3 : projAt (tickimpact E p2).1.projtype = some info := by rw [s3.1.2.2.1]; exact hp
    obtain ⟨p4, h4, c4, _, hle, hlt⟩ := tickbounce_count G E (tickimpact E p2).1 info hp3 hmax
      (hone _) (by rw [s3.2.2]; exact hstart)
    have hp4 : (projAt p4.projtype).isSome = true := by rw [c4.2.2.1, hp3]; rfl
    obtain ⟨p5, h5, k5⟩ := handleliquidtransitions_spec E p4 hp4
    have s5 := handleliquidtransitions_bounces E p4 p5 h5
    simp only [h4, Option.some_bind, h5, Option.map_some']
    refine ⟨_, rfl, samecore_trans s3.1 (samecore_trans c4 k5.1), ?_, fun hd => ?_⟩
    · show p5.bounces ≤ info.maxbounces
      rw [s5.2.2]; exact hle
    · show p5.bounces < info.maxbounces
      rw [s5.2.2]
      apply hlt
      cases h4d : p4.isdestroyed
      · rfl
      · have := k5.2.2 h4d
        rw [this] at hd
        cases hd

/-- One tick on a weapon projectile with a valid attack id whose kind has a maximum above
0 and whose count is below it, when a physics call reports at most one bounce: the
loop body returns, the count stays within the maximum, and below it unless the
destroyed flag ends up set. -/
theorem tickprojectile_count (G : Game) (E : Engine) (time : Int) (p : projectile) (w : World)
    (info : projectileinfo) (hp : projAt p.projtype = some info)
    (hweap : isweaponprojectile p.projtype = true) (hatk : (attackAt p.atk).isSome = true)
    (hmax : 0 < info.maxbounces)
    (hone : ∀ q, (E.isbouncing q).surfaces.length ≤ 1) (hstart : p.bounces < info.maxbounces) :
    ∃ r, tickprojectile G E time p w = some r ∧ samecore p r.proj ∧
      r.proj.bounces ≤ info.maxbounces ∧
      (r.proj.isdestroyed = false → r.proj.bounces < info.maxbounces) := by
  have hu := updateposition_bounces E p time
  have hatk1 : (attackAt (p.updateposition E time).1.atk).isSome = true := by
    rw [hu.1.1.2.2.2.2.1]; exact hatk
  obtain ⟨r1, h1, _⟩ := tickdirect_spec G E (p.updateposition E time).1
    (p.updateposition E time).2 w (fun _ => hatk1)
  have s1 : samebounces p r1.1 := samebounces_trans hu.1 (tickdirect_bounces G E _ _ w r1 h1)
  have hatkq : ∀ q, samecore p q → isweaponprojectile q.projtype = true →
      (attackAt q.atk).isSome = true := by
    intro q hq _
    rw [hq.2.2.2.2.1]; exact hatk
  unfold tickprojectile
  simp only [h1, Option.some_bind]
  by_cases hd1 : r1.1.isdestroyed = true
  · simp only [hd1, Bool.not_true, Bool.false_eq_true, if_false]
    obtain ⟨r, hr, _, _, hdr⟩ := tickfinish_spec G E time r1.1 (p.updateposition E time).2 r1.2
      (hatkq _ s1.1)
    have s2 := samebounces_trans s1 (tickfinish_bounces G E time _ _ _ r hr)
    refine ⟨r, hr, s2.1, by rw [s2.2.2]; exact le_of_lt hstart, fun h => ?_⟩
    rw [hdr, hd1] at h
    cases h
  · have hd1' : r1.1.isdestroyed = false := by simpa using hd1
    simp only [hd1', Bool.not_false, if_true]
    obtain ⟨ra, ha, hca, hle, hlt⟩ := tickalive_count G E time r1.1 info
      (by rw [s1.1.2.2.1]; exact hp) (by rw [s1.1.2.2.1]; exact hweap) hmax hone
      (by rw [s1.2.2]; exact hstart)
    have c2 : samecore p ra.1 := samecore_trans s1.1 hca
    simp only [ha, Option.some_bind]
    by_cases hs : ra.2 = true
    · rw [if_pos hs]
      exact ⟨_, rfl, c2, hle, hlt⟩
    · rw [if_neg hs]
      obtain ⟨r, hr, _, _, hdr⟩ := tickfinish_spec G E time ra.1 (p.updateposition E time).2
        r1.2 (hatkq _ c2)
      have s3 := tickfinish_bounces G E time _ _ _ r hr
      refine ⟨r, hr, samecore_trans c2 s3.1, by rw [s3.2.2]; exact hle, fun h => ?_⟩
      rw [s3.2.2]
      exact hlt (by rw [← hdr]; exact h)

/-- C13: a weapon projectile (bounce-type or not) of a kind with `maxbounces > 0` and a
valid attack id, starting with a bounce count below the maximum (0 at spawn) and ticked
any number of times by an engine whose physics call reports at most one bounce per
tick: every tick returns, the count never exceeds the maximum, and as long as the
destroyed flag is not set the count is strictly below the maximum. -/
theorem bounces_below_max_while_alive (ts : List tickenv) (p : projectile) (w : World)
    (info : projectileinfo) (hp : projAt p.projtype = some info)
    (hweap : isweaponprojectile p.projtype = true)
    (hatk : (attackAt p.atk).isSome = true)
    (hmax : 0 < info.maxbounces)
    (hone : ∀ e ∈ ts, ∀ q, (e.E.isbouncing q).surfaces.length ≤ 1)
    (hstart : p.bounces < info.maxbounces) :
    ∃ q w', tickmany ts p w = some (q, w') ∧ q.bounces ≤ info.maxbounces ∧
      (q.isdestroyed = false → q.bounces < info.maxbounces) := by
  induction ts generalizing p w with
  | nil => exact ⟨p, w, rfl, le_of_lt hstart, fun _ => hstart⟩
  | cons e rest ih =>
    by_cases hd : p.isdestroyed = true
    · exact ⟨p, w, tickmany_destroyed _ p w hd, le_of_lt hstart, fun _ => hstart⟩
    · have hd' : p.isdestroyed = false := by simpa using hd
      obtain ⟨r, hr, hc, hle, hlt⟩ := tickprojectile_count e.G e.E e.time p w info hp hweap hatk
        hmax (hone e (List.mem_cons_self _ _)) hstart
      have hstep : tickmany (e :: rest) p w = tickmany rest r.proj r.world := by
        simp [tickmany, hd', hr]
      rw [hstep]
      by_cases hdr : r.proj.isdestroyed = true
      · exact ⟨r.proj, r.world, tickmany_destroyed _ _ _ hdr, hle,
          fun h => by rw [hdr] at h; cases h⟩
      · exact ih r.proj r.world (by rw [hc.2.2.1]; exact hp) (by rw [hc.2.2.1]; exact hweap)
          (by rw [hc.2.2.2.2.1]; exact hatk)
          (fun e' he' => hone e' (List.mem_cons_of_mem _ he'))
          (hlt (by simpa using hdr))

/-- Witness of C13: the bouncing rocket that has bounced once, ticked twice by an engine
that reports one bounce per physics call. -/
theorem bounces_below_max_while_alive_witness :
    ∃ q w', tickmany [{ G := sampleGame, E := bouncingEngine, time := 30 },
        { G := sampleGame, E := bouncingEngine, time := 30 }] bouncedRocket {} = some (q, w') ∧
      q.bounces ≤ 2 ∧ (q.isdestroyed = false → q.bounces < 2) :=
  bounces_below_max_while_alive _ bouncedRocket {}
    { type := Projectile_Rocket2, flags := ProjFlag_Weapon ||| ProjFlag_Bounce, maxbounces := 2,
      variants := 0, radius := 2 }
    (by rfl) (by rfl) (by rfl) (by decide)
    (by
      intro e he q
      simp only [List.mem_cons, List.mem_singleton, List.not_mem_nil, or_false, or_self] at he
      subst he
      exact le_refl 1)
    (by decide)
/-- What `makeprojectile` appends: a projectile of the given kind with the entity type
`ENT_BOUNCE`, a bounce count of 0 and the destroyed flag clear. -/
theorem makeprojectile_fresh (G : Game) (E : Engine) (owner : gameent) (from_ to_ : vec)
    (islocal : Bool) (id atk type lifetime speed : Int) (gravity elasticity : ℚ) (w w' : World)
    (h : makeprojectile G E owner from_ to_ islocal id atk type lifetime speed gravity elasticity w
      = some w') :
    ∃ p, w'.projectiles = w.projectiles ++ [p] ∧ p.projtype = type ∧ p.type = E.ENT_BOUNCE ∧
      p.bounces = 0 ∧ p.isdestroyed = false ∧ p.atk = atk := by
  unfold makeprojectile at h
  cases hp : projAt type with
  | none => simp [hp] at h
  | some info =>
    simp only [hp, Option.bind_eq_bind, Option.some_bind, Option.pure_def] at h
    by_cases hvz : info.variants > 0 <;> by_cases hw : hasflag info.flags ProjFlag_Weapon = true
    all_goals simp only [hvz, hw, if_true, if_false, rnd, Bool.false_eq_true] at h
    · cases ha : attackAt atk with
      | none => simp [ha] at h
      | some a =>
        simp only [ha, Option.map_some', Option.some_bind, Option.some.injEq] at h
        subst h
        exact ⟨_, rfl, rfl, rfl, rfl, rfl, rfl⟩
    · simp only [Option.some_bind, Option.some.injEq] at h
      subst h
      exact ⟨_, rfl, rfl, rfl, rfl, rfl, rfl⟩
    · cases ha : attackAt atk with
      | none => simp [ha] at h
      | some a =>
        simp only [ha, Option.map_some', Option.some_bind, Option.some.injEq] at h
        subst h
        exact ⟨_, rfl, rfl, rfl, rfl, rfl, rfl⟩
    · simp only [Option.some_bind, Option.some.injEq] at h
      subst h
      exact ⟨_, rfl, rfl, rfl, rfl, rfl, rfl⟩

/-- C12, counterexample: a gib (kind maximum 2, nonzero) whose count is 2: the bounce
callback raises the count to 3, and so does one tick of 30 ms, which leaves the gib
alive and in the collection with a count above the maximum. -/
theorem gib_bounces_past_max :
    (projAt Projectile_Gib).map (fun i => i.maxbounces) = some 2 ∧
      bouncedGib.bounces = 2 ∧
      (bounce sampleGame bouncingEngine bouncedGib).map (fun q => q.bounces) = some 3 ∧
      (tickprojectile sampleGame bouncingEngine 30 bouncedGib {}).map
        (fun r => (r.proj.bounces, r.proj.isdestroyed, r.removed)) = some (3, false, false) := by
  decide!

/-- C12, amended: for a projectile of a table kind the bounce callback returns and adds
exactly 1 to the bounce count when the entity type is `ENT_PROJECTILE`, leaving it
unchanged otherwise, whatever the maximum of the kind; so it preserves
`bounces <= maxbounces` exactly when `bounces < maxbounces` held before (or the entity
type differs).  A projectile is spawned with a bounce count of 0. -/
theorem bounce_adds_one (G : Game) (E : Engine) (p : projectile) (info : projectileinfo)
    (hp : projAt p.projtype = some info) :
    (∃ q, bounce G E p = some q ∧
      q.bounces = (if p.type = E.ENT_PROJECTILE then p.bounces + 1 else p.bounces) ∧
      (q.bounces ≤ info.maxbounces ↔
        (if p.type = E.ENT_PROJECTILE then p.bounces < info.maxbounces
          else p.bounces ≤ info.maxbounces))) ∧
    (∀ (owner : gameent) (from_ to_ : vec) (islocal : Bool) (id atk lifetime speed : Int)
        (gravity elasticity : ℚ) (w w' : World),
      makeprojectile G E owner from_ to_ islocal id atk p.projtype lifetime speed gravity
        elasticity w = some w' →
      ∃ q, w'.projectiles = w.projectiles ++ [q] ∧ q.projtype = p.projtype ∧ q.bounces = 0) := by
  constructor
  · obtain ⟨q, hq, _, _, _, hb⟩ := bounce_count G E p (by rw [hp]; rfl)
    refine ⟨q, hq, hb, ?_⟩
    rw [hb]
    split_ifs
    · constructor <;> intro h <;> omega
    · exact Iff.rfl
  · intro owner from_ to_ islocal id atk lifetime speed gravity elasticity w w' h
    obtain ⟨q, h1, h2, _, h4, _⟩ := makeprojectile_fresh G E owner from_ to_ islocal id atk
      p.projtype lifetime speed gravity elasticity w w' h
    exact ⟨q, h1, h2, h4⟩

/-- Witness of C12 (amended): the bounce callback on the bouncing rocket that has bounced
once. -/
theorem bounce_adds_one_witness :
    ∃ q, bounce sampleGame bouncingEngine bouncedRocket = some q ∧
      q.bounces = (if bouncedRocket.type = bouncingEngine.ENT_PROJECTILE
        then bouncedRocket.bounces + 1 else bouncedRocket.bounces) ∧
      (q.bounces ≤ 2 ↔
        (if bouncedRocket.type = bouncingEngine.ENT_PROJECTILE then bouncedRocket.bounces < 2
          else bouncedRocket.bounces ≤ 2)) :=
  (bounce_adds_one sampleGame bouncingEngine bouncedRocket
    { type := Projectile_Rocket2, flags := ProjFlag_Weapon ||| ProjFlag_Bounce, maxbounces := 2,
      variants := 0, radius := 2 } (by rfl)).1

/-! ## scanprojectiles and avoidprojectiles -/

theorem eraseIdx_set_same {α : Type} (a : α) : ∀ (l : List α) (i : Nat),
    (l.set i a).eraseIdx i = l.eraseIdx i
  | [], _ => rfl
  | _ :: _, 0 => rfl
  | x :: l, i + 1 => by
    simp only [List.set_cons_succ, List.eraseIdx_cons_succ, eraseIdx_set_same a l i]

theorem get?_append_length {α : Type} (pre : List α) (p : α) (post : List α) :
    (pre ++ p :: post).get? pre.length = some p := by
  induction pre with
  | nil => rfl
  | cons x xs ih => simpa using ih

/-- The effects of a pistol combo explosion: no debris is spawned, so the collection, the
hit log, the messages and the ray buffer are as before. -/
theorem addexplosioneffects_combo (G : Game) (E : Engine) (owner : gameent) (v : vec)
    (w : World) :
    ∃ w', addexplosioneffects G E owner ATK_PISTOL_COMBO v w = some w' ∧
      w'.projectiles = w.projectiles ∧ w'.hitlog = w.hitlog ∧ w'.msgs = w.msgs ∧
      w'.rays = w.rays := by
  have ha : attackAt ATK_PISTOL_COMBO = some (mkatk GUN_PISTOL ACT_SECONDARY (-1) 1000 80 0 0 0
      400 0 2048 1 350 50 0 0 0 0 false false) := rfl
  have h1 : (ATK_PISTOL_COMBO == ATK_PULSE1) = false := rfl
  have h2 : (ATK_PISTOL_COMBO == ATK_PISTOL2) = false := rfl
  have h3 : ((mkatk GUN_PISTOL ACT_SECONDARY (-1) 1000 80 0 0 0 400 0 2048 1 350 50 0 0 0 0
      false false).gun == GUN_ROCKET) = false := rfl
  have h4 : ((mkatk GUN_PISTOL ACT_SECONDARY (-1) 1000 80 0 0 0 400 0 2048 1 350 50 0 0 0 0
      false false).gun == GUN_SCATTER) = false := rfl
  unfold addexplosioneffects
  simp only [ha, h1, h2, h3, h4, Option.bind_eq_bind, Option.some_bind, Option.pure_def, rnd,
    Bool.or_self, Bool.false_and, Bool.and_false, Bool.false_eq_true, if_false]
  split_ifs <;> exact ⟨_, rfl, rfl, rfl, rfl, rfl⟩

/-- The detonation of a bolt by `scanprojectiles` returns; the collection loses the entry
at the index of the bolt and nothing else, and the explosion is the one of the bolt
retagged to `ATK_PISTOL_COMBO`, at the position of the bolt, with damage 80 and the
locality of the bolt. -/
theorem combodetonate_spec (G : Game) (E : Engine) (d : gameent) (p : projectile) (i : Nat)
    (w : World) :
    ∃ w' wx, combodetonate G E d p i w = some w' ∧
      explodeprojectile G E { p with atk := ATK_PISTOL_COMBO } p.o none 80 p.islocal
        { w with projectiles := w.projectiles.set i { p with atk := ATK_PISTOL_COMBO } } =
          some wx ∧
      w'.projectiles = w.projectiles.eraseIdx i ∧ w'.hitlog = wx.hitlog ∧ w'.rays = w.rays := by
  have ha : attackAt ATK_PISTOL_COMBO = some (mkatk GUN_PISTOL ACT_SECONDARY (-1) 1000 80 0 0 0
      400 0 2048 1 350 50 0 0 0 0 false false) := rfl
  obtain ⟨w1, hw1, hpr, _, _, hr⟩ := addexplosioneffects_combo G E p.owner
    (if hasflag p.flags ProjFlag_Linear = true then p.o else p.o)
    { w with projectiles := w.projectiles.set i { p with atk := ATK_PISTOL_COMBO } }
  have hex : ∃ wx, explodeprojectile G E { p with atk := ATK_PISTOL_COMBO } p.o none 80 p.islocal
      { w with projectiles := w.projectiles.set i { p with atk := ATK_PISTOL_COMBO } } =
        some wx ∧
      wx.projectiles = w.projectiles.set i { p with atk := ATK_PISTOL_COMBO } ∧
      wx.rays = w.rays := by
    unfold explodeprojectile
    simp only [ha, Option.bind_eq_bind, Option.some_bind, Option.pure_def, hw1]
    by_cases hc : (G.betweenrounds || !p.islocal) = true
    · rw [if_pos hc]
      exact ⟨w1, rfl, hpr, hr⟩
    · rw [if_neg hc]
      obtain ⟨log', hlog⟩ := radialsweep_isSome G E { p with atk := ATK_PISTOL_COMBO }
        (if hasflag p.flags ProjFlag_Linear = true then p.o else p.o) none 80
        (mkatk GUN_PISTOL ACT_SECONDARY (-1) 1000 80 0 0 0 400 0 2048 1 350 50 0 0 0 0 false false)
        (by rfl) G.dynents w1.hitlog
      rw [hlog, Option.some_bind]
      exact ⟨_, rfl, hpr, hr⟩
  obtain ⟨wx, hwx, hxp, hxr⟩ := hex
  unfold combodetonate
  simp only [ha, Option.some_bind]
  have hdam : (mkatk GUN_PISTOL ACT_SECONDARY (-1) 1000 80 0 0 0 400 0 2048 1 350 50 0 0 0 0
      false false).damage = 80 := rfl
  rw [hdam, hwx, Option.map_some']
  refine ⟨_, wx, rfl, rfl, ?_, ?_, ?_⟩
  · split_ifs <;> simp only [hxp, eraseIdx_set_same]
  · split_ifs <;> rfl
  · split_ifs <;> exact hxr

/-- The inner loop of `scanprojectiles` at one step point: when it returns, either no
projectile of the list is eligible and nothing was done, or the first eligible
projectile of the list was detonated. -/
theorem scanpoint_some (G : Game) (E : Engine) (d : gameent) (atk : Int) (point : vec)
    (w : World) :
    ∀ (rest : List projectile) (i : Nat) (r : Option World),
      scanpoint G E d atk point w rest i = some r →
      (r = none ∧ ∀ p ∈ rest, ¬ comboeligible E d atk point p) ∨
      (∃ pre p post w', rest = pre ++ p :: post ∧
        (∀ q ∈ pre, ¬ comboeligible E d atk point q) ∧ comboeligible E d atk point p ∧
        combodetonate G E d p (i + pre.length) w = some w' ∧ r = some w') := by
  intro rest
  induction rest with
  | nil =>
    intro i r h
    left
    simp only [scanpoint, Option.some.injEq] at h
    exact ⟨h.symm, by simp⟩
  | cons proj rest ih =>
    intro i r h
    have skip : ¬ comboeligible E d atk point proj →
        scanpoint G E d atk point w rest (i + 1) = some r →
        (r = none ∧ ∀ p ∈ proj :: rest, ¬ comboeligible E d atk point p) ∨
        (∃ pre p post w', proj :: rest = pre ++ p :: post ∧
          (∀ q ∈ pre, ¬ comboeligible E d atk point q) ∧ comboeligible E d atk point p ∧
          combodetonate G E d p (i + pre.length) w = some w' ∧ r = some w') := by
      intro hne h'
      rcases ih (i + 1) r h' with ⟨h1, h2⟩ | ⟨pre, p, post, w', h1, h2, h3, h4, h5⟩
      · left
        refine ⟨h1, ?_⟩
        intro q hq
        rcases List.mem_cons.mp hq with rfl | hq
        · exact hne
        · exact h2 q hq
      · right
        refine ⟨proj :: pre, p, post, w', by rw [h1]; rfl, ?_, h3, ?_, h5⟩
        · intro q hq
          rcases List.mem_cons.mp hq with rfl | hq
          · exact hne
          · exact h2 q hq
        · rw [← h4, List.length_cons]
          congr 1
          omega
    unfold scanpoint at h
    by_cases hf : (proj.projtype != Projectile_Plasma ||
        (d.id != proj.owner.id && proj.owner.type != ENT_AI)) = true
    · rw [if_pos hf] at h
      apply skip _ h
      rintro ⟨e1, e2, _, _⟩
      simp only [Bool.or_eq_true, bne_iff_ne, ne_eq, Bool.and_eq_true] at hf
      rcases hf with hf | ⟨hf1, hf2⟩
      · exact hf e1
      · rcases e2 with e2 | e2
        · exact hf1 e2
        · exact hf2 e2
    · rw [if_neg hf] at h
      simp only [Bool.or_eq_true, bne_iff_ne, ne_eq, Bool.and_eq_true, not_or, not_and,
        not_not] at hf
      cases ha : attackAt atk with
      | none => simp [ha] at h
      | some a =>
        rw [ha, Option.some_bind] at h
        by_cases hg : (a.gun == GUN_PISTOL) = true
        · rw [if_pos hg] at h
          cases hpa : attackAt proj.atk with
          | none => simp [hpa] at h
          | some pa =>
            rw [hpa, Option.some_bind] at h
            by_cases hm : E.magnitude (proj.o.sub point) ≤ (pa.margin : ℚ)
            · rw [if_pos hm] at h
              obtain ⟨w', hw', hr⟩ := Option.map_eq_some'.mp h
              right
              refine ⟨[], proj, rest, w', rfl, by simp, ?_, by simpa using hw', hr.symm⟩
              refine ⟨hf.1, ?_, ⟨a, ha, by simpa using hg⟩, ⟨pa, hpa, hm⟩⟩
              by_cases hid : d.id = proj.owner.id
              · exact Or.inl hid
              · exact Or.inr (hf.2 hid)
            · rw [if_neg hm] at h
              apply skip _ h
              rintro ⟨_, _, _, pa', hpa', hm'⟩
              rw [hpa] at hpa'
              cases hpa'
              exact hm hm'
        · rw [if_neg hg] at h
          apply skip _ h
          rintro ⟨_, _, ⟨a', ha', hg'⟩, _⟩
          rw [ha] at ha'
          cases ha'
          apply hg
          simpa using hg'

theorem scanpoint_isSome (G : Game) (E : Engine) (d : gameent) (atk : Int) (point : vec)
    (w : World) (hatk : (attackAt atk).isSome = true) :
    ∀ (rest : List projectile) (i : Nat), (∀ p ∈ rest, (attackAt p.atk).isSome = true) →
      ∃ r, scanpoint G E d atk point w rest i = some r := by
  obtain ⟨a, ha⟩ := Option.isSome_iff_exists.mp hatk
  intro rest
  induction rest with
  | nil => intro i _; exact ⟨none, rfl⟩
  | cons proj rest ih =>
    intro i hall
    have hrest := ih (i + 1) (fun p hp => hall p (List.mem_cons_of_mem _ hp))
    obtain ⟨pa, hpa⟩ := Option.isSome_iff_exists.mp (hall proj (List.mem_cons_self _ _))
    unfold scanpoint
    simp only [ha, hpa, Option.some_bind]
    split_ifs
    · exact hrest
    · obtain ⟨w', _, hw', _⟩ := combodetonate_spec G E d proj i w
      rw [hw']
      exact ⟨_, rfl⟩
    · exact hrest
    · exact hrest

theorem steppoint_shift (from_ stepv : vec) :
    ∀ k, steppoint (from_.add stepv) stepv k = steppoint from_ stepv (k + 1)
  | 0 => rfl
  | k + 1 => by
    show (steppoint (from_.add stepv) stepv k).add stepv = (steppoint from_ stepv (k + 1)).add stepv
    rw [steppoint_shift from_ stepv k]

/-- The outer loop of `scanprojectiles`: when it returns false the world is unchanged and
no projectile is eligible at any of the step points; when it returns true, one
projectile of the collection, eligible at one of the step points, was detonated. -/
theorem scansteps_some (G : Game) (E : Engine) (d : gameent) (atk : Int) (stepv : vec)
    (w : World) :
    ∀ (n : Nat) (point : vec) (r : Bool × World),
      scansteps G E d atk stepv w n point = some r →
      (r = (false, w) ∧ ∀ k, 1 ≤ k → k ≤ n → ∀ p ∈ w.projectiles,
        ¬ comboeligible E d atk (steppoint point stepv k) p) ∨
      (∃ k i p, 1 ≤ k ∧ k ≤ n ∧ w.projectiles.get? i = some p ∧
        comboeligible E d atk (steppoint point stepv k) p ∧
        combodetonate G E d p i w = some r.2 ∧ r.1 = true) := by
  intro n
  induction n with
  | zero =>
    intro point r h
    left
    simp only [scansteps, Option.some.injEq] at h
    exact ⟨h.symm, fun k h1 h2 => by omega⟩
  | succ n ih =>
    intro point r h
    unfold scansteps at h
    cases hs : scanpoint G E d atk (point.add stepv) w w.projectiles 0 with
    | none => simp [hs] at h
    | some s =>
      rw [hs] at h
      rcases scanpoint_some G E d atk (point.add stepv) w w.projectiles 0 s hs with
        ⟨h1, h2⟩ | ⟨pre, p, post, w', h1, _, h3, h4, h5⟩
      · subst h1
        simp only [] at h
        rcases ih (point.add stepv) r h with ⟨g1, g2⟩ | ⟨k, i, p, g1, g2, g3, g4, g5, g6⟩
        · left
          refine ⟨g1, ?_⟩
          intro k hk1 hk2 p hp
          rcases Nat.eq_or_lt_of_le hk1 with hk | hk
          · subst hk
            exact h2 p hp
          · have := g2 (k - 1) (by omega) (by omega) p hp
            rw [steppoint_shift, Nat.sub_add_cancel hk1] at this
            exact this
        · right
          refine ⟨k + 1, i, p, by omega, by omega, g3, ?_, g5, g6⟩
          rw [← steppoint_shift]
          exact g4
      · subst h5
        simp only [Option.some.injEq] at h
        subst h
        right
        refine ⟨1, pre.length, p, le_refl 1, by omega, ?_, h3, by simpa using h4, rfl⟩
        rw [h1]
        exact get?_append_length pre p post
theorem scansteps_isSome (G : Game) (E : Engine) (d : gameent) (atk : Int) (stepv : vec)
    (w : World) (hatk : (attackAt atk).isSome = true)
    (hall : ∀ p ∈ w.projectiles, (attackAt p.atk).isSome = true) :
    ∀ (n : Nat) (point : vec), ∃ r, scansteps G E d atk stepv w n point = some r := by
  intro n
  induction n with
  | zero => intro point; exact ⟨_, rfl⟩
  | succ n ih =>
    intro point
    obtain ⟨s, hs⟩ := scanpoint_isSome G E d atk (point.add stepv) w hatk w.projectiles 0 hall
    unfold scansteps
    rw [hs]
    cases s with
    | none => exact ih (point.add stepv)
    | some w' => exact ⟨_, rfl⟩

/-- What a returning call of `scanprojectiles` has done: either it returns false with the
world unchanged (and then, outside intermission, no projectile is eligible at any
step point), or, outside intermission, it returns true after detonating one
projectile of the collection that is eligible at one of the step points. -/
theorem scanprojectiles_some (G : Game) (E : Engine) (from_ to_ : vec) (d : gameent) (atk : Int)
    (w : World) (r : Bool × World) (h : scanprojectiles G E from_ to_ d atk w = some r) :
    (r = (false, w) ∧ (G.betweenrounds = false →
      ∀ k, 1 ≤ k → k ≤ (clamp (ftoi (E.magnitude (to_.sub from_) * 2)) 1 200).toNat →
        ∀ p ∈ w.projectiles, ¬ comboeligible E d atk
          (steppoint from_
            ((to_.sub from_).div (clamp (ftoi (E.magnitude (to_.sub from_) * 2)) 1 200 : Int)) k)
          p)) ∨
    (G.betweenrounds = false ∧ ∃ k i p, 1 ≤ k ∧
      k ≤ (clamp (ftoi (E.magnitude (to_.sub from_) * 2)) 1 200).toNat ∧
      w.projectiles.get? i = some p ∧
      comboeligible E d atk
        (steppoint from_
          ((to_.sub from_).div (clamp (ftoi (E.magnitude (to_.sub from_) * 2)) 1 200 : Int)) k)
        p ∧
      combodetonate G E d p i w = some r.2 ∧ r.1 = true) := by
  unfold scanprojectiles at h
  cases hb : G.betweenrounds
  · rw [hb] at h
    simp only [Bool.false_eq_true, if_false] at h
    rcases scansteps_some G E d atk _ w _ from_ r h with ⟨h1, h2⟩ | h2
    · exact Or.inl ⟨h1, fun _ => h2⟩
    · exact Or.inr ⟨rfl, h2⟩
  · rw [hb] at h
    simp only [if_true, Option.some.injEq] at h
    exact Or.inl ⟨h.symm, fun hc => by cases hc⟩

theorem scanprojectiles_isSome (G : Game) (E : Engine) (from_ to_ : vec) (d : gameent)
    (atk : Int) (w : World) (hatk : (attackAt atk).isSome = true)
    (hall : ∀ p ∈ w.projectiles, (attackAt p.atk).isSome = true) :
    ∃ r, scanprojectiles G E from_ to_ d atk w = some r := by
  unfold scanprojectiles
  split_ifs
  · exact ⟨_, rfl⟩
  · exact scansteps_isSome G E d atk _ w hatk hall _ from_

/-- C14: for a valid scanning attack and a collection of projectiles with valid attack ids,
`scanprojectiles` returns; between rounds it returns false; when it returns false the
world (the collection and every attack id in it) is unchanged, and outside
intermission no projectile was eligible at any step point; when it returns true, one
plasma bolt of the collection, lying within the margin of its attack of one of the
step points, was retagged to `ATK_PISTOL_COMBO` and exploded at its own position with
damage 80, and the collection is the old one without that bolt. -/
theorem scanprojectiles_spec (G : Game) (E : Engine) (from_ to_ : vec) (d : gameent) (atk : Int)
    (w : World) (hatk : (attackAt atk).isSome = true)
    (hall : ∀ p ∈ w.projectiles, (attackAt p.atk).isSome = true) :
    ∃ b w', scanprojectiles G E from_ to_ d atk w = some (b, w') ∧
      (G.betweenrounds = true → b = false) ∧
      (b = false → w' = w ∧ (G.betweenrounds = false →
        ∀ k, 1 ≤ k → k ≤ (clamp (ftoi (E.magnitude (to_.sub from_) * 2)) 1 200).toNat →
          ∀ p ∈ w.projectiles, ¬ comboeligible E d atk
            (steppoint from_
              ((to_.sub from_).div (clamp (ftoi (E.magnitude (to_.sub from_) * 2)) 1 200 : Int)) k)
            p)) ∧
      (b = true → ∃ k i p pa wx, 1 ≤ k ∧
        k ≤ (clamp (ftoi (E.magnitude (to_.sub from_) * 2)) 1 200).toNat ∧
        w.projectiles.get? i = some p ∧ p.projtype = Projectile_Plasma ∧
        attackAt p.atk = some pa ∧
        E.magnitude (p.o.sub (steppoint from_
          ((to_.sub from_).div (clamp (ftoi (E.magnitude (to_.sub from_) * 2)) 1 200 : Int)) k))
          ≤ (pa.margin : ℚ) ∧
        explodeprojectile G E { p with atk := ATK_PISTOL_COMBO } p.o none 80 p.islocal
          { w with projectiles := w.projectiles.set i { p with atk := ATK_PISTOL_COMBO } } =
            some wx ∧
        w'.projectiles = w.projectiles.eraseIdx i ∧ w'.hitlog = wx.hitlog) := by
  obtain ⟨⟨b, w'⟩, hr⟩ := scanprojectiles_isSome G E from_ to_ d atk w hatk hall
  refine ⟨b, w', hr, ?_, ?_, ?_⟩
  · intro hb
    rcases scanprojectiles_some G E from_ to_ d atk w (b, w') hr with ⟨h1, _⟩ | ⟨h1, _⟩
    · exact (Prod.mk.inj h1).1
    · rw [hb] at h1; cases h1
  · intro hb
    rcases scanprojectiles_some G E from_ to_ d atk w (b, w') hr with
      ⟨h1, h2⟩ | ⟨_, _, _, _, _, _, _, _, _, h3⟩
    · exact ⟨(Prod.mk.inj h1).2, h2⟩
    · simp only [] at h3
      rw [hb] at h3; cases h3
  · intro hb
    rcases scanprojectiles_some G E from_ to_ d atk w (b, w') hr with
      ⟨h1, _⟩ | ⟨_, k, i, p, hk1, hk2, hi, ⟨e1, _, _, pa, hpa, hm⟩, hdet, _⟩
    · rw [hb] at h1; cases h1
    · obtain ⟨w2, wx, hw2, hwx, hpr, hlog, _⟩ := combodetonate_spec G E d p i w
      simp only [] at hdet
      rw [hw2] at hdet
      cases hdet
      exact ⟨k, i, p, pa, wx, hk1, hk2, hi, e1, hpa, hm, hwx, hpr, hlog⟩

/-- Witness of C14: the pistol shot from the origin to x = 20 with the plasma bolt at
x = 10 in the collection. -/
theorem scanprojectiles_spec_witness :
    ∃ b w', scanprojectiles rocketGame sampleEngine vec.zero { x := 20, y := 0, z := 0 } shooter
        ATK_PISTOL1 plasmaWorld = some (b, w') ∧ (b = false → w' = plasmaWorld) := by
  obtain ⟨b, w', h1, _, h3, _⟩ := scanprojectiles_spec rocketGame sampleEngine vec.zero
    { x := 20, y := 0, z := 0 } shooter ATK_PISTOL1 plasmaWorld (by rfl)
    (by
      intro p hp
      simp only [plasmaWorld, List.mem_singleton] at hp
      subst hp
      rfl)
  exact ⟨b, w', h1, fun hb => (h3 hb).1⟩

/-- C15, counterexample: the shooter scans with the pistol along a ray that passes the
plasma bolt the shooter owns; the call returns true and the shooter's own bolt is
detonated and removed. -/
theorem scanprojectiles_detonates_own_bolt :
    plasmaBolt.owner = shooter ∧ plasmaWorld.projectiles = [plasmaBolt] ∧
      (scanprojectiles rocketGame sampleEngine vec.zero { x := 20, y := 0, z := 0 } shooter
        ATK_PISTOL1 plasmaWorld).map (fun r => (r.1, r.2.projectiles)) = some (true, []) := by
  decide!

/-- C15, amended: whenever `scanprojectiles` returns true, the bolt it retagged, detonated
and removed is a plasma bolt owned by the scanning actor or by an owner of entity type
`ENT_AI`; a bolt of another owner that is not a bot is never chosen. -/
theorem scanprojectiles_owner (G : Game) (E : Engine) (from_ to_ : vec) (d : gameent) (atk : Int)
    (w : World)
    (h : (scanprojectiles G E from_ to_ d atk w).map (fun r => r.1) = some true) :
    ∃ i p, w.projectiles.get? i = some p ∧ p.projtype = Projectile_Plasma ∧
      (p.owner.id = d.id ∨ p.owner.type = ENT_AI) ∧
      (scanprojectiles G E from_ to_ d atk w).map (fun r => r.2.projectiles) =
        some (w.projectiles.eraseIdx i) := by
  obtain ⟨r, hr, hb⟩ := Option.map_eq_some'.mp h
  rcases scanprojectiles_some G E from_ to_ d atk w r hr with
    ⟨h1, _⟩ | ⟨_, k, i, p, _, _, hi, ⟨e1, e2, _, _⟩, hdet, _⟩
  · rw [h1] at hb; cases hb
  · obtain ⟨w2, wx, hw2, _, hpr, _, _⟩ := combodetonate_spec G E d p i w
    rw [hw2] at hdet
    cases hdet
    refine ⟨i, p, hi, e1, ?_, ?_⟩
    · rcases e2 with e2 | e2
      · exact Or.inl e2.symm
      · exact Or.inr e2
    · rw [hr, Option.map_some', hpr]

/-- Witness of C15 (amended): the pistol shot past the shooter's own plasma bolt. -/
theorem scanprojectiles_owner_witness :
    ∃ i p, plasmaWorld.projectiles.get? i = some p ∧ p.projtype = Projectile_Plasma ∧
      (p.owner.id = shooter.id ∨ p.owner.type = ENT_AI) ∧
      (scanprojectiles rocketGame sampleEngine vec.zero { x := 20, y := 0, z := 0 } shooter
        ATK_PISTOL1 plasmaWorld).map (fun r => r.2.projectiles) =
        some (plasmaWorld.projectiles.eraseIdx i) :=
  scanprojectiles_owner rocketGame sampleEngine vec.zero { x := 20, y := 0, z := 0 } shooter
    ATK_PISTOL1 plasmaWorld (by decide!)

/-- C16: a piece of debris put into the collection by `spawnbouncer` carries the attack id
-1, which is not a valid attack id, and `avoidprojectiles` on that collection indexes
`attacks` with it: the lookup lies outside the table. -/
theorem avoidprojectiles_reads_outside_table :
    (spawnbouncer sampleGame sampleEngine vec.zero shooter Projectile_Debris {}).map
        (fun w => (w.projectiles.map (fun p => (p.atk, validatk p.atk)),
          avoidprojectiles w [] 10)) =
      some ([(-1, false)], none) := by
  decide!

/-! ## shoot: the rejected shot -/

theorem gunselect_keeps (G : Game) (gun : Int) (d : gameent) (w : World) :
    (gunselect G gun d w).1.ammo = d.ammo ∧
      (gunselect G gun d w).2.projectiles = w.projectiles ∧
      (gunselect G gun d w).2.hitlog = w.hitlog := by
  unfold gunselect
  split_ifs <;> exact ⟨rfl, rfl, rfl⟩

theorem weaponswitch_keeps (G : Game) (d : gameent) (w : World) :
    (weaponswitch G d w).1.ammo = d.ammo ∧
      (weaponswitch G d w).2.projectiles = w.projectiles ∧
      (weaponswitch G d w).2.hitlog = w.hitlog := by
  unfold weaponswitch
  by_cases hs : (d.state != CS_ALIVE) = true
  · rw [if_pos hs]
    exact ⟨rfl, rfl, rfl⟩
  · rw [if_neg hs]
    exact gunselect_keeps G _ d w

/-- The two cases in which `canshoot` answers no: a non-melee attack with no ammo or less
ammo than the attack uses, and a projectile kind quenched by water fired by an actor
standing in water. -/
theorem canshoot_rejects (E : Engine) (d : gameent) (atk gun : Int) (a : attackinfo) (am : Int)
    (hatk : attackAt atk = some a) (ham : ammoAt d gun = some am)
    (hrej : (a.action ≠ ACT_MELEE ∧ (am = 0 ∨ am < a.use)) ∨
      (∃ info, isvalidprojectile a.projectile = true ∧ projAt a.projectile = some info ∧
        hasflag info.flags ProjFlag_Quench = true ∧
        (E.lookupmaterial d.o &&& E.MATF_VOLUME) = E.MAT_WATER)) :
    canshoot E d atk gun a.projectile = some false := by
  unfold canshoot
  rw [hatk, Option.some_bind]
  by_cases hm : (a.action != ACT_MELEE) = true
  · rw [if_pos hm, ham, Option.map_some', Option.some_bind]
    by_cases hno : (am == 0 || decide (a.use > am)) = true
    · rw [if_pos hno]
    · rw [if_neg hno]
      rcases hrej with ⟨_, h⟩ | ⟨info, h1, h2, h3, h4⟩
      · exfalso
        apply hno
        rcases h with h | h
        · simp [h]
        · simp [h]
      · rw [if_pos h1]
        simp only [h4, beq_self_eq_true, if_true, h2, Option.map_some', h3, Bool.not_true]
  · rw [if_neg hm, Option.some_bind]
    simp only [Bool.false_eq_true, if_false]
    rcases hrej with ⟨h, _⟩ | ⟨info, h1, h2, h3, h4⟩
    · exfalso
      apply hm
      simpa using h
    · rw [if_pos h1]
      simp only [h4, beq_self_eq_true, if_true, h2, Option.map_some', h3, Bool.not_true]

/-- C17: an actor whose cooldown has elapsed and who is attacking (the attack of the
selected gun and action being a row of the table): if the attack is not a melee attack
and the ammo of the selected gun is 0 or below the cost of the attack, or if the
projectile kind of the attack is quenched by water and the actor stands in water,
`shoot` returns with the ammo of the actor, the projectile collection and the hit log
unchanged. -/
theorem shoot_rejected (G : Game) (E : Engine) (d : gameent) (targ : vec) (fuel : Nat)
    (w : World) (atk : Int) (a : attackinfo) (am : Int)
    (hcool : d.gunwait ≤ G.lastmillis - d.lastaction)
    (hact : d.attacking ≠ 0)
    (hgun : gunattack d.gunselect d.attacking = some atk)
    (hatk : attackAt atk = some a)
    (ham : ammoAt d d.gunselect = some am)
    (hrej : (a.action ≠ ACT_MELEE ∧ (am = 0 ∨ am < a.use)) ∨
      (∃ info, isvalidprojectile a.projectile = true ∧ projAt a.projectile = some info ∧
        hasflag info.flags ProjFlag_Quench = true ∧
        (E.lookupmaterial d.o &&& E.MATF_VOLUME) = E.MAT_WATER)) :
    ∃ d' w', shoot G E d targ fuel w = some (d', w') ∧ d'.ammo = d.ammo ∧
      w'.projectiles = w.projectiles ∧ w'.hitlog = w.hitlog := by
  have hcs := canshoot_rejects E
    { d with gunwait := 0, lastaction := G.lastmillis, lastattack := atk } atk d.gunselect a am
    hatk ham hrej
  have hact' : (d.attacking == 0) = false := by simpa using hact
  unfold shoot
  simp only []
  rw [if_neg (not_lt.mpr hcool), hact']
  simp only [Bool.false_eq_true, if_false, hgun, Option.some_bind, hatk, hcs, Bool.not_false,
    if_true]
  by_cases hself : (d.id == G.self) = true
  · rw [if_pos hself]
    have ham3 : ammoAt { d with gunwait := 600, lastaction := G.lastmillis, lastattack := -1 }
        d.gunselect = some am := ham
    rw [ham3, Option.map_some']
    by_cases hz : (am == 0) = true
    · rw [if_pos hz]
      have hk := weaponswitch_keeps G
        { d with gunwait := 600, lastaction := G.lastmillis, lastattack := -1 } w
      exact ⟨_, _, rfl, hk.1, hk.2.1, hk.2.2⟩
    · rw [if_neg hz]
      exact ⟨_, _, rfl, rfl, rfl, rfl⟩
  · rw [if_neg hself]
    exact ⟨_, _, rfl, rfl, rfl, rfl⟩

/-- Witness of C17: the actor holding the SMG with no ammo presses the fire button. -/
theorem shoot_rejected_witness :
    ∃ d' w', shoot rocketGame steadyEngine emptySmg { x := 50, y := 0, z := 0 } 10 {} =
        some (d', w') ∧
      d'.ammo = emptySmg.ammo ∧ w'.projectiles = ({} : World).projectiles ∧
      w'.hitlog = ({} : World).hitlog :=
  shoot_rejected rocketGame steadyEngine emptySmg { x := 50, y := 0, z := 0 } 10 {} ATK_SMG1
    (mkatk GUN_SMG ACT_PRIMARY Projectile_Bullet 110 16 14 84 0 1500 7 1000 1 60 0 0 1 0 0
      false true) 0 (by decide) (by decide) (by rfl) (by rfl) (by rfl)
    (Or.inl ⟨by decide, Or.inl rfl⟩)

/-- The same shot with 30 rounds in the SMG is fired: one round is deducted and one
projectile is spawned. -/
theorem shoot_fires_when_loaded :
    (shoot rocketGame steadyEngine loadedSmg { x := 50, y := 0, z := 0 } 10 {}).map
        (fun r => (r.1.ammo, r.2.projectiles.length)) =
      some ([0, 29, 0, 0, 0, 0, 0, 0, 0], 1) := by
  decide!

/-! ## The gun table -/

/-- C25: for every valid gun id and each of the action slots melee, primary and secondary,
the entry `guns[gun].attacks[act]` is a valid attack id, so the two table reads at the
head of `shoot` (`guns[gun].attacks[act]`, then `attacks[atk]`) are in range for an
attacking actor; for the primary and secondary slots the `gun` field of the attack
referenced is that gun. -/
theorem guns_reference_valid_attacks (gun act : Int) (hgun : validgun gun = true)
    (hact : act = ACT_MELEE ∨ act = ACT_PRIMARY ∨ act = ACT_SECONDARY) :
    ∃ atk a, gunattack gun act = some atk ∧ validatk atk = true ∧ attackAt atk = some a ∧
      (act ≠ ACT_MELEE → a.gun = gun) := by
  simp only [validgun, NUMGUNS, Bool.and_eq_true, decide_eq_true_eq] at hgun
  obtain ⟨h0, h9⟩ := hgun
  interval_cases gun <;> rcases hact with rfl | rfl | rfl <;>
    exact ⟨_, _, rfl, rfl, rfl, by decide⟩

/-- Witness of C25: the primary slot of the SMG is `ATK_SMG1`, an attack of the SMG. -/
theorem guns_reference_valid_attacks_witness :
    ∃ atk a, gunattack GUN_SMG ACT_PRIMARY = some atk ∧ validatk atk = true ∧
      attackAt atk = some a ∧ (ACT_PRIMARY ≠ ACT_MELEE → a.gun = GUN_SMG) :=
  guns_reference_valid_attacks GUN_SMG ACT_PRIMARY (by decide) (Or.inr (Or.inl rfl))

/-! ## Locational damage and the flags of the kind table -/

theorem headshot_rows_are_bullets : ∀ a ∈ attacks, a.headshotdam ≠ 0 →
    a.projectile = Projectile_Bullet ∧ isweaponprojectile a.projectile = false := by
  decide

theorem projs_flags_exclusive : ∀ info ∈ projs,
    (hasflag info.flags ProjFlag_Weapon != hasflag info.flags ProjFlag_Junk) = true ∧
      (hasflag info.flags ProjFlag_Bounce != hasflag info.flags ProjFlag_Linear) = true := by
  decide

/-- C30: for every row of the attack table a nonzero headshot damage comes with the
projectile kind `Projectile_Bullet`, which is not a weapon projectile, so the
condition of the locational branch of `calcdamage` equals `headshotdam != 0`; and
every row of the kind table has exactly one of the flags weapon and junk and exactly
one of the flags bounce and linear. -/
theorem locational_iff_headshotdam (atk : Int) (a : attackinfo) (hatk : attackAt atk = some a) :
    (a.headshotdam ≠ 0 →
      a.projectile = Projectile_Bullet ∧ isweaponprojectile a.projectile = false) ∧
    (a.headshotdam != 0 && !(isweaponprojectile a.projectile)) = (a.headshotdam != 0) ∧
    (∀ (type : Int) (info : projectileinfo), projAt type = some info →
      (hasflag info.flags ProjFlag_Weapon != hasflag info.flags ProjFlag_Junk) = true ∧
        (hasflag info.flags ProjFlag_Bounce != hasflag info.flags ProjFlag_Linear) = true) := by
  have h := headshot_rows_are_bullets a (attackAt_mem hatk)
  refine ⟨h, ?_, fun type info hi => projs_flags_exclusive info (projAt_mem hi)⟩
  by_cases hz : a.headshotdam = 0
  · simp [hz]
  · simp [(h hz).2]

/-- Witness of C30: the row of `ATK_RAIL1` (headshot damage 30, bullet kind). -/
theorem locational_iff_headshotdam_witness :
    attackAt ATK_RAIL1 = some (mkatk GUN_RAIL ACT_PRIMARY Projectile_Bullet 1200 70 30 0 0 2000 30
        5000 1 100 0 0 1 0 0 false false) ∧
      (mkatk GUN_RAIL ACT_PRIMARY Projectile_Bullet 1200 70 30 0 0 2000 30 5000 1 100 0 0 1 0 0
        false false).projectile = Projectile_Bullet ∧
      isweaponprojectile (mkatk GUN_RAIL ACT_PRIMARY Projectile_Bullet 1200 70 30 0 0 2000 30
        5000 1 100 0 0 1 0 0 false false).projectile = false :=
  ⟨by rfl, (locational_iff_headshotdam ATK_RAIL1
    (mkatk GUN_RAIL ACT_PRIMARY Projectile_Bullet 1200 70 30 0 0 2000 30 5000 1 100 0 0 1 0 0
      false false) (by rfl)).1 (by decide)⟩

/-! ## updateposition -/

/-- C27: for a linear projectile and a tick time above 0, with `dist` the length of
`to - o` and `f = time / max (dist * 1000 / speed) time`: `updateposition` returns
`o + f * (to - o)`, where `0 < f <= 1`; the position returned is `to` exactly when
`dist * 1000 / speed <= time` (the length of the zero vector being 0); and
`offsetmillis` becomes `max (offsetmillis - time) 0`, which is not negative. -/
theorem updateposition_linear_step (E : Engine) (p : projectile) (time : Int)
    (hlin : hasflag p.flags ProjFlag_Linear = true) (_hspeed : 0 < p.speed) (ht : 0 < time)
    (hzero : E.magnitude vec.zero = 0) :
    (p.updateposition E time).2 =
        p.o.add ((p.to_.sub p.o).mul
          ((time : ℚ) / max (E.magnitude (p.to_.sub p.o) * 1000 / p.speed) (time : ℚ))) ∧
      0 < (time : ℚ) / max (E.magnitude (p.to_.sub p.o) * 1000 / p.speed) (time : ℚ) ∧
      (time : ℚ) / max (E.magnitude (p.to_.sub p.o) * 1000 / p.speed) (time : ℚ) ≤ 1 ∧
      ((p.updateposition E time).2 = p.to_ ↔
        E.magnitude (p.to_.sub p.o) * 1000 / p.speed ≤ (time : ℚ)) ∧
      (p.updateposition E time).1.offsetmillis = max (p.offsetmillis - time) 0 ∧
      0 ≤ (p.updateposition E time).1.offsetmillis := by
  have htq : (0 : ℚ) < (time : ℚ) := by exact_mod_cast ht
  have hpos : (p.updateposition E time).2 =
      p.o.add ((p.to_.sub p.o).mul
        ((time : ℚ) / max (E.magnitude (p.to_.sub p.o) * 1000 / p.speed) (time : ℚ))) := by
    unfold projectile.updateposition
    rw [if_pos hlin]
  have hoff : (p.updateposition E time).1.offsetmillis = max (p.offsetmillis - time) 0 := by
    unfold projectile.updateposition
    rw [if_pos hlin]
  generalize hmdef : E.magnitude (p.to_.sub p.o) * 1000 / p.speed = m at hpos ⊢
  have hmax : (0 : ℚ) < max m (time : ℚ) := lt_of_lt_of_le htq (le_max_right _ _)
  have hf1 : (time : ℚ) / max m (time : ℚ) ≤ 1 := by
    rw [div_le_one hmax]
    exact le_max_right _ _
  refine ⟨hpos, div_pos htq hmax, hf1, ?_, hoff, by rw [hoff]; exact le_max_right _ _⟩
  rw [hpos]
  constructor
  · intro h
    by_cases hm : m ≤ (time : ℚ)
    · exact hm
    · exfalso
      have hlt : (time : ℚ) < m := lt_of_not_le hm
      have hmx : max m (time : ℚ) = m := max_eq_left (le_of_lt hlt)
      rw [hmx] at h
      have hf : (time : ℚ) / m < 1 := by
        rw [div_lt_one (lt_trans htq hlt)]
        exact hlt
      have hx : p.to_.x = p.o.x := by
        have := congrArg vec.x h
        simp only [vec.add, vec.sub, vec.mul] at this
        nlinarith
      have hy : p.to_.y = p.o.y := by
        have := congrArg vec.y h
        simp only [vec.add, vec.sub, vec.mul] at this
        nlinarith
      have hz : p.to_.z = p.o.z := by
        have := congrArg vec.z h
        simp only [vec.add, vec.sub, vec.mul] at this
        nlinarith
      have hsub : p.to_.sub p.o = vec.zero := by
        simp only [vec.sub, vec.zero, hx, hy, hz, sub_self]
      rw [hsub, hzero] at hmdef
      rw [← hmdef] at hlt
      simp only [zero_mul, zero_div] at hlt
      exact absurd hlt (not_lt.mpr (le_of_lt htq))
  · intro hm
    rw [max_eq_right hm, div_self (ne_of_gt htq)]
    cases hto : p.to_
    cases ho : p.o
    simp [vec.add, vec.sub, vec.mul]

/-- Witness of C27: the rocket in flight (speed 300, 60 units short of its target) and a
tick of 30 ms. -/
theorem updateposition_linear_step_witness :
    ((flyingRocket.updateposition sampleEngine 30).2 = flyingRocket.to_ ↔
        sampleEngine.magnitude (flyingRocket.to_.sub flyingRocket.o) * 1000 / flyingRocket.speed ≤
          ((30 : Int) : ℚ)) ∧
      (flyingRocket.updateposition sampleEngine 30).1.offsetmillis =
        max (flyingRocket.offsetmillis - 30) 0 ∧
      0 ≤ (flyingRocket.updateposition sampleEngine 30).1.offsetmillis :=
  (updateposition_linear_step sampleEngine flyingRocket 30 (by decide) (by decide!) (by decide)
    (by decide!)).2.2.2

/-! ## The tick of the last bounce -/

theorem tickfinish_removed (G : Game) (E : Engine) (time : Int) (p : projectile) (pos : vec)
    (w : World) (r : tickout) (h : tickfinish G E time p pos w = some r) :
    r.removed = r.proj.isdestroyed ∧ r.skipped = false := by
  unfold tickfinish at h
  by_cases hd : p.isdestroyed = true
  · rw [if_pos hd] at h
    by_cases hw : isweaponprojectile p.projtype = true
    · rw [if_pos hw] at h
      cases ha : attackAt p.atk with
      | none => simp [ha] at h
      | some a =>
        rw [ha, Option.some_bind] at h
        obtain ⟨w1, _, hs⟩ := Option.map_eq_some'.mp h
        subst hs
        exact ⟨hd.symm, rfl⟩
    · rw [if_neg hw] at h
      cases h
      exact ⟨hd.symm, rfl⟩
  · rw [if_neg hd] at h
    have hd' : p.isdestroyed = false := by simpa using hd
    by_cases hb : hasflag p.flags ProjFlag_Bounce = true
    · rw [if_pos hb] at h
      cases h
      refine ⟨?_, rfl⟩
      have := (limitoffset_spec E { p with offsetmillis := max (p.offsetmillis - time) 0 }).2.2
      simp only [] at this ⊢
      rw [this]
      exact hd'.symm
    · rw [if_neg hb] at h
      cases h
      exact ⟨hd'.symm, rfl⟩

/-- The live part of the loop body on a weapon projectile, when it is left through
`continue`: the bounce count is the one before. -/
theorem tickalive_skipped (G : Game) (E : Engine) (time : Int) (p q : projectile)
    (hweap : isweaponprojectile p.projtype = true)
    (h : tickalive G E time p = some (q, true)) : samebounces p q := by
  unfold tickalive checklifetime at h
  rw [if_pos hweap] at h
  simp only [Option.some_bind] at h
  have s1 : samebounces p (if p.lifetime - time < 0
      then { p with lifetime := p.lifetime - time, isdestroyed := true }
      else { p with lifetime := p.lifetime - time }) := by
    split_ifs <;> exact ⟨⟨rfl, rfl, rfl, rfl, rfl, rfl, rfl⟩, rfl, rfl⟩
  generalize (if p.lifetime - time < 0
      then { p with lifetime := p.lifetime - time, isdestroyed := true }
      else { p with lifetime := p.lifetime - time }) = p1 at s1 h
  have s2 : samebounces p1 (if (E.lookupmaterial p1.o &&& E.MATF_VOLUME == E.MAT_LAVA) = true
      then { p1 with isdestroyed := true } else p1) := by
    split_ifs
    · exact ⟨⟨rfl, rfl, rfl, rfl, rfl, rfl, rfl⟩, rfl, rfl⟩
    · exact samebounces_refl p1
  generalize (if (E.lookupmaterial p1.o &&& E.MATF_VOLUME == E.MAT_LAVA) = true
      then { p1 with isdestroyed := true } else p1) = p2 at s2 h
  by_cases hr : (tickimpact E p2).2 = true
  · rw [if_pos hr] at h
    simp only [Option.some.injEq, Prod.mk.injEq, and_true] at h
    rw [← h]
    exact samebounces_trans s1 (samebounces_trans s2 (tickimpact_bounces E p2))
  · rw [if_neg hr] at h
    exfalso
    cases h4 : tickbounce G E (tickimpact E p2).1 with
    | none => simp [h4] at h
    | some p4 =>
      rw [h4, Option.some_bind] at h
      obtain ⟨p5, _, h5⟩ := Option.map_eq_some'.mp h
      simp at h5

/-- The two ways in which the loop body ends for a weapon projectile: through `continue`,
with the bounce count unchanged, or through its last statement, where the projectile is
removed exactly when its destroyed flag is set. -/
theorem tickprojectile_outcome (G : Game) (E : Engine) (time : Int) (p : projectile) (w : World)
    (r : tickout) (hweap : isweaponprojectile p.projtype = true)
    (h : tickprojectile G E time p w = some r) :
    (r.skipped = true ∧ samebounces p r.proj) ∨
      (r.skipped = false ∧ r.removed = r.proj.isdestroyed) := by
  unfold tickprojectile at h
  simp only [] at h
  cases h1 : tickdirect G E (p.updateposition E time).1 (p.updateposition E time).2 w with
  | none => simp [h1] at h
  | some r1 =>
    rw [h1, Option.some_bind] at h
    have s1 : samebounces p r1.1 :=
      samebounces_trans (updateposition_bounces E p time).1 (tickdirect_bounces G E _ _ w r1 h1)
    by_cases hd : (!r1.1.isdestroyed) = true
    · rw [if_pos hd] at h
      cases ha : tickalive G E time r1.1 with
      | none => simp [ha] at h
      | some ra =>
        rw [ha, Option.some_bind] at h
        by_cases hs : ra.2 = true
        · rw [if_pos hs] at h
          cases h
          left
          refine ⟨rfl, samebounces_trans s1 ?_⟩
          apply tickalive_skipped G E time r1.1 ra.1 (by rw [s1.1.2.2.1]; exact hweap)
          rw [ha]
          congr 1
          exact Prod.ext rfl hs
        · rw [if_neg hs] at h
          have := tickfinish_removed G E time _ _ _ r h
          exact Or.inr ⟨this.2, this.1⟩
    · rw [if_neg hd] at h
      have := tickfinish_removed G E time _ _ _ r h
      exact Or.inr ⟨this.2, this.1⟩

/-- C23, counterexample: the bouncing rocket (kind maximum 2) that has bounced once is
ticked once by an engine whose physics call reports one bounce: the count reaches 2 in
that tick, and the same tick sets the destroyed flag and removes the rocket. -/
theorem rocket_destroyed_by_the_tick_of_its_last_bounce :
    (projAt Projectile_Rocket2).map (fun i => i.maxbounces) = some 2 ∧
      bouncedRocket.bounces = 1 ∧ bouncedRocket.isdestroyed = false ∧
      (tickprojectile sampleGame bouncingEngine 30 bouncedRocket {}).map
        (fun r => (r.proj.bounces, r.proj.isdestroyed, r.removed)) = some (2, true, true) := by
  decide!

/-- C23, amended: for a weapon projectile with a valid attack id whose kind has
`maxbounces > 0` and whose count is below the maximum, with at most one bounce per
physics call: the tick returns, and if it leaves the count at the maximum then that
same tick has set the destroyed flag and removed the projectile; no tick is survived
with the count at the maximum. -/
theorem bounce_to_max_destroys_same_tick (G : Game) (E : Engine) (time : Int) (p : projectile)
    (w : World) (info : projectileinfo) (hp : projAt p.projtype = some info)
    (hweap : isweaponprojectile p.projtype = true) (hatk : (attackAt p.atk).isSome = true)
    (hmax : 0 < info.maxbounces)
    (hone : ∀ q, (E.isbouncing q).surfaces.length ≤ 1) (hstart : p.bounces < info.maxbounces) :
    ∃ r, tickprojectile G E time p w = some r ∧
      (r.proj.bounces = info.maxbounces → r.proj.isdestroyed = true ∧ r.removed = true) := by
  obtain ⟨r, hr, _, _, hlt⟩ := tickprojectile_count G E time p w info hp hweap hatk hmax hone
    hstart
  refine ⟨r, hr, fun hb => ?_⟩
  have hd : r.proj.isdestroyed = true := by
    cases hd : r.proj.isdestroyed
    · have := hlt hd
      omega
    · rfl
  refine ⟨hd, ?_⟩
  rcases tickprojectile_outcome G E time p w r hweap hr with ⟨_, hs⟩ | ⟨_, hrem⟩
  · rw [hs.2.2] at hb
    omega
  · rw [hrem, hd]

/-- Witness of C23 (amended): the bouncing rocket that has bounced once. -/
theorem bounce_to_max_destroys_same_tick_witness :
    ∃ r, tickprojectile sampleGame bouncingEngine 30 bouncedRocket {} = some r ∧
      (r.proj.bounces = 2 → r.proj.isdestroyed = true ∧ r.removed = true) :=
  bounce_to_max_destroys_same_tick sampleGame bouncingEngine 30 bouncedRocket {}
    { type := Projectile_Rocket2, flags := ProjFlag_Weapon ||| ProjFlag_Bounce, maxbounces := 2,
      variants := 0, radius := 2 }
    (by rfl) (by rfl) (by rfl) (by decide) (fun _ => le_refl 1) (by decide)

/-! ## hitscan: the locational flags of a volley -/

/-- C26: in a scattergun volley whose ray 0 ends on the torso of one bystander (outside that
bystander's head and leg zones) and whose ray 1 ends in the head zone of a second
bystander, `hitscan` passes the head flag to `calcdamage` for both: the flags of the
first target come from the zone tests of the last ray that struck anything, made
against a different target. -/
theorem volley_head_flag_from_other_target :
    isheadhitbox sampleEngine torsoTarget vec.zero { x := 100, y := 0, z := 0 } = false ∧
      islegshitbox sampleEngine torsoTarget vec.zero { x := 100, y := 0, z := 0 } = false ∧
      isheadhitbox sampleEngine headTarget vec.zero { x := 0, y := 100, z := 0 } = true ∧
      (hitscan zoneGame sampleEngine vec.zero { x := 100, y := 0, z := 0 } shooter ATK_SCATTER1
          zoneWorld).map (fun r => r.1.hitlog.map (fun h => (h.target, h.flags))) =
        some [(torsoTarget.id, HIT_TORSO ||| HIT_HEAD), (headTarget.id, HIT_TORSO ||| HIT_HEAD)] := by
  decide!

/-! ## explodeeffects -/

theorem eraseIdx_set_append {α : Type} (x y : α) (post ps : List α) :
    ∀ pre : List α,
      ((pre ++ x :: post).set pre.length y ++ ps).eraseIdx pre.length = pre ++ post ++ ps
  | [] => rfl
  | a :: pre => by
    simp only [List.cons_append, List.length_cons, List.set_cons_succ, List.eraseIdx_cons_succ,
      eraseIdx_set_append x y post ps pre]

theorem isexplosiveattack_valid (atk : Int) (h : isexplosiveattack atk = true) :
    (attackAt atk).isSome = true := by
  simp only [isexplosiveattack, Bool.or_eq_true, beq_iff_eq] at h
  rcases h with (((((h | h) | h) | h) | h) | h) | h <;> subst h <;> rfl

/-- The loop of `explodeeffects` for an explosive attack, on the part of the collection
from index `pre0.length` on: without a match among these projectiles the world is
unchanged; otherwise the first match is exploded without damage and deleted, and
only debris is added. -/
theorem explodematch_spec (G : Game) (E : Engine) (atk : Int) (d : gameent) (id : Int)
    (w : World) (hexp : isexplosiveattack atk = true) :
    ∀ (rest pre0 : List projectile), w.projectiles = pre0 ++ rest →
      ((∀ p ∈ rest, ¬ explosionmatch atk d id p) →
        explodematch G E atk d id w rest pre0.length = some w) ∧
      ((∃ p ∈ rest, explosionmatch atk d id p) →
        ∃ pre p post ps w', rest = pre ++ p :: post ∧
          (∀ q ∈ pre, ¬ explosionmatch atk d id q) ∧ explosionmatch atk d id p ∧
          explodematch G E atk d id w rest pre0.length = some w' ∧
          w'.projectiles = pre0 ++ pre ++ post ++ ps ∧ (∀ q ∈ ps, isdebris q) ∧
          w'.hitlog = w.hitlog) := by
  intro rest
  induction rest with
  | nil =>
    intro pre0 _
    exact ⟨fun _ => rfl, fun ⟨p, hp, _⟩ => by simp at hp⟩
  | cons proj rest ih =>
    intro pre0 hw
    have hw' : w.projectiles = (pre0 ++ [proj]) ++ rest := by rw [hw]; simp
    have hlen : (pre0 ++ [proj]).length = pre0.length + 1 := by simp
    obtain ⟨ih1, ih2⟩ := ih (pre0 ++ [proj]) hw'
    rw [hlen] at ih1 ih2
    by_cases hm : explosionmatch atk d id proj
    · -- the first projectile of the list is the match
      obtain ⟨m1, m2, m3, m4⟩ := hm
      have hc1 : (proj.owner.id == d.id && proj.id == id && !proj.islocal) = true := by
        simp [m1, m2, m3]
      have hc2 : (atk != ATK_PISTOL_COMBO && proj.atk != atk) = false := by
        rcases m4 with h | h <;> simp [h]
      have hatk1 : ((if (atk == ATK_PISTOL_COMBO) = true then { proj with atk := atk }
          else proj) : projectile).atk = atk := by
        split_ifs with hc
        · rfl
        · rcases m4 with h | h
          · exact absurd (by simpa using h) hc
          · exact h
      have hloc1 : ((if (atk == ATK_PISTOL_COMBO) = true then { proj with atk := atk }
          else proj) : projectile).islocal = false := by
        split_ifs <;> exact m3
      refine ⟨fun hno => absurd ⟨m1, m2, m3, m4⟩ (hno proj (List.mem_cons_self _ _)), fun _ => ?_⟩
      unfold explodematch
      rw [if_pos hc1, hc2]
      simp only [Bool.false_eq_true, if_false]
      generalize ((if (atk == ATK_PISTOL_COMBO) = true then { proj with atk := atk }
          else proj) : projectile) = proj1 at hatk1 hloc1 ⊢
      obtain ⟨w1, ps, h1, hps, hpr, _, _, hlog⟩ := explodeprojectile_effects G E proj1
        (if hasflag proj1.flags ProjFlag_Bounce = true then proj1.offsetposition
          else (proj1.offset.mul ((proj1.offsetmillis : ℚ) / (OFFSETMILLIS : ℚ))).add proj1.o)
        none 0 proj1.islocal
        { w with projectiles := w.projectiles.set pre0.length proj1 }
        (by rw [hatk1]; exact isexplosiveattack_valid atk hexp)
      rw [h1, Option.map_some']
      refine ⟨[], proj, rest, ps, _, rfl, by simp, ⟨m1, m2, m3, m4⟩, rfl, ?_, hps,
        hlog (Or.inr hloc1)⟩
      simp only [hpr, hw, List.append_nil]
      exact eraseIdx_set_append proj proj1 rest ps pre0
    · -- the first projectile is stepped over
      have hstep : explodematch G E atk d id w (proj :: rest) pre0.length =
          explodematch G E atk d id w rest (pre0.length + 1) := by
        conv_lhs => unfold explodematch
        by_cases hc1 : (proj.owner.id == d.id && proj.id == id && !proj.islocal) = true
        · rw [if_pos hc1]
          by_cases hc2 : (atk != ATK_PISTOL_COMBO && proj.atk != atk) = true
          · rw [if_pos hc2]
          · exfalso
            apply hm
            simp only [Bool.and_eq_true, beq_iff_eq, Bool.not_eq_true', bne_iff_ne, ne_eq,
              not_and, not_not] at hc1 hc2
            refine ⟨hc1.1.1, hc1.1.2, hc1.2, ?_⟩
            by_cases hcombo : atk = ATK_PISTOL_COMBO
            · exact Or.inl hcombo
            · exact Or.inr (hc2 hcombo)
        · rw [if_neg hc1]
      rw [hstep]
      constructor
      · intro hno
        exact ih1 (fun p hp => hno p (List.mem_cons_of_mem _ hp))
      · rintro ⟨p, hp, hpm⟩
        have hp' : p ∈ rest := by
          rcases List.mem_cons.mp hp with rfl | h
          · exact absurd hpm hm
          · exact h
        obtain ⟨pre, q, post, ps, w', e1, e2, e3, e4, e5, e6, e7⟩ := ih2 ⟨p, hp', hpm⟩
        refine ⟨proj :: pre, q, post, ps, w', by rw [e1]; rfl, ?_, e3, e4, ?_, e6, e7⟩
        · intro x hx
          rcases List.mem_cons.mp hx with rfl | h
          · exact hm
          · exact e2 x h
        · rw [e5]; simp

/-- C24: `explodeeffects` returns the world unchanged when the event is local, when the
attack is not one of the explosive attacks, or when no projectile of the collection
matches the event (remote, same owner, same network id and, unless the attack is the
pistol combo, same stored attack id); otherwise the first match in collection order
is the one projectile taken out of the collection (every other projectile stays, in
order; the explosion may append debris), and no hit is logged. -/
theorem explodeeffects_spec (G : Game) (E : Engine) (atk : Int) (d : gameent) (islocal : Bool)
    (id : Int) (w : World) :
    ((islocal = true ∨ isexplosiveattack atk = false ∨
        ∀ p ∈ w.projectiles, ¬ explosionmatch atk d id p) →
      explodeeffects G E atk d islocal id w = some w) ∧
    (islocal = false → isexplosiveattack atk = true →
      (∃ p ∈ w.projectiles, explosionmatch atk d id p) →
      ∃ pre p post ps w', w.projectiles = pre ++ p :: post ∧
        (∀ q ∈ pre, ¬ explosionmatch atk d id q) ∧ explosionmatch atk d id p ∧
        explodeeffects G E atk d islocal id w = some w' ∧
        w'.projectiles = pre ++ post ++ ps ∧ (∀ q ∈ ps, isdebris q) ∧
        w'.hitlog = w.hitlog) := by
  constructor
  · intro h
    unfold explodeeffects
    by_cases hl : islocal = true
    · rw [if_pos hl]
    · rw [if_neg hl]
      by_cases he : isexplosiveattack atk = true
      · rw [if_pos he]
        rcases h with h | h | h
        · exact absurd h hl
        · rw [he] at h; cases h
        · exact (explodematch_spec G E atk d id w he w.projectiles [] rfl).1 h
      · rw [if_neg he]
  · intro hl he hm
    unfold explodeeffects
    rw [hl, if_pos he]
    simp only [Bool.false_eq_true, if_false]
    obtain ⟨pre, p, post, ps, w', e1, e2, e3, e4, e5, e6, e7⟩ :=
      (explodematch_spec G E atk d id w he w.projectiles [] rfl).2 hm
    exact ⟨pre, p, post, ps, w', e1, e2, e3, e4, by simpa using e5, e6, e7⟩

/-- Witness of C24: the remote explosion of the shooter's rocket 77 in a collection that
holds a local rocket with that id before two remote ones. -/
theorem explodeeffects_spec_witness :
    ∃ pre p post ps w', mirrorWorld.projectiles = pre ++ p :: post ∧
      (∀ q ∈ pre, ¬ explosionmatch ATK_ROCKET1 shooter 77 q) ∧
      explosionmatch ATK_ROCKET1 shooter 77 p ∧
      explodeeffects rocketGame sampleEngine ATK_ROCKET1 shooter false 77 mirrorWorld =
        some w' ∧
      w'.projectiles = pre ++ post ++ ps ∧ (∀ q ∈ ps, isdebris q) ∧
      w'.hitlog = mirrorWorld.hitlog :=
  (explodeeffects_spec rocketGame sampleEngine ATK_ROCKET1 shooter false 77 mirrorWorld).2 rfl
    (by rfl) ⟨remoteRocket, by simp [mirrorWorld], ⟨rfl, rfl, rfl, Or.inr rfl⟩⟩

/-! ## shoot: the ammo of the selected gun -/

theorem melee_costs_nothing : ∀ a ∈ attacks, a.action = ACT_MELEE → a.use = 0 := by decide

theorem ammoAt_congr (d d' : gameent) (gun : Int) (h : d'.ammo = d.ammo) :
    ammoAt d' gun = ammoAt d gun := by
  unfold ammoAt
  rw [h]

theorem shootkick_ammo (E : Engine) (d : gameent) (dir : vec) (kickamount : Int) :
    (shootkick E d dir kickamount).ammo = d.ammo := by
  unfold shootkick
  split_ifs <;> rfl

/-- The ammo of the actor after the firing part of `shoot`: the cost of the attack is
taken from the ammo of the gun unless the actor holds the ammo powerup. -/
theorem shootfire_ammo (G : Game) (E : Engine) (d : gameent) (targ : vec) (gun atk : Int)
    (a : attackinfo) (fuel : Nat) (w : World) (am : Int) (d' : gameent) (w' : World)
    (ham : ammoAt d gun = some am)
    (h : shootfire G E d targ gun atk a fuel w = some (d', w')) :
    d'.ammo = if d.haspowerup Powerup.PU_AMMO = true then d.ammo
      else d.ammo.set gun.toNat (am - a.use) := by
  unfold shootfire at h
  obtain ⟨d1, hd1, h⟩ := Option.bind_eq_some.mp h
  have hd1a : d1.ammo = if d.haspowerup Powerup.PU_AMMO = true then d.ammo
      else d.ammo.set gun.toNat (am - a.use) := by
    by_cases hp : d.haspowerup Powerup.PU_AMMO = true
    · rw [hp] at hd1
      simp only [Bool.not_true, Bool.false_eq_true, if_false, Option.some.injEq] at hd1
      rw [if_pos hp, ← hd1]
    · have hp' : d.haspowerup Powerup.PU_AMMO = false := by simpa using hp
      rw [hp', ham] at hd1
      simp only [Bool.not_false, if_true, Option.map_some', Option.some.injEq] at hd1
      rw [if_neg hp, ← hd1]
  simp only [] at h
  obtain ⟨r1, _, h⟩ := Option.bind_eq_some.mp h
  obtain ⟨r2, _, h⟩ := Option.bind_eq_some.mp h
  obtain ⟨w3, _, h⟩ := Option.map_eq_some'.mp h
  have hd : d'.ammo = (shootkick E d1 (E.safenormalize (targ.sub d1.o))
      (if d1.haspowerup Powerup.PU_DAMAGE = true then a.kickamount * 2 else a.kickamount)).ammo := by
    rw [← (Prod.mk.inj h).1]
    simp only []
    split_ifs <;> rfl
  rw [hd, shootkick_ammo, hd1a]

theorem canshoot_ammo_enough (E : Engine) (d : gameent) (atk gun : Int) (a : attackinfo)
    (am : Int) (hatk : attackAt atk = some a) (ham : ammoAt d gun = some am) (hpos : 0 ≤ am)
    (h : canshoot E d atk gun a.projectile = some true) : a.use ≤ am := by
  unfold canshoot at h
  rw [hatk, Option.some_bind] at h
  by_cases hm : (a.action != ACT_MELEE) = true
  · rw [if_pos hm, ham, Option.map_some', Option.some_bind] at h
    by_cases hno : (am == 0 || decide (a.use > am)) = true
    · rw [if_pos hno] at h
      cases h
    · simp only [Bool.or_eq_true, beq_iff_eq, decide_eq_true_eq, not_or, not_lt] at hno
      exact hno.2
  · have hmelee : a.action = ACT_MELEE := by simpa using hm
    rw [melee_costs_nothing a (attackAt_mem hatk) hmelee]
    exact hpos

theorem ammoAt_set (d : gameent) (gun : Int) (am v : Int) (ham : ammoAt d gun = some am)
    (d' : gameent) (h : d'.ammo = d.ammo.set gun.toNat v) : ammoAt d' gun = some v := by
  unfold ammoAt at ham ⊢
  by_cases hv : validgun gun = true
  · rw [if_pos hv] at ham ⊢
    rw [h]
    have hlt : gun.toNat < d.ammo.length := by
      rcases Nat.lt_or_ge gun.toNat d.ammo.length with hl | hl
      · exact hl
      · rw [List.get?_eq_none.mpr hl] at ham
        cases ham
    rw [List.get?_eq_getElem?, List.getElem?_set_self hlt]
  · rw [if_neg hv] at ham
    cases ham

/-- C28: for an attacking actor (the attack of the selected gun and action being a row of
the table) whose ammo for the selected gun is at least 0: when `shoot` returns, the
ammo of that gun is at least 0; it is lower by the cost of the attack when the
cooldown had elapsed, `canshoot` answered yes and the actor does not hold the ammo
powerup, and it is unchanged in every other case. -/
theorem shoot_ammo (G : Game) (E : Engine) (d : gameent) (targ : vec) (fuel : Nat) (w : World)
    (atk : Int) (a : attackinfo) (am : Int) (d' : gameent) (w' : World)
    (hact : d.attacking ≠ 0)
    (hgun : gunattack d.gunselect d.attacking = some atk)
    (hatk : attackAt atk = some a)
    (ham : ammoAt d d.gunselect = some am) (hpos : 0 ≤ am)
    (h : shoot G E d targ fuel w = some (d', w')) :
    ∃ am', ammoAt d' d.gunselect = some am' ∧ 0 ≤ am' ∧
      am' = if ¬ (G.lastmillis - d.lastaction < d.gunwait) ∧
          canshoot E d atk d.gunselect a.projectile = some true ∧
          d.haspowerup Powerup.PU_AMMO = false
        then am - a.use else am := by
  have keep : ∀ x : gameent, x.ammo = d.ammo →
      ¬ (¬ (G.lastmillis - d.lastaction < d.gunwait) ∧
          canshoot E d atk d.gunselect a.projectile = some true ∧
          d.haspowerup Powerup.PU_AMMO = false) →
      ∃ am', ammoAt x d.gunselect = some am' ∧ 0 ≤ am' ∧
        am' = if ¬ (G.lastmillis - d.lastaction < d.gunwait) ∧
            canshoot E d atk d.gunselect a.projectile = some true ∧
            d.haspowerup Powerup.PU_AMMO = false
          then am - a.use else am := by
    intro x hx hn
    refine ⟨am, by rw [ammoAt_congr d x _ hx]; exact ham, hpos, by rw [if_neg hn]⟩
  have hact' : (d.attacking == 0) = false := by simpa using hact
  unfold shoot at h
  simp only [] at h
  by_cases hcool : G.lastmillis - d.lastaction < d.gunwait
  · rw [if_pos hcool] at h
    have hd' := (Prod.mk.inj (Option.some.inj h)).1
    exact keep d' (by rw [← hd']) (fun hh => hh.1 hcool)
  · rw [if_neg hcool, hact'] at h
    simp only [Bool.false_eq_true, if_false, hgun, Option.some_bind, hatk] at h
    have hcs : canshoot E { d with gunwait := 0, lastaction := G.lastmillis, lastattack := atk }
        atk d.gunselect a.projectile = canshoot E d atk d.gunselect a.projectile := rfl
    rw [hcs] at h
    obtain ⟨c, hc⟩ : ∃ c, canshoot E d atk d.gunselect a.projectile = c := ⟨_, rfl⟩
    rw [hc] at h
    cases c with
    | none => simp at h
    | some ok =>
      rw [Option.some_bind] at h
      cases ok with
      | false =>
        simp only [Bool.not_false, if_true] at h
        have hn : ¬ (¬ (G.lastmillis - d.lastaction < d.gunwait) ∧
            canshoot E d atk d.gunselect a.projectile = some true ∧
            d.haspowerup Powerup.PU_AMMO = false) := by
          rintro ⟨_, h2, _⟩
          rw [hc] at h2
          cases h2
        by_cases hself : (d.id == G.self) = true
        · rw [if_pos hself] at h
          obtain ⟨am3, _, h⟩ := Option.map_eq_some'.mp h
          by_cases hz : (am3 == 0) = true
          · rw [if_pos hz] at h
            have hk := (weaponswitch_keeps G
              { d with gunwait := 600, lastaction := G.lastmillis, lastattack := -1 } w).1
            rw [h] at hk
            exact keep d' hk hn
          · rw [if_neg hz] at h
            have hd' := (Prod.mk.inj h).1
            exact keep d' (by rw [← hd']) hn
        · rw [if_neg hself] at h
          have hd' := (Prod.mk.inj (Option.some.inj h)).1
          exact keep d' (by rw [← hd']) hn
      | true =>
        simp only [Bool.not_true, Bool.false_eq_true, if_false] at h
        have hf := shootfire_ammo G E
          { d with gunwait := 0, lastaction := G.lastmillis, lastattack := atk } targ d.gunselect
          atk a fuel w am d' w' ham h
        by_cases hp : d.haspowerup Powerup.PU_AMMO = true
        · have hp2 : ({ d with gunwait := 0, lastaction := G.lastmillis, lastattack := atk } :
              gameent).haspowerup Powerup.PU_AMMO = true := hp
          rw [if_pos hp2] at hf
          exact keep d' hf (fun hh => by rw [hp] at hh; cases hh.2.2)
        · have hp' : d.haspowerup Powerup.PU_AMMO = false := by simpa using hp
          have hp2 : ¬ ({ d with gunwait := 0, lastaction := G.lastmillis, lastattack := atk } :
              gameent).haspowerup Powerup.PU_AMMO = true := hp
          rw [if_neg hp2] at hf
          refine ⟨am - a.use, ammoAt_set d d.gunselect am _ ham d' hf, ?_, ?_⟩
          · have := canshoot_ammo_enough E d atk d.gunselect a am hatk ham hpos hc
            omega
          · rw [if_pos ⟨hcool, hc, hp'⟩]

/-- Witness of C28: the actor with 30 rounds in the SMG fires one. -/
theorem shoot_ammo_witness :
    ∃ d' w' am', shoot rocketGame steadyEngine loadedSmg { x := 50, y := 0, z := 0 } 10 {} =
        some (d', w') ∧
      ammoAt d' loadedSmg.gunselect = some am' ∧ 0 ≤ am' := by
  have hs : ∃ r, shoot rocketGame steadyEngine loadedSmg { x := 50, y := 0, z := 0 } 10 {} =
      some r := Option.isSome_iff_exists.mp (by decide!)
  obtain ⟨⟨d', w'⟩, hr⟩ := hs
  obtain ⟨am', h1, h2, _⟩ := shoot_ammo rocketGame steadyEngine loadedSmg
    { x := 50, y := 0, z := 0 } 10 {} ATK_SMG1
    (mkatk GUN_SMG ACT_PRIMARY Projectile_Bullet 110 16 14 84 0 1500 7 1000 1 60 0 0 1 0 0
      false true) 30 d' w' (by decide) (by rfl) (by rfl) (by rfl) (by decide) hr
  exact ⟨d', w', am', hr, h1, h2⟩

/-! ## The triggers that destroy a weapon projectile -/

/-- The bounce test of the tick can set the destroyed flag only for a projectile with the
bounce flag, when the physics call reports that the projectile no longer bounces or
when the bounce count has reached a nonzero maximum. -/
theorem tickbounce_destroyed (G : Game) (E : Engine) (p q : projectile) (info : projectileinfo)
    (hp : projAt p.projtype = some info) (halive : p.isdestroyed = false)
    (h : tickbounce G E p = some q) (hd : q.isdestroyed = true) :
    hasflag p.flags ProjFlag_Bounce = true ∧
      ((E.isbouncing p).result = false ∨
        (info.maxbounces ≠ 0 ∧ info.maxbounces ≤ q.bounces)) := by
  unfold tickbounce at h
  by_cases hc : (isweaponprojectile p.projtype && hasflag p.flags ProjFlag_Bounce) = true
  · rw [if_pos hc] at h
    simp only [] at h
    obtain ⟨p1, h1, h⟩ := Option.bind_eq_some.mp h
    obtain ⟨q2, hq2, hc2, _, hd2⟩ := applyphysmove_spec G E p (E.isbouncing p) (by rw [hp]; rfl)
    have e : q2 = p1 := by
      rw [hq2] at h1
      exact Option.some.inj h1
    subst e
    have hp1 : projAt q2.projtype = some info := by rw [hc2.2.2.1]; exact hp
    rw [hp1, Option.map_some'] at h
    simp only [Option.some.injEq] at h
    simp only [Bool.and_eq_true] at hc
    refine ⟨hc.2, ?_⟩
    by_cases hx : (!(E.isbouncing p).result ||
        (info.maxbounces != 0 && decide (q2.bounces ≥ info.maxbounces))) = true
    · rw [if_pos hx] at h
      simp only [Bool.or_eq_true, Bool.not_eq_true', Bool.and_eq_true, bne_iff_ne, ne_eq,
        decide_eq_true_eq] at hx
      rcases hx with hx | hx
      · exact Or.inl hx
      · right
        rw [← h]
        exact ⟨hx.1, hx.2⟩
    · rw [if_neg hx] at h
      rw [← h, hd2, halive] at hd
      cases hd
  · rw [if_neg hc] at h
    cases h
    rw [halive] at hd
    cases hd

/-- The liquid test of the tick can set the destroyed flag only for a kind with the quench
flag, when the projectile is in water; it leaves position and bounce count alone. -/
theorem handleliquidtransitions_destroyed (E : Engine) (p q : projectile)
    (info : projectileinfo) (hp : projAt p.projtype = some info)
    (h : handleliquidtransitions E p = some q) :
    q.o = p.o ∧ q.bounces = p.bounces ∧
      (q.isdestroyed = true → p.isdestroyed = true ∨
        (hasflag info.flags ProjFlag_Quench = true ∧
          (E.lookupmaterial p.o &&& E.MATF_VOLUME) = E.MAT_WATER)) := by
  unfold handleliquidtransitions at h
  simp only [hp, Option.bind_eq_bind, Option.some_bind, Option.pure_def,
    Option.some.injEq] at h
  subst h
  by_cases hq : ((E.lookupmaterial p.o &&& E.MATF_VOLUME == E.MAT_WATER) &&
      hasflag info.flags ProjFlag_Quench) = true
  · simp only [hq, if_true]
    refine ⟨by split_ifs <;> rfl, by split_ifs <;> rfl, fun _ => Or.inr ?_⟩
    simp only [Bool.and_eq_true, beq_iff_eq] at hq
    exact ⟨hq.2, hq.1⟩
  · simp only [hq, Bool.false_eq_true, if_false]
    exact ⟨by split_ifs <;> rfl, by split_ifs <;> rfl, fun h => Or.inl (by
      split_ifs at h <;> exact h)⟩

/-- The live part of the loop body on a weapon projectile whose destroyed flag is clear:
if the flag is set afterwards, then the lifetime has run out, or the projectile is in
lava, or it is a linear impact projectile less than 4 units from its target point, or
it is a bounce projectile that the physics call reports as no longer bouncing or
whose count has reached a nonzero maximum, or it is of a quenched kind and in water. -/
theorem tickalive_triggers (G : Game) (E : Engine) (time : Int) (p q : projectile) (s : Bool)
    (info : projectileinfo) (hp : projAt p.projtype = some info)
    (hweap : isweaponprojectile p.projtype = true) (halive : p.isdestroyed = false)
    (h : tickalive G E time p = some (q, s)) (hd : q.isdestroyed = true) :
    p.lifetime - time < 0 ∨
      (E.lookupmaterial p.o &&& E.MATF_VOLUME) = E.MAT_LAVA ∨
      (hasflag p.flags ProjFlag_Linear = true ∧ hasflag p.flags ProjFlag_Impact = true ∧
        p.dist < 4) ∨
      (hasflag p.flags ProjFlag_Bounce = true ∧
        ∃ q', samecore p q' ∧ (E.isbouncing q').result = false) ∨
      (hasflag p.flags ProjFlag_Bounce = true ∧ info.maxbounces ≠ 0 ∧
        info.maxbounces ≤ q.bounces) ∨
      (hasflag info.flags ProjFlag_Quench = true ∧
        (E.lookupmaterial q.o &&& E.MATF_VOLUME) = E.MAT_WATER) := by
  by_cases hexp : p.lifetime - time < 0
  · exact Or.inl hexp
  by_cases hlava : (E.lookupmaterial p.o &&& E.MATF_VOLUME) = E.MAT_LAVA
  · exact Or.inr (Or.inl hlava)
  by_cases himp : (hasflag p.flags ProjFlag_Linear &&
      (hasflag p.flags ProjFlag_Impact && decide (p.dist < 4))) = true
  · simp only [Bool.and_eq_true, decide_eq_true_eq] at himp
    exact Or.inr (Or.inr (Or.inl ⟨himp.1, himp.2.1, himp.2.2⟩))
  right; right; right
  unfold tickalive checklifetime at h
  rw [if_pos hweap] at h
  simp only [Option.some_bind] at h
  rw [if_neg hexp] at h
  have hlava' : ¬ (E.lookupmaterial ({ p with lifetime := p.lifetime - time } : projectile).o &&&
      E.MATF_VOLUME == E.MAT_LAVA) = true := by
    simpa using hlava
  rw [if_neg hlava'] at h
  have hti : tickimpact E { p with lifetime := p.lifetime - time } =
      ({ p with lifetime := p.lifetime - time }, false) := by
    unfold tickimpact
    rw [if_neg himp]
  rw [hti] at h
  simp only [Bool.false_eq_true, if_false] at h
  obtain ⟨p4, h4, h⟩ := Option.bind_eq_some.mp h
  obtain ⟨p5, h5, h⟩ := Option.map_eq_some'.mp h
  have hq : p5 = q := (Prod.mk.inj h).1
  subst hq
  have hc4 : samecore { p with lifetime := p.lifetime - time } p4 := by
    obtain ⟨x, hx, hk⟩ := tickbounce_spec G E { p with lifetime := p.lifetime - time }
      (by rw [hp]; rfl)
    rw [hx] at h4
    cases h4
    exact hk.1
  have hp4 : projAt p4.projtype = some info := by rw [hc4.2.2.1]; exact hp
  obtain ⟨ho, hb, hdq⟩ := handleliquidtransitions_destroyed E p4 p5 info hp4 h5
  rcases hdq hd with hd4 | hquench
  · obtain ⟨hbf, hcase⟩ := tickbounce_destroyed G E { p with lifetime := p.lifetime - time } p4
      info hp halive h4 hd4
    rcases hcase with hstop | hmaxed
    · exact Or.inl ⟨hbf, { p with lifetime := p.lifetime - time },
        ⟨rfl, rfl, rfl, rfl, rfl, rfl, rfl⟩, hstop⟩
    · exact Or.inr (Or.inl ⟨hbf, hmaxed.1, by rw [hb]; exact hmaxed.2⟩)
  · exact Or.inr (Or.inr ⟨hquench.1, by rw [ho]; exact hquench.2⟩)
theorem updateposition_fields (E : Engine) (p : projectile) (time : Int) :
    (p.updateposition E time).1.o = p.o ∧ (p.updateposition E time).1.to_ = p.to_ ∧
      (p.updateposition E time).1.lifetime = p.lifetime ∧
      (p.updateposition E time).1.isdestroyed = p.isdestroyed ∧
      (hasflag p.flags ProjFlag_Linear = true →
        (p.updateposition E time).1.dist = E.magnitude (p.to_.sub p.o)) := by
  unfold projectile.updateposition
  by_cases hl : hasflag p.flags ProjFlag_Linear = true
  · rw [if_pos hl]
    exact ⟨rfl, rfl, rfl, rfl, fun _ => rfl⟩
  · rw [if_neg hl]
    exact ⟨rfl, rfl, rfl, rfl, fun h => absurd h hl⟩

/-- The direct-hit scan at the head of the loop body either leaves the projectile as it is
or, for a local linear projectile outside intermission, sets the destroyed flag and
the direct flag. -/
theorem tickdirect_outcome (G : Game) (E : Engine) (p : projectile) (pos : vec) (w : World)
    (r : projectile × World) (h : tickdirect G E p pos w = some r) :
    r.1 = p ∨
      (hasflag p.flags ProjFlag_Linear = true ∧ p.islocal = true ∧ G.betweenrounds = false ∧
        r.1 = { p with isdestroyed := true, isdirect := true }) := by
  unfold tickdirect at h
  by_cases hl : (hasflag p.flags ProjFlag_Linear && p.islocal) = true
  · rw [if_pos hl] at h
    simp only [] at h
    obtain ⟨a, _, h⟩ := Option.bind_eq_some.mp h
    by_cases hb : (!G.betweenrounds) = true
    · rw [if_pos hb] at h
      obtain ⟨s, _, hs⟩ := Option.map_eq_some'.mp h
      subst hs
      simp only []
      by_cases hs1 : s.1 = true
      · rw [if_pos hs1]
        simp only [Bool.and_eq_true] at hl
        exact Or.inr ⟨hl.1, hl.2, by simpa using hb, rfl⟩
      · rw [if_neg hs1]
        exact Or.inl rfl
    · rw [if_neg hb] at h
      cases h
      exact Or.inl rfl
  · rw [if_neg hl] at h
    cases h
    exact Or.inl rfl

theorem tickfinish_destroyed (G : Game) (E : Engine) (time : Int) (p : projectile) (pos : vec)
    (w : World) (r : tickout) (h : tickfinish G E time p pos w = some r)
    (hd : r.proj.isdestroyed = true) : r.proj = p := by
  unfold tickfinish at h
  by_cases hp : p.isdestroyed = true
  · rw [if_pos hp] at h
    by_cases hw : isweaponprojectile p.projtype = true
    · rw [if_pos hw] at h
      obtain ⟨a, _, h⟩ := Option.bind_eq_some.mp h
      obtain ⟨w1, _, hs⟩ := Option.map_eq_some'.mp h
      subst hs
      rfl
    · rw [if_neg hw] at h
      cases h
      rfl
  · exfalso
    rw [if_neg hp] at h
    have hp' : p.isdestroyed = false := by simpa using hp
    by_cases hb : hasflag p.flags ProjFlag_Bounce = true
    · rw [if_pos hb] at h
      cases h
      have := (limitoffset_spec E { p with offsetmillis := max (p.offsetmillis - time) 0 }).2.2
      simp only [] at this hd
      rw [this, hp'] at hd
      cases hd
    · rw [if_neg hb] at h
      cases h
      simp only [] at hd
      rw [hp'] at hd
      cases hd

/-- C22, counterexample: a plasma bolt in water, with 2000 ms of lifetime left, 490 units
from its target point, not in lava, not a bounce projectile and with no entity around
to strike, has its destroyed flag set and is removed by one tick of 30 ms: the liquid
test destroys a kind with the quench flag, a trigger that is not in the list. -/
theorem plasma_quenched_in_water :
    plasmaBolt.isdestroyed = false ∧ isweaponprojectile plasmaBolt.projtype = true ∧
      0 ≤ plasmaBolt.lifetime - 30 ∧
      (wetEngine.lookupmaterial plasmaBolt.o &&& wetEngine.MATF_VOLUME) ≠ wetEngine.MAT_LAVA ∧
      4 ≤ wetEngine.magnitude (plasmaBolt.to_.sub plasmaBolt.o) ∧
      hasflag plasmaBolt.flags ProjFlag_Bounce = false ∧
      sampleGame.dynents = [] ∧
      (tickprojectile sampleGame wetEngine 30 plasmaBolt {}).map
        (fun r => (r.proj.isdestroyed, r.removed, r.proj.isdirect)) =
        some (true, true, false) := by
  decide!

/-- C22, amended: when one tick on a weapon projectile whose destroyed flag is clear ends
with the flag set, one of these holds: the direct-hit scan of a local linear
projectile outside intermission struck an entity; the lifetime has run out; the
projectile is in lava; it is a linear impact projectile less than 4 units from its
target point; it is a bounce projectile that the physics call reports as no longer
bouncing; it is a bounce projectile whose count has reached a nonzero maximum; or its
kind has the quench flag and it is in water. -/
theorem weapon_destroyed_only_by_triggers (G : Game) (E : Engine) (time : Int) (p : projectile)
    (w : World) (info : projectileinfo) (r : tickout)
    (hp : projAt p.projtype = some info)
    (hweap : isweaponprojectile p.projtype = true) (halive : p.isdestroyed = false)
    (h : tickprojectile G E time p w = some r) (hd : r.proj.isdestroyed = true) :
    (hasflag p.flags ProjFlag_Linear = true ∧ p.islocal = true ∧ G.betweenrounds = false ∧
        r.proj.isdirect = true ∧
        ∃ r1, tickdirect G E (p.updateposition E time).1 (p.updateposition E time).2 w =
          some r1 ∧ r1.1.isdestroyed = true) ∨
      p.lifetime - time < 0 ∨
      (E.lookupmaterial p.o &&& E.MATF_VOLUME) = E.MAT_LAVA ∨
      (hasflag p.flags ProjFlag_Linear = true ∧ hasflag p.flags ProjFlag_Impact = true ∧
        E.magnitude (p.to_.sub p.o) < 4) ∨
      (hasflag p.flags ProjFlag_Bounce = true ∧
        ∃ q', samecore p q' ∧ (E.isbouncing q').result = false) ∨
      (hasflag p.flags ProjFlag_Bounce = true ∧ info.maxbounces ≠ 0 ∧
        info.maxbounces ≤ r.proj.bounces) ∨
      (hasflag info.flags ProjFlag_Quench = true ∧
        (E.lookupmaterial r.proj.o &&& E.MATF_VOLUME) = E.MAT_WATER) := by
  have hu := updateposition_fields E p time
  have hus := updateposition_spec E p time
  unfold tickprojectile at h
  simp only [] at h
  obtain ⟨r1, h1, h⟩ := Option.bind_eq_some.mp h
  rcases tickdirect_outcome G E _ _ w r1 h1 with hsame | ⟨hl, hloc, hbr, hr1⟩
  · -- no direct hit: the live part of the body runs
    have hd1 : r1.1.isdestroyed = false := by rw [hsame, hu.2.2.2.1]; exact halive
    have hnd : (!r1.1.isdestroyed) = true := by rw [hd1]; rfl
    rw [if_pos hnd] at h
    obtain ⟨ra, ha, h⟩ := Option.bind_eq_some.mp h
    right
    have key : ∀ q s, tickalive G E time r1.1 = some (q, s) → q.isdestroyed = true →
        r.proj = q →
        p.lifetime - time < 0 ∨
        (E.lookupmaterial p.o &&& E.MATF_VOLUME) = E.MAT_LAVA ∨
        (hasflag p.flags ProjFlag_Linear = true ∧ hasflag p.flags ProjFlag_Impact = true ∧
          E.magnitude (p.to_.sub p.o) < 4) ∨
        (hasflag p.flags ProjFlag_Bounce = true ∧
          ∃ q', samecore p q' ∧ (E.isbouncing q').result = false) ∨
        (hasflag p.flags ProjFlag_Bounce = true ∧ info.maxbounces ≠ 0 ∧
          info.maxbounces ≤ r.proj.bounces) ∨
        (hasflag info.flags ProjFlag_Quench = true ∧
          (E.lookupmaterial r.proj.o &&& E.MATF_VOLUME) = E.MAT_WATER) := by
      intro q s hq hdq hrq
      have hc0 : samecore p r1.1 := by rw [hsame]; exact hus.1
      have hfl : r1.1.flags = p.flags := hc0.2.2.2.1
      have := tickalive_triggers G E time r1.1 q s info (by rw [hc0.2.2.1]; exact hp)
        (by rw [hc0.2.2.1]; exact hweap) hd1 hq hdq
      rw [hfl] at this
      rw [hsame, hu.1, hu.2.2.1] at this
      rcases this with t | t | t | t | t | t
      · exact Or.inl t
      · exact Or.inr (Or.inl t)
      · exact Or.inr (Or.inr (Or.inl ⟨t.1, t.2.1, by rw [← hu.2.2.2.2 t.1]; exact t.2.2⟩))
      · obtain ⟨t1, q', t2, t3⟩ := t
        exact Or.inr (Or.inr (Or.inr (Or.inl ⟨t1, q', samecore_trans hus.1 t2, t3⟩)))
      · exact Or.inr (Or.inr (Or.inr (Or.inr (Or.inl ⟨t.1, t.2.1, by rw [hrq]; exact t.2.2⟩))))
      · exact Or.inr (Or.inr (Or.inr (Or.inr (Or.inr ⟨t.1, by rw [hrq]; exact t.2⟩))))
    by_cases hs : ra.2 = true
    · rw [if_pos hs] at h
      cases h
      exact key ra.1 ra.2 (by rw [ha]) hd rfl
    · rw [if_neg hs] at h
      have hrp := tickfinish_destroyed G E time _ _ _ r h hd
      exact key ra.1 ra.2 (by rw [ha]) (by rw [← hrp]; exact hd) hrp
  · -- direct hit
    left
    have hd1 : r1.1.isdestroyed = true := by rw [hr1]
    have hnd : ¬ (!r1.1.isdestroyed) = true := by rw [hd1]; simp
    rw [if_neg hnd] at h
    have hrp := tickfinish_destroyed G E time _ _ _ r h hd
    have hfl : (p.updateposition E time).1.flags = p.flags := hus.1.2.2.2.1
    have hil : (p.updateposition E time).1.islocal = p.islocal := hus.1.2.2.2.2.2.1
    refine ⟨by rw [← hfl]; exact hl, by rw [← hil]; exact hloc, hbr, ?_, r1, h1, hd1⟩
    rw [hrp, hr1]

/-- Witness of C22 (amended): the plasma bolt in water; the trigger is the quench. -/
theorem weapon_destroyed_only_by_triggers_witness :
    ∃ r, tickprojectile sampleGame wetEngine 30 plasmaBolt {} = some r ∧
      r.proj.isdestroyed = true ∧
      ((hasflag plasmaBolt.flags ProjFlag_Linear = true ∧ plasmaBolt.islocal = true ∧
          sampleGame.betweenrounds = false ∧ r.proj.isdirect = true ∧
          ∃ r1, tickdirect sampleGame wetEngine (plasmaBolt.updateposition wetEngine 30).1
            (plasmaBolt.updateposition wetEngine 30).2 {} = some r1 ∧
            r1.1.isdestroyed = true) ∨
        plasmaBolt.lifetime - 30 < 0 ∨
        (wetEngine.lookupmaterial plasmaBolt.o &&& wetEngine.MATF_VOLUME) = wetEngine.MAT_LAVA ∨
        (hasflag plasmaBolt.flags ProjFlag_Linear = true ∧
          hasflag plasmaBolt.flags ProjFlag_Impact = true ∧
          wetEngine.magnitude (plasmaBolt.to_.sub plasmaBolt.o) < 4) ∨
        (hasflag plasmaBolt.flags ProjFlag_Bounce = true ∧
          ∃ q', samecore plasmaBolt q' ∧ (wetEngine.isbouncing q').result = false) ∨
        (hasflag plasmaBolt.flags ProjFlag_Bounce = true ∧ (0 : Int) ≠ 0 ∧
          (0 : Int) ≤ r.proj.bounces) ∨
        (hasflag (ProjFlag_Weapon ||| ProjFlag_Linear ||| ProjFlag_Quench ||| ProjFlag_Impact |||
            ProjFlag_Immortal) ProjFlag_Quench = true ∧
          (wetEngine.lookupmaterial r.proj.o &&& wetEngine.MATF_VOLUME) = wetEngine.MAT_WATER)) := by
  have hs : ∃ r, tickprojectile sampleGame wetEngine 30 plasmaBolt {} = some r ∧
      r.proj.isdestroyed = true := by
    cases hr : tickprojectile sampleGame wetEngine 30 plasmaBolt {} with
    | none =>
      have : (tickprojectile sampleGame wetEngine 30 plasmaBolt {}).isSome = true := by decide!
      rw [hr] at this
      cases this
    | some r =>
      have : (tickprojectile sampleGame wetEngine 30 plasmaBolt {}).map
          (fun r => r.proj.isdestroyed) = some true := by decide!
      rw [hr] at this
      exact ⟨r, rfl, Option.some.inj this⟩
  obtain ⟨r, hr, hd⟩ := hs
  exact ⟨r, hr, hd, weapon_destroyed_only_by_triggers sampleGame wetEngine 30 plasmaBolt {}
    { type := Projectile_Plasma,
      flags := ProjFlag_Weapon ||| ProjFlag_Linear ||| ProjFlag_Quench ||| ProjFlag_Impact |||
        ProjFlag_Immortal,
      maxbounces := 0, variants := 0, radius := 1 } r (by rfl) (by rfl) (by rfl) hr hd⟩

/-! ## hitscan: one damage application for each struck target -/

theorem rays_in_range : ∀ a ∈ attacks, 1 ≤ a.rays ∧ a.rays ≤ (GUN_MAXRAYS : Int) := by decide

theorem struckids_clearhit (o : gameent) : ∀ hits : List (Option gameent),
    struckids (hits.map (clearhit o)) = (struckids hits).filter (fun t => t != o.id)
  | [] => rfl
  | none :: rest => by
    have ih := struckids_clearhit o rest
    simp only [struckids, List.map_cons, clearhit, List.filterMap_cons, Option.map_none'] at ih ⊢
    exact ih
  | some h :: rest => by
    have ih := struckids_clearhit o rest
    simp only [struckids, List.map_cons, clearhit, List.filterMap_cons, Option.map_some'] at ih ⊢
    by_cases hid : h.id = o.id
    · simp only [hid, beq_self_eq_true, if_true, Option.map_none', List.filter_cons,
        bne_self_eq_false, Bool.false_eq_true, if_false]
      exact ih
    · have h1 : (h.id == o.id) = false := by simpa using hid
      have h2 : (h.id != o.id) = true := by simpa using hid
      simp only [h1, Bool.false_eq_true, if_false, Option.map_some', List.filter_cons, h2,
        if_true, List.cons.injEq, true_and]
      exact ih

/-- The inner loop of the second loop of `hitscan`: from index `pre.length` on, the entries
equal to `o` are cleared and counted. -/
theorem hitscanCount_spec (o : gameent) : ∀ (suf pre : List (Option gameent)) (c : Int),
    hitscanCount o suf.length pre.length (pre ++ suf) c =
      (pre ++ suf.map (clearhit o), c + ((struckids suf).count o.id : Int)) := by
  intro suf
  induction suf with
  | nil => intro pre c; simp [hitscanCount, struckids]
  | cons x rest ih =>
    intro pre c
    have hget : (pre ++ x :: rest).get? pre.length = some x := get?_append_length pre x rest
    have hsplit : pre ++ x :: rest = (pre ++ [x]) ++ rest := by simp
    have hlen : (pre ++ [x]).length = pre.length + 1 := by simp
    unfold hitscanCount
    simp only [List.length_cons]
    rw [hget]
    cases x with
    | none =>
      simp only []
      have := ih (pre ++ [none]) c
      rw [hlen, ← hsplit] at this
      rw [this]
      simp [struckids, clearhit]
    | some h =>
      simp only []
      by_cases hid : (h.id == o.id) = true
      · rw [if_pos hid]
        have hset : (pre ++ some h :: rest).set pre.length none = (pre ++ [none]) ++ rest := by
          simp
        rw [hset]
        have hlen' : (pre ++ [(none : Option gameent)]).length = pre.length + 1 := by simp
        have := ih (pre ++ [none]) (c + 1)
        rw [hlen'] at this
        rw [this]
        have hid' : h.id = o.id := by simpa using hid
        simp [struckids, clearhit, hid']
        ring
      · rw [if_neg hid]
        have := ih (pre ++ [some h]) c
        rw [hlen, ← hsplit] at this
        rw [this]
        have hid' : ¬ h.id = o.id := by simpa using hid
        simp [struckids, clearhit, hid']
        rw [List.count_cons_of_ne (Ne.symm hid')]
theorem count_add_filter_ne (a : Nat) : ∀ l : List Nat,
    l.count a + (l.filter (fun t => t != a)).length = l.length
  | [] => rfl
  | x :: l => by
    have ih := count_add_filter_ne a l
    by_cases hx : x = a
    · subst hx
      simp only [List.count_cons_self, List.filter_cons, bne_self_eq_false, Bool.false_eq_true,
        if_false, List.length_cons]
      omega
    · have h2 : (x != a) = true := by simpa using hx
      rw [List.count_cons_of_ne (Ne.symm hx)]
      simp only [List.filter_cons, h2, if_true, List.length_cons]
      omega

/-- The second loop of the multi-ray branch of `hitscan`, outside intermission and for a
valid attack, on the entries of `hits` from index `pre.length` on: it logs one call
per distinct entity among these entries, each with the number of entries that hold
that entity, and these numbers add up to the number of entries that hold an entity. -/
theorem hitscanDamage_spec (G : Game) (E : Engine) (a : attackinfo) (from_ to_ : vec)
    (d : gameent) (atk : Int) (hitlegs hithead : Bool)
    (hatk : (attackAt atk).isSome = true) (hbr : G.betweenrounds = false) :
    ∀ (n : Nat) (suf pre : List (Option gameent)) (m : Nat) (damage : Int) (flags : Nat)
      (log : List hitcall), suf.length = n → m = pre.length + n →
      ∃ calls, hitscanDamage G E a from_ to_ d atk hitlegs hithead m n pre.length (pre ++ suf)
          damage flags log = some (log ++ calls) ∧
        (calls.map (fun c => c.target)).Nodup ∧
        (∀ t, t ∈ calls.map (fun c => c.target) ↔ t ∈ struckids suf) ∧
        (∀ c ∈ calls, c.info2 = ((struckids suf).count c.target : Int)) ∧
        (calls.map (fun c => c.info2)).sum = ((struckids suf).length : Int) := by
  intro n
  induction n with
  | zero =>
    intro suf pre m damage flags log hs _
    have : suf = [] := List.length_eq_zero.mp hs
    subst this
    exact ⟨[], by simp [hitscanDamage], by simp, by simp [struckids], by simp,
      by simp [struckids]⟩
  | succ n ih =>
    intro suf pre m damage flags log hs hm
    cases suf with
    | nil => simp at hs
    | cons x rest =>
      have hrest : rest.length = n := by simpa using hs
      have hget : (pre ++ x :: rest).get? pre.length = some x := get?_append_length pre x rest
      unfold hitscanDamage
      rw [hget]
      cases x with
      | none =>
        simp only []
        have hsplit : pre ++ none :: rest = (pre ++ [none]) ++ rest := by simp
        have := ih rest (pre ++ [none]) m damage flags log hrest
          (by simp only [List.length_append, List.length_singleton]; omega)
        simp only [List.length_append, List.length_singleton] at this
        rw [hsplit]
        obtain ⟨calls, h1, h2, h3, h4, h5⟩ := this
        exact ⟨calls, h1, h2, by simpa [struckids] using h3, by simpa [struckids] using h4,
          by simpa [struckids] using h5⟩
      | some o =>
        simp only []
        have hset : (pre ++ some o :: rest).set pre.length none = (pre ++ [none]) ++ rest := by
          simp
        have hcnt : m - (pre.length + 1) = rest.length := by omega
        have hlen1 : (pre ++ [(none : Option gameent)]).length = pre.length + 1 := by simp
        have hc := hitscanCount_spec o rest (pre ++ [none]) 1
        rw [hlen1] at hc
        rw [hset, hcnt, hc]
        simp only []
        generalize (if (a.headshotdam != 0) = true then
            (let f := if hithead = true then flags ||| HIT_HEAD else flags
             if hitlegs = true then f ||| HIT_LEGS else f)
          else flags) = flags1
        obtain ⟨dmg, hdmg⟩ := calcdamage_isSome G damage o d atk flags1 hatk
        rw [hdmg]
        simp only []
        have hpush : ∀ (dm : Int) (rays : Int), ∃ call : hitcall,
            calcpush G E dm o d from_ to_ atk rays flags1 log = log ++ [call] ∧
              call.target = o.id ∧ call.info2 = rays := by
          intro dm rays
          unfold calcpush
          rw [hbr]
          simp only [Bool.false_eq_true, if_false]
          exact ⟨_, rfl, rfl, rfl⟩
        obtain ⟨call, hcall, htarget, hinfo⟩ :=
          hpush ((1 + ((struckids rest).count o.id : Int)) * dmg)
            (1 + ((struckids rest).count o.id : Int))
        rw [hcall]
        have := ih (rest.map (clearhit o)) (pre ++ [none]) m dmg flags1 (log ++ [call])
          (by simpa using hrest)
          (by simp only [List.length_append, List.length_singleton]; omega)
        simp only [List.length_append, List.length_singleton] at this
        obtain ⟨calls, h1, h2, h3, h4, h5⟩ := this
        rw [struckids_clearhit] at h3 h4 h5
        have hids : struckids (some o :: rest) = o.id :: struckids rest := by
          simp [struckids]
        refine ⟨call :: calls, ?_, ?_, ?_, ?_, ?_⟩
        · rw [h1]
          simp
        · rw [List.map_cons, List.nodup_cons, htarget]
          refine ⟨?_, h2⟩
          intro hin
          have := (h3 o.id).mp hin
          simp at this
        · intro t
          rw [hids, List.map_cons, List.mem_cons, List.mem_cons, h3 t, htarget]
          simp only [List.mem_filter, bne_iff_ne, ne_eq]
          constructor
          · rintro (h | h)
            · exact Or.inl h
            · exact Or.inr h.1
          · rintro (h | h)
            · exact Or.inl h
            · by_cases ht : t = o.id
              · exact Or.inl ht
              · exact Or.inr ⟨h, ht⟩
        · intro c hc
          rcases List.mem_cons.mp hc with rfl | hc
          · rw [hids, htarget, List.count_cons_self, hinfo]
            push_cast
            ring
          · have hne : c.target ≠ o.id := by
              have := (h3 c.target).mp (List.mem_map_of_mem _ hc)
              simp only [List.mem_filter, bne_iff_ne, ne_eq] at this
              exact this.2
            rw [h4 c hc, hids, List.count_cons_of_ne hne]
            have hq : ∀ l : List Nat, (l.filter (fun t => t != o.id)).count c.target =
                l.count c.target := by
              intro l
              rw [List.count_filter]
              simpa using hne
            rw [hq]
        · rw [List.map_cons, List.sum_cons, h5, hids, List.length_cons, hinfo]
          have := count_add_filter_ne o.id (struckids rest)
          push_cast
          omega
/-- The first loop of the multi-ray branch of `hitscan` on the rays from index `pre.length`
on: it returns when these indices are within the buffer and below `GUN_MAXRAYS`, and
appends to `hits` the entity struck by each ray. -/
theorem hitscanResolve_spec (G : Game) (E : Engine) (from_ : vec) (d : gameent) (margin : ℚ) :
    ∀ (n : Nat) (suf pre : List vec) (hits : List (Option gameent)) (hl hh : Bool),
      n ≤ suf.length → pre.length + n ≤ GUN_MAXRAYS →
      ∃ rays' hl' hh', hitscanResolve G E from_ d margin n pre.length (pre ++ suf) hits hl hh =
          some (rays', hits ++ volleyhits G E from_ d margin suf n, hl', hh') ∧
        rays'.length = (pre ++ suf).length := by
  intro n
  induction n with
  | zero =>
    intro suf pre hits hl hh _ _
    exact ⟨pre ++ suf, hl, hh, by simp [hitscanResolve, volleyhits], rfl⟩
  | succ n ih =>
    intro suf pre hits hl hh hn hmax
    cases suf with
    | nil => simp at hn
    | cons r rest =>
      have hn' : n ≤ rest.length := by simpa using hn
      have hget : (pre ++ r :: rest).get? pre.length = some r := get?_append_length pre r rest
      have hlt : ¬ GUN_MAXRAYS ≤ pre.length := by omega
      have hv : volleyhits G E from_ d margin (r :: rest) (n + 1) =
          (intersectclosest G E from_ r d margin).1 :: volleyhits G E from_ d margin rest n := by
        simp [volleyhits]
      unfold hitscanResolve
      rw [if_neg hlt, hget]
      simp only []
      rw [hv]
      obtain ⟨b, dist, hic⟩ : ∃ b dist, intersectclosest G E from_ r d margin = (b, dist) :=
        ⟨_, _, rfl⟩
      rw [hic]
      cases b with
      | none =>
        simp only []
        have hsplit : pre ++ r :: rest = (pre ++ [r]) ++ rest := by simp
        have := ih rest (pre ++ [r]) (hits ++ [none]) hl hh hn'
          (by simp only [List.length_append, List.length_singleton]; omega)
        simp only [List.length_append, List.length_singleton] at this
        obtain ⟨rays', hl', hh', h1, h2⟩ := this
        rw [hsplit, h1]
        exact ⟨rays', hl', hh', by simp, by
          simp only [List.length_append, List.length_cons, List.length_nil] at h2 ⊢
          omega⟩
      | some o =>
        simp only []
        have hset : (pre ++ r :: rest).set pre.length (shorten from_ r dist) =
            (pre ++ [shorten from_ r dist]) ++ rest := by simp
        have := ih rest (pre ++ [shorten from_ r dist]) (hits ++ [some o])
          (islegshitbox E o from_ r) (isheadhitbox E o from_ r) hn'
          (by simp only [List.length_append, List.length_singleton]; omega)
        simp only [List.length_append, List.length_singleton] at this
        obtain ⟨rays', hl', hh', h1, h2⟩ := this
        rw [hset, h1]
        exact ⟨rays', hl', hh', by simp, by
          simp only [List.length_append, List.length_cons, List.length_nil] at h2 ⊢
          omega⟩

theorem volleyhits_length (G : Game) (E : Engine) (from_ : vec) (d : gameent) (margin : ℚ)
    (rays : List vec) (n : Nat) (h : n ≤ rays.length) :
    (volleyhits G E from_ d margin rays n).length = n := by
  simp [volleyhits, h]

/-- C21: a multi-ray attack of the table fired outside intermission, with the ray buffer
holding `GUN_MAXRAYS` rays: `hitscan` returns and appends to the hit log one call per
distinct entity struck by at least one of the rays of the attack (so as many calls
as distinct entities, each entity once), each call reporting the number of rays that
struck its entity, and these numbers add up to the number of rays that struck an
entity. -/
theorem hitscan_volley_dedup (G : Game) (E : Engine) (from_ to_ : vec) (d : gameent) (atk : Int)
    (a : attackinfo) (w : World) (hatk : attackAt atk = some a) (hrays : 1 < a.rays)
    (hbr : G.betweenrounds = false) (hbuf : w.rays.length = GUN_MAXRAYS) :
    ∃ w' to' calls, hitscan G E from_ to_ d atk w = some (w', to') ∧
      w'.hitlog = w.hitlog ++ calls ∧
      (calls.map (fun c => c.target)).Nodup ∧
      (∀ t, t ∈ calls.map (fun c => c.target) ↔
        t ∈ struckids (volleyhits G E from_ d (a.margin : ℚ) w.rays a.rays.toNat)) ∧
      calls.length =
        (struckids (volleyhits G E from_ d (a.margin : ℚ) w.rays a.rays.toNat)).dedup.length ∧
      (∀ c ∈ calls, c.info2 =
        ((struckids (volleyhits G E from_ d (a.margin : ℚ) w.rays a.rays.toNat)).count c.target :
          Int)) ∧
      (calls.map (fun c => c.info2)).sum =
        ((struckids (volleyhits G E from_ d (a.margin : ℚ) w.rays a.rays.toNat)).length : Int) := by
  have hr := rays_in_range a (attackAt_mem hatk)
  have hn : a.rays.toNat ≤ GUN_MAXRAYS := by
    have := hr.2
    omega
  obtain ⟨rays', hl', hh', h1, _⟩ := hitscanResolve_spec G E from_ d (a.margin : ℚ) a.rays.toNat
    w.rays [] [] false false (by rw [hbuf]; exact hn) (by simpa using hn)
  have hlen := volleyhits_length G E from_ d (a.margin : ℚ) w.rays a.rays.toNat
    (by rw [hbuf]; exact hn)
  obtain ⟨calls, h2, h3, h4, h5, h6⟩ := hitscanDamage_spec G E a from_ to_ d atk hl' hh'
    (by rw [hatk]; rfl) hbr a.rays.toNat
    (volleyhits G E from_ d (a.margin : ℚ) w.rays a.rays.toNat) [] a.rays.toNat a.damage
    HIT_TORSO w.hitlog hlen (by simp)
  simp only [List.nil_append, List.length_nil] at h1 h2
  refine ⟨{ w with rays := rays', hitlog := w.hitlog ++ calls }, to_, calls, ?_, rfl, h3, h4, ?_,
    h5, h6⟩
  · unfold hitscan
    simp only [hatk, Option.bind_eq_bind, Option.some_bind, Option.pure_def, hrays, if_true, hbr,
      Bool.false_eq_true, if_false, h1, h2]
  · have hperm : (calls.map (fun c => c.target)).Perm
        (struckids (volleyhits G E from_ d (a.margin : ℚ) w.rays a.rays.toNat)).dedup := by
      rw [List.perm_ext_iff_of_nodup h3 (List.nodup_dedup _)]
      intro t
      rw [h4 t, List.mem_dedup]
    have := hperm.length_eq
    simpa using this

/-- Witness of C21: the scattergun volley of which ray 0 strikes one bystander and ray 1
another: two damage applications, the reported ray counts sum to 2. -/
theorem hitscan_volley_dedup_witness :
    attackAt ATK_SCATTER1 = some scatter1 ∧ 1 < scatter1.rays ∧
    ∃ w' to' calls, hitscan volleyGame sampleEngine vec.zero { x := 0, y := 0, z := 500 } shooter
        ATK_SCATTER1 volleyWorld = some (w', to') ∧
      w'.hitlog = calls ∧ (calls.map (fun c => c.target)).Nodup ∧ calls.length = 2 ∧
      (calls.map (fun c => c.info2)).sum = 2 := by
  obtain ⟨w', to', calls, h1, h2, h3, _, h5, _, h7⟩ := hitscan_volley_dedup volleyGame
    sampleEngine vec.zero { x := 0, y := 0, z := 500 } shooter ATK_SCATTER1 scatter1 volleyWorld
    rfl (by decide) rfl rfl
  have hs : struckids (volleyhits volleyGame sampleEngine vec.zero shooter
      (scatter1.margin : ℚ) volleyWorld.rays scatter1.rays.toNat) = [3, 2] := by decide!
  rw [hs] at h5 h7
  exact ⟨rfl, by decide, w', to', calls, h1, by simpa [volleyWorld] using h2, h3, h5, h7⟩

/-! ## The ray buffer: every index of the three ray loops is in bounds -/

/-- The random draws of `offsetray` leave the ray buffer alone. -/
theorem offsetraydraw_rays (E : Engine) :
    ∀ (fuel : Nat) (w : World) (r : vec × World), offsetraydraw E fuel w = some r →
      r.2.rays = w.rays := by
  intro fuel
  induction fuel with
  | zero => intro w r h; simp [offsetraydraw] at h
  | succ n ih =>
    intro w r h
    unfold offsetraydraw at h
    simp only [rndscale] at h
    split_ifs at h
    · exact (ih _ _ h).trans rfl
    · cases h
      rfl

/-- The call `offsetray` leaves the ray buffer alone: the destination is returned, and is
stored by the caller. -/
theorem offsetray_rays (E : Engine) (from_ to_ : vec) (spread : Int) (range : ℚ) (d : gameent)
    (fuel : Nat) (w : World) (r : vec × World)
    (h : offsetray E from_ to_ spread range d fuel w = some r) : r.2.rays = w.rays := by
  unfold offsetray at h
  obtain ⟨r0, h0, hr⟩ := Option.map_eq_some'.mp h
  rw [← hr]
  exact offsetraydraw_rays E fuel w r0 h0

/-- The loop of `shoot` and of `shoteffects` that fills the ray buffer: on a buffer of
`GUN_MAXRAYS` rays, with the index and the remaining count within `GUN_MAXRAYS`, it
returns whenever every call of `offsetray` does. -/
theorem offsetrays_isSome (E : Engine) (from_ to_ : vec) (spread : Int) (range : ℚ)
    (d : gameent) (fuel : Nat)
    (hdraw : ∀ w : World, (offsetray E from_ to_ spread range d fuel w).isSome = true) :
    ∀ (n i : Nat) (w : World), i + n ≤ GUN_MAXRAYS → w.rays.length = GUN_MAXRAYS →
      (offsetrays E from_ to_ spread range d fuel n i w).isSome = true := by
  intro n
  induction n with
  | zero => intro i w _ _; rfl
  | succ n ih =>
    intro i w hi hw
    unfold offsetrays
    have hlt : ¬ (GUN_MAXRAYS ≤ i ∨ w.rays.length ≤ i) := by
      rw [hw]
      omega
    rw [if_neg hlt]
    obtain ⟨r, hr⟩ := Option.isSome_iff_exists.mp (hdraw w)
    rw [hr, Option.some_bind]
    apply ih
    · omega
    · simp only [List.length_set]
      rw [offsetray_rays E from_ to_ spread range d fuel w r hr]
      exact hw

/-- The call `makeprojectile` returns for a kind of the table and an attack of the
table. -/
theorem makeprojectile_isSome (G : Game) (E : Engine) (owner : gameent) (from_ to_ : vec)
    (islocal : Bool) (id atk type lifetime speed : Int) (gravity elasticity : ℚ) (w : World)
    (hp : (projAt type).isSome = true) (ha : (attackAt atk).isSome = true) :
    ∃ w', makeprojectile G E owner from_ to_ islocal id atk type lifetime speed gravity
      elasticity w = some w' := by
  obtain ⟨info, hinfo⟩ := Option.isSome_iff_exists.mp hp
  obtain ⟨a, hatk⟩ := Option.isSome_iff_exists.mp ha
  unfold makeprojectile
  simp only [hinfo, hatk, Option.bind_eq_bind, Option.some_bind, Option.pure_def, Option.map_some']
  by_cases hw : hasflag info.flags ProjFlag_Weapon = true
  · simp [hw]
  · simp [hw]

/-- The loop of `shoteffects` that spawns one projectile for each ray: on a buffer of
`GUN_MAXRAYS` rays, with the index and the remaining count within `GUN_MAXRAYS`, it
returns. -/
theorem rayprojectiles_isSome (G : Game) (E : Engine) (d : gameent) (from_ : vec)
    (islocal : Bool) (id atk : Int) (a : attackinfo)
    (hp : (projAt a.projectile).isSome = true) (ha : (attackAt atk).isSome = true) :
    ∀ (n i : Nat) (w : World), i + n ≤ GUN_MAXRAYS → w.rays.length = GUN_MAXRAYS →
      (rayprojectiles G E d from_ islocal id atk a n i w).isSome = true := by
  intro n
  induction n with
  | zero => intro i w _ _; rfl
  | succ n ih =>
    intro i w hi hw
    unfold rayprojectiles
    have hlt : ¬ GUN_MAXRAYS ≤ i := by omega
    rw [if_neg hlt]
    have hget : ∃ r, w.rays.get? i = some r := by
      have hi' : i < w.rays.length := by
        rw [hw]
        omega
      exact ⟨w.rays.get ⟨i, hi'⟩, List.get?_eq_get hi'⟩
    obtain ⟨r, hr⟩ := hget
    rw [hr, Option.some_bind]
    obtain ⟨w', hw'⟩ := makeprojectile_isSome G E d from_ r islocal id atk a.projectile
      a.lifetime a.projspeed a.gravity a.elasticity w hp ha
    rw [hw', Option.some_bind]
    apply ih
    · omega
    · obtain ⟨_, _, _, _, _, _, _, _, _, _, _, hrays⟩ := makeprojectile_some G E d from_ r islocal id
        atk a.projectile a.lifetime a.projspeed a.gravity a.elasticity w w' hw'
      rw [hrays]
      exact hw

/-- C29: every attack of the table fires between 1 and `GUN_MAXRAYS` rays, so the indices
`0 .. rays-1` are below `GUN_MAXRAYS`, and on a ray buffer of `GUN_MAXRAYS` entries no
loop over the rays leaves the buffer: the loop of `hitscan` that fills `hits` returns
with `hits` holding one entry for each ray, the loop of `shoot` that fills `rays`
returns whenever every call of `offsetray` does, and the loop of `shoteffects`
that spawns one projectile for each ray returns for a projectile kind of the table. -/
theorem attack_rays_within_buffer (atk : Int) (a : attackinfo) (hatk : attackAt atk = some a) :
    1 ≤ a.rays ∧ a.rays ≤ (GUN_MAXRAYS : Int) ∧
    (∀ i : Nat, (i : Int) < a.rays → i < GUN_MAXRAYS) ∧
    (∀ (G : Game) (E : Engine) (from_ : vec) (d : gameent) (w : World),
      w.rays.length = GUN_MAXRAYS →
      ∃ rays' hl hh, hitscanResolve G E from_ d (a.margin : ℚ) a.rays.toNat 0 w.rays [] false
          false = some (rays', volleyhits G E from_ d (a.margin : ℚ) w.rays a.rays.toNat, hl, hh) ∧
        rays'.length = GUN_MAXRAYS ∧
        (volleyhits G E from_ d (a.margin : ℚ) w.rays a.rays.toNat).length = a.rays.toNat) ∧
    (∀ (E : Engine) (from_ to_ : vec) (d : gameent) (fuel : Nat) (w : World),
      w.rays.length = GUN_MAXRAYS →
      (∀ w1 : World, (offsetray E from_ to_ a.spread a.range d fuel w1).isSome = true) →
      (offsetrays E from_ to_ a.spread a.range d fuel a.rays.toNat 0 w).isSome = true) ∧
    (∀ (G : Game) (E : Engine) (d : gameent) (from_ : vec) (islocal : Bool) (id : Int)
        (w : World),
      w.rays.length = GUN_MAXRAYS → (projAt a.projectile).isSome = true →
      (rayprojectiles G E d from_ islocal id atk a a.rays.toNat 0 w).isSome = true) := by
  have hr := rays_in_range a (attackAt_mem hatk)
  have hn : a.rays.toNat ≤ GUN_MAXRAYS := by
    have := hr.2
    omega
  refine ⟨hr.1, hr.2, ?_, ?_, ?_, ?_⟩
  · intro i hi
    have := hr.2
    omega
  · intro G E from_ d w hw
    obtain ⟨rays', hl', hh', h1, h2⟩ := hitscanResolve_spec G E from_ d (a.margin : ℚ)
      a.rays.toNat w.rays [] [] false false (by rw [hw]; exact hn) (by simpa using hn)
    simp only [List.nil_append, List.length_nil] at h1 h2
    exact ⟨rays', hl', hh', h1, by rw [h2, hw],
      volleyhits_length G E from_ d (a.margin : ℚ) w.rays a.rays.toNat (by rw [hw]; exact hn)⟩
  · intro E from_ to_ d fuel w hw hdraw
    exact offsetrays_isSome E from_ to_ a.spread a.range d fuel hdraw a.rays.toNat 0 w
      (by omega) hw
  · intro G E d from_ islocal id w hw hp
    exact rayprojectiles_isSome G E d from_ islocal id atk a hp (by rw [hatk]; rfl) a.rays.toNat 0
      w (by omega) hw

/-- Witness of C29: the scattergun fires 20 rays, the whole buffer; the loop of `hitscan`
over the sample volley returns with 20 entries in `hits`. -/
theorem attack_rays_within_buffer_witness :
    attackAt ATK_SCATTER1 = some scatter1 ∧ scatter1.rays = 20 ∧
    ∃ rays' hl hh, hitscanResolve volleyGame sampleEngine vec.zero shooter
        (scatter1.margin : ℚ) scatter1.rays.toNat 0 volleyWorld.rays [] false false =
          some (rays', volleyhits volleyGame sampleEngine vec.zero shooter (scatter1.margin : ℚ)
            volleyWorld.rays scatter1.rays.toNat, hl, hh) ∧
      rays'.length = GUN_MAXRAYS ∧
      (volleyhits volleyGame sampleEngine vec.zero shooter (scatter1.margin : ℚ)
        volleyWorld.rays scatter1.rays.toNat).length = scatter1.rays.toNat :=
  have h := attack_rays_within_buffer ATK_SCATTER1 scatter1 rfl
  ⟨rfl, rfl, h.2.2.2.1 volleyGame sampleEngine vec.zero shooter volleyWorld rfl⟩

end game
